import Mathlib

/-!
# DesignStudio: the drawing/object model of `src/app_1.js`

A shallow embedding of the controller class `DesignStudioApp`: its shape objects, the
layer list, the selection, and the operations that mutate them (drawing, hit-testing,
selection, property editing, deletion).

Modelling conventions.

* A JavaScript number is a double: `NaN`, an infinity, or a finite value, which is kept
  as the rational it denotes.  Arithmetic rounds to the nearest double, ties to even, as
  IEEE 754 prescribes for `+`, `-`, `*` and the square root; the two zeros are one value,
  which no operation of the controller tells apart.
* A JavaScript object is an association list from property names to values, in insertion
  order.  Shape objects live in a heap and are referred to by their address, because
  `selectedObject` aliases an element of `objects`.
* The platform's conversions between strings and numbers (`parseFloat`, `Number`,
  `String`) are parameters, collected in `Builtins`; `platform` is their concrete
  instance.
* The cursor walk of the simulated users (`animateCursor`) is written with exact sums;
  its bounds come from the clamp alone.
* The document tree (SVG elements, panels, notifications) is not modelled.
-/

namespace DesignStudio

/-! ## Values and objects -/

/-- A JavaScript value as far as the controller stores one in a shape or layer record:
`undefined`, `NaN`, `Infinity` or `-Infinity`, a finite number, or a string. -/
inductive Value
  | undefined
  | nan
  | inf (neg : Bool)
  | num (q : ℚ)
  | str (s : String)
  deriving DecidableEq

/-- A JavaScript object: property names with their values, in insertion order. -/
abbrev Obj := List (String × Value)

/-- Property read `o[key]`; an absent property reads as `undefined`. -/
def getProp : Obj → String → Value
  | [], _ => Value.undefined
  | (k, v) :: o, key => if k = key then v else getProp o key

/-- Property write `o[key] = v`: overwrite in place, or add as the last property. -/
def setProp : Obj → String → Value → Obj
  | [], key, v => [(key, v)]
  | (k, w) :: o, key, v => if k = key then (k, v) :: o else (k, w) :: setProp o key v

/-- Strict equality `a === b` (`NaN` is not equal to itself). -/
def strictEq : Value → Value → Bool
  | Value.nan, _ => false
  | _, Value.nan => false
  | a, b => decide (a = b)

/-- A canvas point, as returned by `getCanvasPoint`. -/
structure Point where
  x : ℚ
  y : ℚ
  deriving DecidableEq

/-! ## Double arithmetic -/

/-- A JavaScript number: `NaN`, an infinity, or a finite double given by its value. -/
inductive Number
  | nan
  | inf (neg : Bool)
  | fin (q : ℚ)
  deriving DecidableEq

/-- The binary logarithm, rounded down, by halving at most `fuel` times. -/
def log2Aux : Nat → Nat → Nat
  | 0, _ => 0
  | fuel + 1, n => if 2 ≤ n then log2Aux fuel (n / 2) + 1 else 0

/-- The binary logarithm of a natural number, rounded down (0 for 0). -/
def ilog2 (n : Nat) : Nat := log2Aux n n

/-- Does `2 ^ e ≤ a / b` hold? (`b` positive) -/
def pow2Le (e : Int) (a b : Nat) : Bool :=
  if 0 ≤ e then decide (b * 2 ^ e.toNat ≤ a) else decide (b ≤ a * 2 ^ (-e).toNat)

/-- The exponent of `a / b`: the integer `e` with `2 ^ e ≤ a / b < 2 ^ (e + 1)`
(`a` and `b` positive). -/
def floorLog2 (a b : Nat) : Int :=
  if pow2Le ((ilog2 a : Int) - (ilog2 b : Int)) a b then
    (ilog2 a : Int) - (ilog2 b : Int)
  else (ilog2 a : Int) - (ilog2 b : Int) - 1

/-- The integer nearest to `num / den`, the even one of two nearest. -/
def roundHalfEven (num den : Nat) : Nat :=
  if 2 * (num % den) < den then num / den
  else if den < 2 * (num % den) then num / den + 1
  else if (num / den) % 2 = 0 then num / den
  else num / den + 1

/-- The value `n · 2 ^ k`. -/
def scale2 (n : Nat) (k : Int) : ℚ :=
  if 0 ≤ k then ((n * 2 ^ k.toNat : Nat) : ℚ) else (n : ℚ) / ((2 ^ (-k).toNat : Nat) : ℚ)

/-- The integer nearest to `(a / b) / 2 ^ k`, the even one of two nearest. -/
def roundScaled (a b : Nat) (k : Int) : Nat :=
  if 0 ≤ k then roundHalfEven a (b * 2 ^ k.toNat) else roundHalfEven (a * 2 ^ (-k).toNat) b

/-- The double nearest to the positive rational `a / b` (round to nearest, ties to even):
53 significant bits, exponents from -1022 (below that the spacing stays `2 ^ -1074`),
and `Infinity` from `2 ^ 1024` on. -/
def roundPos (a b : Nat) : Number :=
  let k : Int := max (floorLog2 a b) (-1022) - 52
  let n := roundScaled a b k
  if 971 < k ∨ (k = 971 ∧ 2 ^ 53 ≤ n) then Number.inf false else Number.fin (scale2 n k)

/-- The operation `-x`. -/
def jsNeg : Number → Number
  | Number.nan => Number.nan
  | Number.inf b => Number.inf (!b)
  | Number.fin q => Number.fin (-q)

/-- The double nearest to a rational. -/
def roundDouble (q : ℚ) : Number :=
  if q = 0 then Number.fin 0
  else if 0 < q then roundPos q.num.toNat q.den
  else jsNeg (roundPos (-q).num.toNat q.den)

/-- The operation `x + y` on doubles. -/
def jsPlus : Number → Number → Number
  | Number.nan, _ => Number.nan
  | _, Number.nan => Number.nan
  | Number.inf a, Number.inf b => if a = b then Number.inf a else Number.nan
  | Number.inf a, Number.fin _ => Number.inf a
  | Number.fin _, Number.inf b => Number.inf b
  | Number.fin x, Number.fin y => roundDouble (x + y)

/-- The operation `x - y` on doubles. -/
def jsSub (x y : Number) : Number := jsPlus x (jsNeg y)

/-- The operation `x * y` on doubles. -/
def jsMul : Number → Number → Number
  | Number.nan, _ => Number.nan
  | _, Number.nan => Number.nan
  | Number.inf a, Number.inf b => Number.inf (a != b)
  | Number.inf a, Number.fin y => if y = 0 then Number.nan else Number.inf (a != decide (y < 0))
  | Number.fin x, Number.inf b => if x = 0 then Number.nan else Number.inf (b != decide (x < 0))
  | Number.fin x, Number.fin y => roundDouble (x * y)

/-- Binary search for the integer square root: the result `r` keeps `r * r ≤ n`, bits are
tried from `2 ^ (i - 1)` down. -/
def isqrtAux (n : Nat) : Nat → Nat → Nat
  | 0, r => r
  | i + 1, r => isqrtAux n i (if (r + 2 ^ i) * (r + 2 ^ i) ≤ n then r + 2 ^ i else r)

/-- The integer square root, rounded down. -/
def isqrt (n : Nat) : Nat := isqrtAux n (ilog2 n / 2 + 1) 0

/-- The integer nearest to the square root of `num / den`, the even one of two nearest. -/
def roundSqrt (num den : Nat) : Nat :=
  let r := isqrt (num / den)
  if 4 * num < (2 * r + 1) * (2 * r + 1) * den then r
  else if (2 * r + 1) * (2 * r + 1) * den < 4 * num then r + 1
  else if r % 2 = 0 then r
  else r + 1

/-- The double nearest to the square root of the positive rational `a / b`. -/
def sqrtPos (a b : Nat) : Number :=
  let k : Int := Int.fdiv (floorLog2 a b) 2 - 52
  let n := if 0 ≤ k then roundSqrt a (b * 2 ^ (2 * k).toNat)
    else roundSqrt (a * 2 ^ (-(2 * k)).toNat) b
  Number.fin (scale2 n k)

/-- The function `Math.sqrt`. -/
def jsSqrt : Number → Number
  | Number.nan => Number.nan
  | Number.inf b => if b then Number.nan else Number.inf false
  | Number.fin q =>
    if q < 0 then Number.nan
    else if q = 0 then Number.fin 0
    else sqrtPos q.num.toNat q.den

/-- The finite double nearest to `q` (0 when that is an infinity): the value of a
numeric literal. -/
def double (q : ℚ) : ℚ :=
  match roundDouble q with
  | Number.fin v => v
  | _ => 0

/-- The rational is the value of a finite double: rounding leaves it as it is. -/
def isDouble (q : ℚ) : Prop := roundDouble q = Number.fin q

instance (q : ℚ) : Decidable (isDouble q) := by
  unfold isDouble
  infer_instance

/-- The comparison `a < b`; false when an operand is `NaN`. -/
def jsLt : Number → Number → Bool
  | Number.nan, _ => false
  | _, Number.nan => false
  | Number.inf a, Number.inf b => a && !b
  | Number.inf a, Number.fin _ => a
  | Number.fin _, Number.inf b => !b
  | Number.fin x, Number.fin y => decide (x < y)

/-- The comparison `a <= b`; false when an operand is `NaN`. -/
def jsLe : Number → Number → Bool
  | Number.nan, _ => false
  | _, Number.nan => false
  | Number.inf a, Number.inf b => a || !b
  | Number.inf a, Number.fin _ => a
  | Number.fin _, Number.inf b => !b
  | Number.fin x, Number.fin y => decide (x ≤ y)

/-- The comparison `a > b`; false when an operand is `NaN`. -/
def jsGt (a b : Number) : Bool := jsLt b a

/-- The comparison `a >= b`; false when an operand is `NaN`. -/
def jsGe (a b : Number) : Bool := jsLe b a

/-- The function `Math.abs`. -/
def jsAbs : Number → Number
  | Number.nan => Number.nan
  | Number.inf _ => Number.inf false
  | Number.fin x => Number.fin |x|

/-- The function `Math.min` of two arguments. -/
def jsMin : Number → Number → Number
  | Number.nan, _ => Number.nan
  | _, Number.nan => Number.nan
  | a, b => if jsLe a b then a else b

/-! ## Platform functions -/

/-- The platform's conversions between strings and numbers: the global `parseFloat`, the
conversion `Number(s)` of a string, and the conversion `String(x)` of a finite number. -/
structure Builtins where
  parseFloat : String → Number
  stringToNumber : String → Number
  numberToString : ℚ → String

/-- The abstract operation `ToNumber`. -/
def toNumber (B : Builtins) : Value → Number
  | Value.undefined => Number.nan
  | Value.nan => Number.nan
  | Value.inf b => Number.inf b
  | Value.num q => Number.fin q
  | Value.str s => B.stringToNumber s

/-- A computed number stored as a value. -/
def ofNumber : Number → Value
  | Number.nan => Value.nan
  | Number.inf b => Value.inf b
  | Number.fin q => Value.num q

/-- The abstract operation `ToString`. -/
def toStr (B : Builtins) : Value → String
  | Value.undefined => "undefined"
  | Value.nan => "NaN"
  | Value.inf b => if b then "-Infinity" else "Infinity"
  | Value.num q => B.numberToString q
  | Value.str s => s

/-- The operator `a + b`: concatenation when an operand is a string, else addition. -/
def jsAdd (B : Builtins) : Value → Value → Value
  | Value.str s, b => Value.str (s ++ toStr B b)
  | a, Value.str t => Value.str (toStr B a ++ t)
  | a, b => ofNumber (jsPlus (toNumber B a) (toNumber B b))

/-! ## Controller state -/

/-- An entry of `data.layers`. -/
structure Layer where
  id : Value
  name : String
  type : Value
  visible : Bool
  locked : Bool
  properties : Obj
  deriving DecidableEq

/-- The fields of `DesignStudioApp` that the drawing/object model reads or writes.
`heap` holds every shape object ever committed; `objects` (the array `this.objects`) and
`selectedObject` hold addresses into it; `layers` is `this.data.layers`. -/
structure App where
  currentTool : String
  selectedObject : Option Nat
  isDrawing : Bool
  drawingPath : Option Obj
  heap : List Obj
  objects : List Nat
  layers : List Layer
  deriving DecidableEq

/-- The seeded `Background` entry of `data.layers`. -/
def backgroundLayer : Layer where
  id := Value.str "layer-1"
  name := "Background"
  type := Value.str "rectangle"
  visible := true
  locked := false
  properties :=
    [("x", Value.num 0), ("y", Value.num 0), ("width", Value.num 375),
     ("height", Value.num 812), ("fill", Value.str "#F8F9FA"), ("stroke", Value.str "none")]

/-- The state built by the constructor. -/
def init : App where
  currentTool := "select"
  selectedObject := none
  isDrawing := false
  drawingPath := none
  heap := []
  objects := []
  layers := [backgroundLayer]

/-- The object at an address (addresses outside the heap read as the empty object). -/
def deref (s : App) (r : Nat) : Obj := s.heap.getD r []

/-- The test `o.type === t` of a `switch` over the shape kind. -/
def isType (o : Obj) (t : String) : Bool := strictEq (getProp o "type") (Value.str t)

/-! ## Operations -/

/-- The method `selectTool`. -/
def selectTool (toolId : String) (s : App) : App := { s with currentTool := toolId }

/-- The method `startDrawing`; `now` is the value of `Date.now()`. -/
def startDrawing (now : Nat) (point : Point) (s : App) : App :=
  let id := Value.str ("obj-" ++ toString now)
  if s.currentTool = "rectangle" then
    { s with drawingPath := some (
        [("id", id), ("type", Value.str "rectangle"),
         ("startX", Value.num point.x), ("startY", Value.num point.y),
         ("x", Value.num point.x), ("y", Value.num point.y),
         ("width", Value.num 0), ("height", Value.num 0),
         ("fill", Value.str "#4ECDC4"), ("stroke", Value.str "#333"),
         ("strokeWidth", Value.num 2)]) }
  else if s.currentTool = "circle" then
    { s with drawingPath := some (
        [("id", id), ("type", Value.str "circle"),
         ("startX", Value.num point.x), ("startY", Value.num point.y),
         ("cx", Value.num point.x), ("cy", Value.num point.y),
         ("r", Value.num 0),
         ("fill", Value.str "#FF6B6B"), ("stroke", Value.str "#333"),
         ("strokeWidth", Value.num 2)]) }
  else if s.currentTool = "line" then
    { s with drawingPath := some (
        [("id", id), ("type", Value.str "line"),
         ("x1", Value.num point.x), ("y1", Value.num point.y),
         ("x2", Value.num point.x), ("y2", Value.num point.y),
         ("stroke", Value.str "#333"), ("strokeWidth", Value.num 2)]) }
  else s

/-- The method `updateDrawing`. -/
def updateDrawing (B : Builtins) (point : Point) (s : App) : App :=
  match s.drawingPath with
  | none => s
  | some dp =>
    if isType dp "rectangle" then
      let dp1 := setProp dp "width"
        (ofNumber (jsAbs (jsSub (Number.fin point.x) (toNumber B (getProp dp "startX")))))
      let dp2 := setProp dp1 "height"
        (ofNumber (jsAbs (jsSub (Number.fin point.y) (toNumber B (getProp dp1 "startY")))))
      let dp3 := setProp dp2 "x"
        (ofNumber (jsMin (Number.fin point.x) (toNumber B (getProp dp2 "startX"))))
      let dp4 := setProp dp3 "y"
        (ofNumber (jsMin (Number.fin point.y) (toNumber B (getProp dp3 "startY"))))
      { s with drawingPath := some dp4 }
    else if isType dp "circle" then
      let dx := jsSub (Number.fin point.x) (toNumber B (getProp dp "startX"))
      let dy := jsSub (Number.fin point.y) (toNumber B (getProp dp "startY"))
      let r := ofNumber (jsSqrt (jsPlus (jsMul dx dx) (jsMul dy dy)))
      { s with drawingPath := some (setProp dp "r" r) }
    else if isType dp "line" then
      let dp1 := setProp dp "x2" (Value.num point.x)
      { s with drawingPath := some (setProp dp1 "y2" (Value.num point.y)) }
    else s

/-- The local `shouldAdd` of `finishDrawing`: the minimum-size test. -/
def shouldAdd (B : Builtins) (dp : Obj) : Bool :=
  if isType dp "rectangle" then
    jsGt (toNumber B (getProp dp "width")) (Number.fin 5) &&
      jsGt (toNumber B (getProp dp "height")) (Number.fin 5)
  else if isType dp "circle" then
    jsGt (toNumber B (getProp dp "r")) (Number.fin 5)
  else if isType dp "line" then
    let dx := jsSub (toNumber B (getProp dp "x2")) (toNumber B (getProp dp "x1"))
    let dy := jsSub (toNumber B (getProp dp "y2")) (toNumber B (getProp dp "y1"))
    jsGt (jsSqrt (jsPlus (jsMul dx dx) (jsMul dy dy))) (Number.fin 5)
  else false

/-- The layer record pushed by `finishDrawing`; `n` is `this.objects.length` after the
push of the shape. -/
def newLayer (B : Builtins) (dp : Obj) (n : Nat) : Layer where
  id := getProp dp "id"
  name := toStr B (getProp dp "type") ++ " " ++ toString n
  type := getProp dp "type"
  visible := true
  locked := false
  properties := dp

/-- The method `finishDrawing` (its `point` argument is not used by the source). -/
def finishDrawing (B : Builtins) (s : App) : App :=
  match s.drawingPath with
  | none => s
  | some dp =>
    if shouldAdd B dp then
      selectTool "select"
        { s with
          heap := s.heap ++ [dp]
          objects := s.objects ++ [s.heap.length]
          layers := s.layers ++ [newLayer B dp (s.objects.length + 1)]
          drawingPath := none }
    else
      { s with drawingPath := none }

/-- The method `isPointInObject`. -/
def isPointInObject (B : Builtins) (point : Point) (obj : Obj) : Bool :=
  if isType obj "rectangle" then
    jsGe (Number.fin point.x) (toNumber B (getProp obj "x")) &&
    jsLe (Number.fin point.x) (toNumber B (jsAdd B (getProp obj "x") (getProp obj "width"))) &&
    jsGe (Number.fin point.y) (toNumber B (getProp obj "y")) &&
    jsLe (Number.fin point.y) (toNumber B (jsAdd B (getProp obj "y") (getProp obj "height")))
  else if isType obj "circle" then
    let dx := jsSub (Number.fin point.x) (toNumber B (getProp obj "cx"))
    let dy := jsSub (Number.fin point.y) (toNumber B (getProp obj "cy"))
    jsLe (jsSqrt (jsPlus (jsMul dx dx) (jsMul dy dy))) (toNumber B (getProp obj "r"))
  else false

/-- The method `getObjectAtPoint`: the first object of `objects` that is hit, or `null`. -/
def getObjectAtPoint (B : Builtins) (point : Point) (s : App) : Option Nat :=
  s.objects.find? (fun r => isPointInObject B point (deref s r))

/-- The state change of the method `selectObject`. -/
def selectObject (obj : Option Nat) (s : App) : App := { s with selectedObject := obj }

/-- The method `deleteSelectedObject`. -/
def deleteSelectedObject (s : App) : App :=
  match s.selectedObject with
  | none => s
  | some r =>
    let sid := getProp (deref s r) "id"
    { s with
      objects := s.objects.filter (fun a => !strictEq (getProp (deref s a) "id") sid)
      layers := s.layers.filter (fun l => !strictEq l.id sid)
      selectedObject := none }

/-- In-place update of the first list entry satisfying `p` (`find`, then a field write). -/
def updateFirst (p : Layer → Bool) (f : Layer → Layer) : List Layer → List Layer
  | [] => []
  | l :: ls => if p l then f l :: ls else l :: updateFirst p f ls

/-- The local `finalValue` of `updateObjectProperty`. -/
def finalValue (B : Builtins) (value : String) : Value :=
  match B.parseFloat value with
  | Number.nan => Value.str value
  | x => ofNumber x

/-- The method `updateObjectProperty`. -/
def updateObjectProperty (B : Builtins) (property value : String) (s : App) : App :=
  match s.selectedObject with
  | none => s
  | some r =>
    let sel := setProp (deref s r) property (finalValue B value)
    { s with
      heap := s.heap.set r sel
      layers := updateFirst (fun l => strictEq l.id (getProp sel "id"))
        (fun l => { l with properties := setProp l.properties property (finalValue B value) })
        s.layers }

/-! ## Input handlers -/

/-- The handler `onCanvasMouseDown`. -/
def onCanvasMouseDown (now : Nat) (point : Point) (s : App) : App :=
  if s.currentTool = "select" then s
  else startDrawing now point { s with isDrawing := true }

/-- The handler `onCanvasMouseMove`. -/
def onCanvasMouseMove (B : Builtins) (point : Point) (s : App) : App :=
  if s.isDrawing then updateDrawing B point s else s

/-- The handler `onCanvasMouseUp`. -/
def onCanvasMouseUp (B : Builtins) (s : App) : App :=
  if s.isDrawing then { finishDrawing B s with isDrawing := false } else s

/-- The handler `onCanvasClick`. -/
def onCanvasClick (B : Builtins) (point : Point) (s : App) : App :=
  if s.currentTool = "select" then selectObject (getObjectAtPoint B point s) s else s

/-- The click handler that `renderLayers` attaches to the entry of `layer`. -/
def onLayerClick (layer : Layer) (s : App) : App :=
  selectObject (s.objects.find? (fun r => strictEq (getProp (deref s r) "id") layer.id)) s

/-- The `delete`/`backspace` branch of the keyboard handler. -/
def onDeleteKey (s : App) : App :=
  if s.selectedObject.isSome then deleteSelectedObject s else s

/-- A user input to the controller.  `layerClick i` is a click on the entry rendered for
`data.layers[i]`; `propertyChange` is an `onchange` call of `updateObjectProperty`. -/
inductive Event
  | tool (toolId : String)
  | mouseDown (now : Nat) (point : Point)
  | mouseMove (point : Point)
  | mouseUp
  | click (point : Point)
  | layerClick (i : Nat)
  | propertyChange (property value : String)
  | deleteKey

/-- The reaction of the controller to one input. -/
def step (B : Builtins) (s : App) : Event → App
  | Event.tool toolId => selectTool toolId s
  | Event.mouseDown now point => onCanvasMouseDown now point s
  | Event.mouseMove point => onCanvasMouseMove B point s
  | Event.mouseUp => onCanvasMouseUp B s
  | Event.click point => onCanvasClick B point s
  | Event.layerClick i =>
    match s.layers.get? i with
    | some layer => onLayerClick layer s
    | none => s
  | Event.propertyChange property value => updateObjectProperty B property value s
  | Event.deleteKey => onDeleteKey s

/-- The state after a sequence of inputs. -/
def run (B : Builtins) (s : App) (es : List Event) : App := es.foldl (step B) s

/-- The property names for which `showObjectProperties` renders an input field. -/
def formFields : List String :=
  ["x", "y", "width", "height", "r", "fill", "stroke", "strokeWidth"]

/-- An input the page can produce: a property change comes from a field of the form. -/
def Event.fromPage : Event → Prop
  | Event.propertyChange property _ => property ∈ formFields
  | _ => True

/-- The states the controller reaches from the constructor's state through the page. -/
def Reachable (B : Builtins) (s : App) : Prop :=
  ∃ es : List Event, (∀ e ∈ es, e.fromPage) ∧ s = run B init es

/-! ## A concrete instance of the platform functions

Used to evaluate the model on concrete inputs. -/


/-- White space as skipped by `parseFloat` and trimmed by `Number`. -/
def isWhiteSpace (c : Char) : Bool :=
  c.toNat = 32 || (9 ≤ c.toNat && c.toNat ≤ 13) || c.toNat = 160 || c.toNat = 5760 ||
  (8192 ≤ c.toNat && c.toNat ≤ 8202) || c.toNat = 8232 || c.toNat = 8233 ||
  c.toNat = 8239 || c.toNat = 8287 || c.toNat = 12288 || c.toNat = 65279

/-- The number written by a string of decimal digits. -/
def digitsToNat (cs : List Char) : Nat := cs.foldl (fun n c => 10 * n + (c.toNat - 48)) 0

/-- The exponent part at the head of `cs`, if there is one: its sign, its value, and the
characters after it. -/
def parseExponent : List Char → Option (Bool × Nat × List Char)
  | [] => none
  | e :: t =>
    if e = 'e' ∨ e = 'E' then
      let neg := t.head? = some '-'
      let u := if t.head? = some '-' ∨ t.head? = some '+' then t.tail else t
      if u.takeWhile Char.isDigit = [] then none
      else some (neg, digitsToNat (u.takeWhile Char.isDigit), u.dropWhile Char.isDigit)
    else none

/-- The longest unsigned decimal literal at the head of `cs`: its exact value and the
rest. -/
def parseUnsigned (cs : List Char) : Option (ℚ × List Char) :=
  let ip := cs.takeWhile Char.isDigit
  let r1 := cs.dropWhile Char.isDigit
  let fp := if r1.head? = some '.' then r1.tail.takeWhile Char.isDigit else []
  let r2 := if r1.head? = some '.' then r1.tail.dropWhile Char.isDigit else r1
  if ip = [] ∧ fp = [] then none
  else
    let mant : ℚ := (digitsToNat (ip ++ fp) : ℚ) / (10 : ℚ) ^ fp.length
    match parseExponent r2 with
    | some (true, e, r3) => some (mant / (10 : ℚ) ^ e, r3)
    | some (false, e, r3) => some (mant * (10 : ℚ) ^ e, r3)
    | none => some (mant, r2)

/-- The longest unsigned literal at the head of `cs`, `Infinity` included: its value as a
double and the rest. -/
def parseMagnitude (cs : List Char) : Option (Number × List Char) :=
  if cs.take 8 = "Infinity".toList then some (Number.inf false, cs.drop 8)
  else (parseUnsigned cs).map (fun p => (roundDouble p.1, p.2))

/-- A signed literal at the head of `cs`. -/
def parseSigned (cs : List Char) : Option (Number × List Char) :=
  if cs.head? = some '-' then (parseMagnitude cs.tail).map (fun p => (jsNeg p.1, p.2))
  else if cs.head? = some '+' then parseMagnitude cs.tail
  else parseMagnitude cs

/-- The global function `parseFloat`. -/
def parseFloat (s : String) : Number :=
  match parseSigned (s.toList.dropWhile isWhiteSpace) with
  | some (x, _) => x
  | none => Number.nan

/-- The value of a digit in a base up to 16, if it is one. -/
def digitIn (base : Nat) (c : Char) : Option Nat :=
  let v := if c.isDigit then c.toNat - 48
    else if 97 ≤ c.toNat ∧ c.toNat ≤ 102 then c.toNat - 87
    else if 65 ≤ c.toNat ∧ c.toNat ≤ 70 then c.toNat - 55
    else 16
  if v < base then some v else none

/-- The number written by a non-empty string of digits in a base. -/
def parseRadix (base : Nat) (cs : List Char) : Number :=
  if cs = [] then Number.nan
  else
    match cs.foldl (fun acc c => acc.bind (fun n => (digitIn base c).map (fun v => n * base + v)))
        (some 0) with
    | some n => roundDouble n
    | none => Number.nan

/-- The conversion `Number(s)` of a string. -/
def stringToNumber (s : String) : Number :=
  let cs := ((s.toList.dropWhile isWhiteSpace).reverse.dropWhile isWhiteSpace).reverse
  if cs = [] then Number.fin 0
  else if cs.take 2 = ['0', 'x'] ∨ cs.take 2 = ['0', 'X'] then parseRadix 16 (cs.drop 2)
  else if cs.take 2 = ['0', 'o'] ∨ cs.take 2 = ['0', 'O'] then parseRadix 8 (cs.drop 2)
  else if cs.take 2 = ['0', 'b'] ∨ cs.take 2 = ['0', 'B'] then parseRadix 2 (cs.drop 2)
  else
    match parseSigned cs with
    | some (x, []) => x
    | _ => Number.nan

/-- The number of decimal digits of a natural number. -/
def decimalLength (n : Nat) : Nat := (Nat.toDigits 10 n).length

/-- The integer `n` with `10 ^ (n - 1) ≤ q < 10 ^ n`, for positive `q`. -/
def decimalExponent (q : ℚ) : Int :=
  if 1 ≤ q then (decimalLength q.floor.toNat : Int)
  else if 1 ≤ q * 10 ^ (decimalLength (1 / q).floor.toNat - 1) then
    2 - (decimalLength (1 / q).floor.toNat : Int)
  else 1 - (decimalLength (1 / q).floor.toNat : Int)

/-- The rational `10 ^ e`. -/
def pow10 (e : Int) : ℚ := if 0 ≤ e then (10 : ℚ) ^ e.toNat else 1 / (10 : ℚ) ^ (-e).toNat

/-- The digits `s` and the exponent `n` of the decimal with `k` digits that is nearest
to the positive double `q`, if `s · 10 ^ (n - k)` reads back as `q`. -/
def digitsOfLength (q : ℚ) (k : Nat) : Option (Nat × Int) :=
  let n := decimalExponent q
  let t := q / pow10 (n - k)
  let lo := t.floor.toNat
  let okLo := decide (roundDouble (lo * pow10 (n - k)) = Number.fin q) && decide (10 ^ (k - 1) ≤ lo)
  let okHi := decide (roundDouble ((lo + 1) * pow10 (n - k)) = Number.fin q)
  let hi : Nat × Int := if lo + 1 = 10 ^ k then (10 ^ (k - 1), n + 1) else (lo + 1, n)
  if okLo && okHi then
    if t - lo < (lo + 1) - t then some (lo, n)
    else if (lo + 1) - t < t - lo then some hi
    else if lo % 2 = 0 then some (lo, n) else some hi
  else if okLo then some (lo, n)
  else if okHi then some hi
  else none

/-- The shortest decimal that reads back as the positive double `q`: the first length,
from `k` on and at most `k + fuel`, for which `digitsOfLength` succeeds. -/
def shortestDigits (q : ℚ) : Nat → Nat → Nat × Int
  | 0, k => ((q / pow10 (decimalExponent q - k)).floor.toNat, decimalExponent q)
  | fuel + 1, k =>
    match digitsOfLength q k with
    | some r => r
    | none => shortestDigits q fuel (k + 1)

/-- The text of a non-negative integer. -/
def natText (n : Nat) : List Char := Nat.toDigits 10 n

/-- The conversion of a positive double to a string, from its digits `ds` and its
decimal exponent `n`. -/
def formatDigits (ds : List Char) (n : Int) : List Char :=
  if (ds.length : Int) ≤ n ∧ n ≤ 21 then ds ++ List.replicate (n.toNat - ds.length) '0'
  else if 0 < n ∧ n ≤ 21 then ds.take n.toNat ++ '.' :: ds.drop n.toNat
  else if -6 < n ∧ n ≤ 0 then '0' :: '.' :: (List.replicate (-n).toNat '0' ++ ds)
  else
    (if ds.length = 1 then ds else ds.take 1 ++ '.' :: ds.drop 1) ++
      'e' :: (if 0 ≤ n - 1 then '+' else '-') :: natText (n - 1).natAbs

/-- The conversion of a finite number to a string (`Number::toString`). -/
def numberToString (q : ℚ) : String :=
  if q = 0 then "0"
  else
    String.mk
      ((if q < 0 then ['-'] else []) ++
        formatDigits (natText (shortestDigits |q| 17 1).1) (shortestDigits |q| 17 1).2)

/-- The platform functions, concretely. -/
def platform : Builtins where
  parseFloat := parseFloat
  stringToNumber := stringToNumber
  numberToString := numberToString

/-! ## The size threshold -/

/-- The value denotes a number greater than `c`. -/
def numGt (B : Builtins) (v : Value) (c : ℚ) : Prop :=
  jsGt (toNumber B v) (Number.fin c) = true

/-- The distance between the end points of the line `o` as `finishDrawing` computes it:
`Math.sqrt(dx * dx + dy * dy)` with `dx = x2 - x1` and `dy = y2 - y1`, every operation
rounded to a double. -/
def lineLength (B : Builtins) (o : Obj) : Number :=
  jsSqrt (jsPlus
    (jsMul (jsSub (toNumber B (getProp o "x2")) (toNumber B (getProp o "x1")))
      (jsSub (toNumber B (getProp o "x2")) (toNumber B (getProp o "x1"))))
    (jsMul (jsSub (toNumber B (getProp o "y2")) (toNumber B (getProp o "y1")))
      (jsSub (toNumber B (getProp o "y2")) (toNumber B (getProp o "y1")))))

/-- The distance of the point from the centre of the circle `o` as `isPointInObject`
computes it: `Math.sqrt(dx * dx + dy * dy)` with `dx = point.x - cx` and
`dy = point.y - cy`, every operation rounded to a double. -/
def centreDistance (B : Builtins) (point : Point) (o : Obj) : Number :=
  jsSqrt (jsPlus
    (jsMul (jsSub (Number.fin point.x) (toNumber B (getProp o "cx")))
      (jsSub (Number.fin point.x) (toNumber B (getProp o "cx"))))
    (jsMul (jsSub (Number.fin point.y) (toNumber B (getProp o "cy")))
      (jsSub (Number.fin point.y) (toNumber B (getProp o "cy")))))

/-- A provisional shape above the size threshold: a rectangle wider and higher than 5,
a circle of radius greater than 5, a line whose computed length is greater than 5. -/
def aboveThreshold (B : Builtins) (o : Obj) : Prop :=
  (getProp o "type" = Value.str "rectangle" ∧
    numGt B (getProp o "width") 5 ∧ numGt B (getProp o "height") 5) ∨
  (getProp o "type" = Value.str "circle" ∧ numGt B (getProp o "r") 5) ∨
  (getProp o "type" = Value.str "line" ∧ jsGt (lineLength B o) (Number.fin 5) = true)

/-- A provisional shape below the size threshold: a rectangle whose width or height is
not greater than 5, a circle whose radius is not greater than 5, a line whose computed
length is not greater than 5. -/
def belowThreshold (B : Builtins) (o : Obj) : Prop :=
  (getProp o "type" = Value.str "rectangle" ∧
    (¬ numGt B (getProp o "width") 5 ∨ ¬ numGt B (getProp o "height") 5)) ∨
  (getProp o "type" = Value.str "circle" ∧ ¬ numGt B (getProp o "r") 5) ∨
  (getProp o "type" = Value.str "line" ∧ ¬ jsGt (lineLength B o) (Number.fin 5) = true)

/-- The exact square of the distance between the end points of a line whose coordinates
are numbers: `(x2 - x1)^2 + (y2 - y1)^2` with no rounding. -/
def exactLengthSq (o : Obj) : Option ℚ :=
  match getProp o "x1", getProp o "y1", getProp o "x2", getProp o "y2" with
  | Value.num a, Value.num b, Value.num c, Value.num d => some ((c - a) ^ 2 + (d - b) ^ 2)
  | _, _, _, _ => none

/-- The array `this.objects` with each address replaced by the object it refers to. -/
def objectList (s : App) : List Obj := s.objects.map (deref s)

/-! ## Sample states -/

/-- A provisional rectangle 3 wide and 50 high. -/
def smallRectangle : Obj :=
  [("id", Value.str "obj-1"), ("type", Value.str "rectangle"),
   ("startX", Value.num 10), ("startY", Value.num 10),
   ("x", Value.num 10), ("y", Value.num 10),
   ("width", Value.num 3), ("height", Value.num 50),
   ("fill", Value.str "#4ECDC4"), ("stroke", Value.str "#333"),
   ("strokeWidth", Value.num 2)]

/-- A provisional rectangle 50 wide and 50 high, with corner (10, 10). -/
def bigRectangle : Obj :=
  [("id", Value.str "obj-1"), ("type", Value.str "rectangle"),
   ("startX", Value.num 10), ("startY", Value.num 10),
   ("x", Value.num 10), ("y", Value.num 10),
   ("width", Value.num 50), ("height", Value.num 50),
   ("fill", Value.str "#4ECDC4"), ("stroke", Value.str "#333"),
   ("strokeWidth", Value.num 2)]

/-- A provisional line from (0, 0) to (3, 4). -/
def shortLine : Obj :=
  [("id", Value.str "obj-1"), ("type", Value.str "line"),
   ("x1", Value.num 0), ("y1", Value.num 0),
   ("x2", Value.num 3), ("y2", Value.num 4),
   ("stroke", Value.str "#333"), ("strokeWidth", Value.num 2)]

/-- The rectangle tool is chosen, the pointer pressed at (10, 10) and moved to (13, 60). -/
def drawingSmall : App :=
  run platform init
    [Event.tool "rectangle", Event.mouseDown 1 ⟨10, 10⟩, Event.mouseMove ⟨13, 60⟩]

/-- The rectangle tool is chosen, the pointer pressed at (10, 10) and moved to (60, 60). -/
def drawingBig : App :=
  run platform init
    [Event.tool "rectangle", Event.mouseDown 1 ⟨10, 10⟩, Event.mouseMove ⟨60, 60⟩]

/-- The line tool is chosen, the pointer pressed at (0, 0) and moved to (3, 4). -/
def drawingLine : App :=
  run platform init
    [Event.tool "line", Event.mouseDown 1 ⟨0, 0⟩, Event.mouseMove ⟨3, 4⟩]

/-- One rectangle, from (10, 10) to (60, 60), is drawn and released. -/
def drawOne : List Event :=
  [Event.tool "rectangle", Event.mouseDown 1 ⟨10, 10⟩, Event.mouseMove ⟨60, 60⟩, Event.mouseUp]

/-- The state after `drawOne`. -/
def afterCommit : App := run platform init drawOne

/-- The state after `drawOne` and a click at (20, 20). -/
def oneSelected : App := run platform init (drawOne ++ [Event.click ⟨20, 20⟩])

/-- Two rectangles are drawn whose `startDrawing` calls read the same `Date.now()`, 7
(each release of the pointer is followed by the click the browser reports for it);
then the first rectangle is clicked. -/
def sameStamp : List Event :=
  [Event.tool "rectangle", Event.mouseDown 7 ⟨10, 10⟩, Event.mouseMove ⟨60, 60⟩, Event.mouseUp,
   Event.click ⟨60, 60⟩,
   Event.tool "rectangle", Event.mouseDown 7 ⟨100, 100⟩, Event.mouseMove ⟨150, 150⟩,
   Event.mouseUp, Event.click ⟨150, 150⟩,
   Event.click ⟨20, 20⟩]

/-- The state after `sameStamp`. -/
def twinsSelected : App := run platform init sameStamp

/-- A circle with centre (50, 50) and radius 10. -/
def sampleCircle : Obj :=
  [("id", Value.str "obj-1"), ("type", Value.str "circle"),
   ("startX", Value.num 50), ("startY", Value.num 50),
   ("cx", Value.num 50), ("cy", Value.num 50), ("r", Value.num 10),
   ("fill", Value.str "#FF6B6B"), ("stroke", Value.str "#333"),
   ("strokeWidth", Value.num 2)]

/-- A line from (0, 0) to (30, 40) is drawn and released. -/
def afterLine : App :=
  run platform init
    [Event.tool "line", Event.mouseDown 1 ⟨0, 0⟩, Event.mouseMove ⟨30, 40⟩, Event.mouseUp]

/-! ## Simulated users -/

/-- An entry of `data.users`. -/
structure User where
  id : String
  name : String
  avatar : String
  cursor : Point
  isOnline : Bool
  deriving DecidableEq

/-- The first seeded user. -/
def userAlex : User where
  id := "user-1"
  name := "Alex Chen"
  avatar := "#FF6B6B"
  cursor := ⟨250, 180⟩
  isOnline := true

/-- The second seeded user. -/
def userSarah : User where
  id := "user-2"
  name := "Sarah Kim"
  avatar := "#4ECDC4"
  cursor := ⟨320, 240⟩
  isOnline := true

/-- The seeded `data.users`. -/
def seedUsers : List User := [userAlex, userSarah]

/-- One run of the timer callback of `animateCursor`; `rx` and `ry` are the two values
returned by `Math.random()`. -/
def animateCursor (rx ry : ℚ) (user : User) : User :=
  let x1 := user.cursor.x + (rx - 1 / 2) * 20
  let y1 := user.cursor.y + (ry - 1 / 2) * 20
  { user with cursor := ⟨max 0 (min 375 x1), max 0 (min 812 y1)⟩ }

/-- Successive runs of the timer callback, one for each pair of random values. -/
def animateTicks (draws : List (ℚ × ℚ)) (user : User) : User :=
  draws.foldl (fun u d => animateCursor d.1 d.2 u) user

/-! ## Keyboard shortcuts -/

/-- A `keydown` event as the shortcut handler reads it; `targetTag` is
`e.target.tagName`. -/
structure KeyEvent where
  key : String
  targetTag : String
  ctrlKey : Bool
  metaKey : Bool
  shiftKey : Bool
  deriving DecidableEq

/-- The method `undo`, which only shows a notification. -/
def undo (s : App) : App := s

/-- The method `redo`, which only shows a notification. -/
def redo (s : App) : App := s

/-- The handler installed by `setupKeyboardShortcuts`.  `toLowerCase` is the platform's
string method; `modalOpen` says whether the document has a modal that is not hidden. -/
def onKeyDown (toLowerCase : String → String) (modalOpen : Bool) (e : KeyEvent)
    (s : App) : App :=
  if e.targetTag = "INPUT" ∨ e.targetTag = "TEXTAREA" then s
  else if modalOpen then s
  else if toLowerCase e.key = "v" then selectTool "select" s
  else if toLowerCase e.key = "p" then selectTool "pen" s
  else if toLowerCase e.key = "r" then selectTool "rectangle" s
  else if toLowerCase e.key = "o" then selectTool "circle" s
  else if toLowerCase e.key = "t" then selectTool "text" s
  else if toLowerCase e.key = "l" then selectTool "line" s
  else if toLowerCase e.key = "delete" ∨ toLowerCase e.key = "backspace" then
    if s.selectedObject.isSome then deleteSelectedObject s else s
  else if toLowerCase e.key = "z" then
    if e.ctrlKey || e.metaKey then
      if e.shiftKey then redo s else undo s
    else s
  else s

/-! ## More sample states -/

/-- Two overlapping rectangles are drawn, the first from (10, 10) to (60, 60), the second
from (30, 30) to (80, 80). -/
def twoOverlapping : App :=
  run platform init
    [Event.tool "rectangle", Event.mouseDown 1 ⟨10, 10⟩, Event.mouseMove ⟨60, 60⟩,
     Event.mouseUp,
     Event.tool "rectangle", Event.mouseDown 2 ⟨30, 30⟩, Event.mouseMove ⟨80, 80⟩,
     Event.mouseUp]

/-- Two rectangles are drawn whose `startDrawing` calls read the same `Date.now()`, 7;
the click after the second release selects the second rectangle, and its fill is then
changed in the property form. -/
def twinEdit : List Event :=
  [Event.tool "rectangle", Event.mouseDown 7 ⟨10, 10⟩, Event.mouseMove ⟨60, 60⟩, Event.mouseUp,
   Event.click ⟨60, 60⟩,
   Event.tool "rectangle", Event.mouseDown 7 ⟨100, 100⟩, Event.mouseMove ⟨150, 150⟩,
   Event.mouseUp, Event.click ⟨150, 150⟩,
   Event.propertyChange "fill" "#123456"]

/-- The state after `twinEdit`. -/
def twinsEdited : App := run platform init twinEdit

/-- One committed circle, with centre (50, 50) and radius 10, selected. -/
def circleSelected : App :=
  { init with
    heap := [sampleCircle]
    objects := [0]
    layers := [backgroundLayer, newLayer platform sampleCircle 1]
    selectedObject := some 0 }

/-- A user whose cursor, at (380, -3), is outside the canvas. -/
def strayUser : User where
  id := "user-1"
  name := "Alex Chen"
  avatar := "#FF6B6B"
  cursor := ⟨380, -3⟩
  isOnline := true

/-- A provisional line from (0.1, 1.6) to (0.7472815514823778, 6.557925634084336). -/
def longishLine : Obj :=
  [("id", Value.str "obj-1"), ("type", Value.str "line"),
   ("x1", Value.num (double (1 / 10))), ("y1", Value.num (double (16 / 10))),
   ("x2", Value.num (double (7472815514823778 / 10 ^ 16))),
   ("y2", Value.num (double (6557925634084336 / 10 ^ 15))),
   ("stroke", Value.str "#333"), ("strokeWidth", Value.num 2)]

/-- A provisional line from (291.3, 410.2) to (295.906558775726, 408.2558764839183). -/
def shortishLine : Obj :=
  [("id", Value.str "obj-1"), ("type", Value.str "line"),
   ("x1", Value.num (double (2913 / 10))), ("y1", Value.num (double (4102 / 10))),
   ("x2", Value.num (double (295906558775726 / 10 ^ 12))),
   ("y2", Value.num (double (4082558764839183 / 10 ^ 13))),
   ("stroke", Value.str "#333"), ("strokeWidth", Value.num 2)]

/-- The line tool is chosen, the pointer pressed at (0.1, 1.6) and moved to
(0.7472815514823778, 6.557925634084336). -/
def drawingLongish : App :=
  run platform init
    [Event.tool "line", Event.mouseDown 1 ⟨double (1 / 10), double (16 / 10)⟩,
     Event.mouseMove
       ⟨double (7472815514823778 / 10 ^ 16), double (6557925634084336 / 10 ^ 15)⟩]

/-- The line tool is chosen, the pointer pressed at (291.3, 410.2) and moved to
(295.906558775726, 408.2558764839183). -/
def drawingShortish : App :=
  run platform init
    [Event.tool "line", Event.mouseDown 1 ⟨double (2913 / 10), double (4102 / 10)⟩,
     Event.mouseMove
       ⟨double (295906558775726 / 10 ^ 12), double (4082558764839183 / 10 ^ 13)⟩]

/-- The committed rectangle is selected, and the X and Width fields of the property form
are set to `0.1` and `0.2`. -/
def narrowRectangle : App :=
  run platform init
    (drawOne ++ [Event.click ⟨20, 20⟩, Event.propertyChange "x" "0.1",
      Event.propertyChange "width" "0.2"])

/-- A circle is drawn from the centre (50, 50) to the point (51, 55) and released. -/
def circleRoot26 : App :=
  run platform init
    [Event.tool "circle", Event.mouseDown 1 ⟨50, 50⟩, Event.mouseMove ⟨51, 55⟩, Event.mouseUp]

/-- The rectangle tool is chosen and the pointer pressed at (1.1, 1). -/
def drawingFromCorner : App :=
  run platform init [Event.tool "rectangle", Event.mouseDown 1 ⟨double (11 / 10), 1⟩]

/-- The state after the first ten inputs of `twinEdit`: two rectangles with the id
`obj-7`, the second one selected. -/
def twinsSecondSelected : App := run platform init (twinEdit.take 10)

/-- The pen tool is active and nothing is being drawn. -/
def penIdle : App := run platform init [Event.tool "pen"]

/-! ## Invariants of the reachable states -/

/-- The id of the object at an address. -/
def idOf (s : App) (r : Nat) : Value := getProp (deref s r) "id"

/-- An id generated by `startDrawing`: `obj-` followed by a time stamp. -/
def isObjId (v : Value) : Prop := ∃ n : Nat, v = Value.str ("obj-" ++ toString n)

/-- Well-formedness of the references: the addresses in `objects` lie in the heap, the
selection is an element of `objects`, and no id is `NaN`. -/
structure Sound (s : App) : Prop where
  wf : ∀ r ∈ s.objects, r < s.heap.length
  sel : ∀ r, s.selectedObject = some r → r ∈ s.objects
  ids : ∀ r ∈ s.objects, idOf s r ≠ Value.nan
  dpId : ∀ dp, s.drawingPath = some dp → getProp dp "id" ≠ Value.nan

/-- The link between objects and layers: every id is a generated one, and the layer ids
are the id of the seeded layer followed by the ids of `objects`, in order. -/
structure Linked (s : App) : Prop where
  ids : ∀ r ∈ s.objects, isObjId (idOf s r)
  dpId : ∀ dp, s.drawingPath = some dp → isObjId (getProp dp "id")
  layerIds : s.layers.map Layer.id = Value.str "layer-1" :: s.objects.map (idOf s)

/-- The ids of the object list are pairwise distinct. -/
def distinctIds (s : App) : Prop := (s.objects.map (idOf s)).Nodup

/-- Along the run of `es` from `s`, every input meets a state with distinct ids. -/
def DistinctAlong (B : Builtins) : App → List Event → Prop
  | _, [] => True
  | s, e :: es => distinctIds s ∧ DistinctAlong B (step B s e) es

/-- The layers after the seeded one hold, in order, copies of the objects. -/
def Synced (s : App) : Prop := s.layers.tail.map Layer.properties = objectList s



/-! ## Basic facts -/

theorem getProp_setProp_same (o : Obj) (k : String) (v : Value) :
    getProp (setProp o k v) k = v := by
  induction o with
  | nil => simp [setProp, getProp]
  | cons e o ih =>
    obtain ⟨k1, w⟩ := e
    by_cases h : k1 = k
    · simp [setProp, getProp, h]
    · simp [setProp, getProp, h, ih]

theorem getProp_setProp_ne (o : Obj) (k k2 : String) (v : Value) (h : k ≠ k2) :
    getProp (setProp o k v) k2 = getProp o k2 := by
  induction o with
  | nil => simp [setProp, getProp, h]
  | cons e o ih =>
    obtain ⟨k1, w⟩ := e
    by_cases h1 : k1 = k
    · subst h1
      simp [setProp, getProp, h]
    · by_cases h2 : k1 = k2
      · subst h2
        simp [setProp, getProp, h1]
      · simp [setProp, getProp, h1, h2, ih]

theorem strictEq_str (v : Value) (t : String) :
    strictEq v (Value.str t) = true ↔ v = Value.str t := by
  cases v <;> simp [strictEq]

theorem strictEq_eq (a b : Value) (h : strictEq a b = true) : a = b := by
  cases a <;> cases b <;> simp_all [strictEq]

theorem strictEq_self (a : Value) (h : a ≠ Value.nan) : strictEq a a = true := by
  cases a <;> simp_all [strictEq]

theorem isType_iff (o : Obj) (t : String) :
    isType o t = true ↔ getProp o "type" = Value.str t := by
  simp [isType, strictEq_str]

/-- The line branch of `shouldAdd` compares the computed length of the line with 5. -/
theorem lineTest_eq (B : Builtins) (o : Obj) :
    jsGt (jsSqrt (jsPlus
        (jsMul (jsSub (toNumber B (getProp o "x2")) (toNumber B (getProp o "x1")))
          (jsSub (toNumber B (getProp o "x2")) (toNumber B (getProp o "x1"))))
        (jsMul (jsSub (toNumber B (getProp o "y2")) (toNumber B (getProp o "y1")))
          (jsSub (toNumber B (getProp o "y2")) (toNumber B (getProp o "y1"))))))
      (Number.fin 5) = jsGt (lineLength B o) (Number.fin 5) := rfl

/-- The code's minimum-size test is the size threshold. -/
theorem shouldAdd_iff (B : Builtins) (dp : Obj) :
    shouldAdd B dp = true ↔ aboveThreshold B dp := by
  unfold shouldAdd aboveThreshold numGt
  by_cases hr : getProp dp "type" = Value.str "rectangle"
  · have h1 : isType dp "rectangle" = true := (isType_iff _ _).2 hr
    simp [h1, hr]
  · have h1 : isType dp "rectangle" = false := by
      rw [← Bool.not_eq_true, isType_iff]; exact hr
    by_cases hc : getProp dp "type" = Value.str "circle"
    · have h2 : isType dp "circle" = true := (isType_iff _ _).2 hc
      simp [h1, h2, hc]
    · have h2 : isType dp "circle" = false := by
        rw [← Bool.not_eq_true, isType_iff]; exact hc
      by_cases hl : getProp dp "type" = Value.str "line"
      · have h3 : isType dp "line" = true := (isType_iff _ _).2 hl
        simp only [h1, h2, h3, hl, if_true, Bool.false_eq_true, if_false]
        rw [lineTest_eq]
        simp
      · have h3 : isType dp "line" = false := by
          rw [← Bool.not_eq_true, isType_iff]; exact hl
        simp [h1, h2, h3, hr, hc, hl]

theorem not_above_of_below (B : Builtins) (dp : Obj) (h : belowThreshold B dp) :
    ¬ aboveThreshold B dp := by
  unfold belowThreshold at h
  unfold aboveThreshold
  rcases h with ⟨ht, h⟩ | ⟨ht, h⟩ | ⟨ht, h⟩
  · rintro (⟨-, hw, hh⟩ | ⟨t, -⟩ | ⟨t, -⟩)
    · rcases h with h | h
      · exact h hw
      · exact h hh
    · rw [ht] at t; exact absurd t (by decide)
    · rw [ht] at t; exact absurd t (by decide)
  · rintro (⟨t, -⟩ | ⟨-, hr⟩ | ⟨t, -⟩)
    · rw [ht] at t; exact absurd t (by decide)
    · exact h hr
    · rw [ht] at t; exact absurd t (by decide)
  · rintro (⟨t, -⟩ | ⟨t, -⟩ | ⟨-, hl⟩)
    · rw [ht] at t; exact absurd t (by decide)
    · rw [ht] at t; exact absurd t (by decide)
    · exact h hl

/-! ## Rounding to a double -/

theorem scale2_nonneg (n : Nat) (k : Int) : 0 ≤ scale2 n k := by
  unfold scale2
  split <;> positivity

theorem roundPos_ne_nan (a b : Nat) : roundPos a b ≠ Number.nan := by
  unfold roundPos
  simp only
  split <;> simp

theorem roundDouble_ne_nan (q : ℚ) : roundDouble q ≠ Number.nan := by
  unfold roundDouble
  split
  · simp
  · split
    · exact roundPos_ne_nan _ _
    · intro h
      have h2 := roundPos_ne_nan (-q).num.toNat q.den
      cases h3 : roundPos (-q).num.toNat q.den with
      | nan => exact h2 h3
      | inf b => rw [h3] at h; simp [jsNeg] at h
      | fin v => rw [h3] at h; simp [jsNeg] at h

theorem log2Aux_spec (fuel n : Nat) (h1 : 1 ≤ n) (hf : n ≤ fuel) :
    2 ^ log2Aux fuel n ≤ n ∧ n < 2 ^ (log2Aux fuel n + 1) := by
  induction fuel generalizing n with
  | zero => omega
  | succ fuel ih =>
    unfold log2Aux
    by_cases h2 : 2 ≤ n
    · simp only [h2, if_true]
      have hd1 : 1 ≤ n / 2 := by omega
      have hd2 : n / 2 ≤ fuel := by omega
      obtain ⟨ha, hb⟩ := ih (n / 2) hd1 hd2
      constructor
      · rw [pow_succ]; omega
      · rw [pow_succ]; omega
    · simp only [h2, if_false]
      constructor
      · simpa using h1
      · simp; omega

theorem ilog2_spec (n : Nat) (h1 : 1 ≤ n) : 2 ^ ilog2 n ≤ n ∧ n < 2 ^ (ilog2 n + 1) :=
  log2Aux_spec n n h1 (le_refl n)

theorem pow2Le_iff (e : Int) (a b : Nat) (hb : 0 < b) :
    pow2Le e a b = true ↔ (2 : ℚ) ^ e ≤ (a : ℚ) / (b : ℚ) := by
  have hbq : (0 : ℚ) < (b : ℚ) := by exact_mod_cast hb
  unfold pow2Le
  by_cases he : 0 ≤ e
  · simp only [he, if_true, decide_eq_true_eq]
    obtain ⟨m, rfl⟩ := Int.eq_ofNat_of_zero_le he
    simp only [Int.toNat_ofNat, zpow_natCast]
    rw [le_div_iff₀ hbq]
    constructor
    · intro h
      have : ((b * 2 ^ m : Nat) : ℚ) ≤ (a : ℚ) := by exact_mod_cast h
      push_cast at this
      linarith
    · intro h
      have : ((b * 2 ^ m : Nat) : ℚ) ≤ (a : ℚ) := by
        push_cast
        linarith
      exact_mod_cast this
  · simp only [he, if_false, decide_eq_true_eq]
    have hneg : 0 ≤ -e := by omega
    obtain ⟨m, hm⟩ := Int.eq_ofNat_of_zero_le hneg
    have he2 : e = -(m : Int) := by omega
    rw [hm, he2]
    simp only [Int.toNat_ofNat, zpow_neg, zpow_natCast]
    have hp : (0 : ℚ) < (2 : ℚ) ^ m := by positivity
    rw [le_div_iff₀ hbq, inv_mul_le_iff₀ hp]
    constructor
    · intro h
      have : ((b : Nat) : ℚ) ≤ ((a * 2 ^ m : Nat) : ℚ) := by exact_mod_cast h
      push_cast at this
      linarith
    · intro h
      have : ((b : Nat) : ℚ) ≤ ((a * 2 ^ m : Nat) : ℚ) := by
        push_cast
        linarith
      exact_mod_cast this

theorem floorLog2_spec (a b : Nat) (ha : 0 < a) (hb : 0 < b) :
    (2 : ℚ) ^ floorLog2 a b ≤ (a : ℚ) / (b : ℚ) ∧
      (a : ℚ) / (b : ℚ) < (2 : ℚ) ^ (floorLog2 a b + 1) := by
  have hbq : (0 : ℚ) < (b : ℚ) := by exact_mod_cast hb
  obtain ⟨a1, a2⟩ := ilog2_spec a ha
  obtain ⟨b1, b2⟩ := ilog2_spec b hb
  have a1q : (2 : ℚ) ^ (ilog2 a : Int) ≤ (a : ℚ) := by
    rw [zpow_natCast]; exact_mod_cast a1
  have a2q : (a : ℚ) < (2 : ℚ) ^ ((ilog2 a : Int) + 1) := by
    have : ((ilog2 a : Int) + 1) = ((ilog2 a + 1 : Nat) : Int) := by push_cast; ring
    rw [this, zpow_natCast]; exact_mod_cast a2
  have b1q : (2 : ℚ) ^ (ilog2 b : Int) ≤ (b : ℚ) := by
    rw [zpow_natCast]; exact_mod_cast b1
  have b2q : (b : ℚ) < (2 : ℚ) ^ ((ilog2 b : Int) + 1) := by
    have : ((ilog2 b : Int) + 1) = ((ilog2 b + 1 : Nat) : Int) := by push_cast; ring
    rw [this, zpow_natCast]; exact_mod_cast b2
  have h2 : (2 : ℚ) ≠ 0 := by norm_num
  have pa : (0 : ℚ) < (2 : ℚ) ^ (ilog2 a : Int) := by positivity
  have pb : (0 : ℚ) < (2 : ℚ) ^ (ilog2 b : Int) := by positivity
  have pb1 : (0 : ℚ) < (2 : ℚ) ^ ((ilog2 b : Int) + 1) := by positivity
  have up : (a : ℚ) / (b : ℚ) < (2 : ℚ) ^ ((ilog2 a : Int) - (ilog2 b : Int) + 1) := by
    have e : (2 : ℚ) ^ ((ilog2 a : Int) - (ilog2 b : Int) + 1)
        = (2 : ℚ) ^ ((ilog2 a : Int) + 1) / (2 : ℚ) ^ (ilog2 b : Int) := by
      rw [← zpow_sub₀ h2]; congr 1; ring
    rw [e, div_lt_div_iff₀ hbq pb]
    calc (a : ℚ) * 2 ^ (ilog2 b : Int) ≤ (a : ℚ) * (b : ℚ) := by
          apply mul_le_mul_of_nonneg_left b1q; positivity
      _ < 2 ^ ((ilog2 a : Int) + 1) * (b : ℚ) := by
          apply mul_lt_mul_of_pos_right a2q hbq
  have lo : (2 : ℚ) ^ ((ilog2 a : Int) - (ilog2 b : Int) - 1) ≤ (a : ℚ) / (b : ℚ) := by
    have e : (2 : ℚ) ^ ((ilog2 a : Int) - (ilog2 b : Int) - 1)
        = (2 : ℚ) ^ (ilog2 a : Int) / (2 : ℚ) ^ ((ilog2 b : Int) + 1) := by
      rw [← zpow_sub₀ h2]; congr 1; ring
    rw [e, div_le_div_iff₀ pb1 hbq]
    calc (2 : ℚ) ^ (ilog2 a : Int) * (b : ℚ) ≤ (a : ℚ) * (b : ℚ) := by
          apply mul_le_mul_of_nonneg_right a1q; positivity
      _ ≤ (a : ℚ) * 2 ^ ((ilog2 b : Int) + 1) := by
          apply mul_le_mul_of_nonneg_left (le_of_lt b2q); positivity
  unfold floorLog2
  by_cases hp : pow2Le ((ilog2 a : Int) - (ilog2 b : Int)) a b = true
  · simp only [hp, if_true]
    exact ⟨(pow2Le_iff _ a b hb).1 hp, up⟩
  · simp only [hp, if_false, Bool.false_eq_true]
    refine ⟨lo, ?_⟩
    rw [pow2Le_iff _ a b hb, not_le] at hp
    have : (ilog2 a : Int) - (ilog2 b : Int) - 1 + 1 = (ilog2 a : Int) - (ilog2 b : Int) := by ring
    rw [this]
    exact hp

theorem roundHalfEven_near (num den : Nat) (hd : 0 < den) :
    |((roundHalfEven num den : Nat) : ℚ) - (num : ℚ) / (den : ℚ)| ≤ 1 / 2 := by
  have hdq : (0 : ℚ) < (den : ℚ) := by exact_mod_cast hd
  have hdiv : (num : ℚ) = (den : ℚ) * ((num / den : Nat) : ℚ) + ((num % den : Nat) : ℚ) := by
    have := Nat.div_add_mod num den
    exact_mod_cast this.symm
  have hm : ((num % den : Nat) : ℚ) < (den : ℚ) := by
    exact_mod_cast Nat.mod_lt num hd
  have hm0 : (0 : ℚ) ≤ ((num % den : Nat) : ℚ) := by positivity
  have hx : (num : ℚ) / (den : ℚ) = ((num / den : Nat) : ℚ) + ((num % den : Nat) : ℚ) / (den : ℚ) := by
    rw [div_eq_iff (ne_of_gt hdq)]
    field_simp
    linarith
  have hf0 : (0 : ℚ) ≤ ((num % den : Nat) : ℚ) / (den : ℚ) := by positivity
  have hf1 : ((num % den : Nat) : ℚ) / (den : ℚ) < 1 := by
    rw [div_lt_one hdq]; exact hm
  unfold roundHalfEven
  by_cases c1 : 2 * (num % den) < den
  · simp only [c1, if_true]
    have : (2 : ℚ) * ((num % den : Nat) : ℚ) < (den : ℚ) := by exact_mod_cast c1
    have hf : ((num % den : Nat) : ℚ) / (den : ℚ) < 1 / 2 := by
      rw [div_lt_iff₀ hdq]; linarith
    rw [hx, abs_le]
    constructor <;> linarith
  · simp only [c1, if_false]
    by_cases c2 : den < 2 * (num % den)
    · simp only [c2, if_true]
      have : (den : ℚ) < (2 : ℚ) * ((num % den : Nat) : ℚ) := by exact_mod_cast c2
      have hf : 1 / 2 < ((num % den : Nat) : ℚ) / (den : ℚ) := by
        rw [lt_div_iff₀ hdq]; linarith
      rw [hx, abs_le]
      push_cast
      constructor <;> linarith
    · simp only [c2, if_false]
      have c3 : 2 * (num % den) = den := by omega
      have : (2 : ℚ) * ((num % den : Nat) : ℚ) = (den : ℚ) := by exact_mod_cast c3
      have hf : ((num % den : Nat) : ℚ) / (den : ℚ) = 1 / 2 := by
        rw [div_eq_iff (ne_of_gt hdq)]; linarith
      split
      · rw [hx, hf, abs_le]
        constructor <;> linarith
      · rw [hx, hf, abs_le]
        push_cast
        constructor <;> linarith

theorem scale2_eq (n : Nat) (k : Int) : scale2 n k = (n : ℚ) * (2 : ℚ) ^ k := by
  unfold scale2
  by_cases hk : 0 ≤ k
  · simp only [hk, if_true]
    obtain ⟨m, rfl⟩ := Int.eq_ofNat_of_zero_le hk
    simp [zpow_natCast]
  · simp only [hk, if_false]
    have hneg : 0 ≤ -k := by omega
    obtain ⟨m, hm⟩ := Int.eq_ofNat_of_zero_le hneg
    have he2 : k = -(m : Int) := by omega
    rw [hm, he2]
    simp [zpow_neg, zpow_natCast, div_eq_mul_inv]

theorem roundScaled_near (a b : Nat) (k : Int) (hb : 0 < b) :
    |((roundScaled a b k : Nat) : ℚ) - (a : ℚ) / (b : ℚ) / (2 : ℚ) ^ k| ≤ 1 / 2 := by
  have hbq : (0 : ℚ) < (b : ℚ) := by exact_mod_cast hb
  unfold roundScaled
  by_cases hk : 0 ≤ k
  · simp only [hk, if_true]
    obtain ⟨m, rfl⟩ := Int.eq_ofNat_of_zero_le hk
    have h := roundHalfEven_near a (b * 2 ^ m) (by positivity)
    simp only [Int.toNat_ofNat, zpow_natCast]
    have e : (a : ℚ) / (b : ℚ) / (2 : ℚ) ^ m = (a : ℚ) / ((b * 2 ^ m : Nat) : ℚ) := by
      push_cast
      rw [div_div]
    rw [e]
    exact h
  · simp only [hk, if_false]
    have hneg : 0 ≤ -k := by omega
    obtain ⟨m, hm⟩ := Int.eq_ofNat_of_zero_le hneg
    have he2 : k = -(m : Int) := by omega
    have h := roundHalfEven_near (a * 2 ^ m) b hb
    rw [hm, he2]
    simp only [Int.toNat_ofNat, zpow_neg, zpow_natCast]
    have e : (a : ℚ) / (b : ℚ) / ((2 : ℚ) ^ m)⁻¹ = ((a * 2 ^ m : Nat) : ℚ) / (b : ℚ) := by
      push_cast
      field_simp
    rw [e]
    exact h


/-- The double with significand `n` and exponent `k`, or `Infinity` past the largest
double: the last step of `roundPos`. -/
theorem roundPos_eq (a b : Nat) :
    roundPos a b =
      if 971 < max (floorLog2 a b) (-1022) - 52 ∨
          (max (floorLog2 a b) (-1022) - 52 = 971 ∧
            2 ^ 53 ≤ roundScaled a b (max (floorLog2 a b) (-1022) - 52))
      then Number.inf false
      else Number.fin (scale2 (roundScaled a b (max (floorLog2 a b) (-1022) - 52))
        (max (floorLog2 a b) (-1022) - 52)) := rfl

theorem packed_le (k1 k2 : Int) (n1 n2 : Nat)
    (h : (k1 = k2 ∧ n1 ≤ n2) ∨ (k1 < k2 ∧ n1 ≤ 2 ^ 53 ∧ 2 ^ 52 ≤ n2)) :
    jsLe (if 971 < k1 ∨ (k1 = 971 ∧ 2 ^ 53 ≤ n1) then Number.inf false
        else Number.fin (scale2 n1 k1))
      (if 971 < k2 ∨ (k2 = 971 ∧ 2 ^ 53 ≤ n2) then Number.inf false
        else Number.fin (scale2 n2 k2)) = true := by
  by_cases c2 : 971 < k2 ∨ (k2 = 971 ∧ 2 ^ 53 ≤ n2)
  · rw [if_pos c2]
    split <;> rfl
  · rw [if_neg c2]
    have c1 : ¬ (971 < k1 ∨ (k1 = 971 ∧ 2 ^ 53 ≤ n1)) := by
      rcases h with ⟨hk, hn⟩ | ⟨hk, -, -⟩
      · subst hk
        intro hc
        apply c2
        rcases hc with hc | ⟨hc, hc2⟩
        · exact Or.inl hc
        · exact Or.inr ⟨hc, le_trans hc2 hn⟩
      · intro hc
        apply c2
        rcases hc with hc | ⟨hc, -⟩
        · exact Or.inl (by omega)
        · exact Or.inl (by omega)
    rw [if_neg c1]
    simp only [jsLe, decide_eq_true_eq, scale2_eq]
    rcases h with ⟨hk, hn⟩ | ⟨hk, hn1, hn2⟩
    · subst hk
      apply mul_le_mul_of_nonneg_right _ (by positivity)
      exact_mod_cast hn
    · have h2 : (2 : ℚ) ≠ 0 := by norm_num
      have q1 : (n1 : ℚ) ≤ (2 : ℚ) ^ (53 : Int) := by
        have : (n1 : ℚ) ≤ ((2 ^ 53 : Nat) : ℚ) := by exact_mod_cast hn1
        have e : (2 : ℚ) ^ (53 : Int) = ((2 ^ 53 : Nat) : ℚ) := by norm_num
        rw [e]; exact this
      have q2 : (2 : ℚ) ^ (52 : Int) ≤ (n2 : ℚ) := by
        have : ((2 ^ 52 : Nat) : ℚ) ≤ (n2 : ℚ) := by exact_mod_cast hn2
        have e : (2 : ℚ) ^ (52 : Int) = ((2 ^ 52 : Nat) : ℚ) := by norm_num
        rw [e]; exact this
      calc (n1 : ℚ) * 2 ^ k1 ≤ (2 : ℚ) ^ (53 : Int) * 2 ^ k1 :=
            mul_le_mul_of_nonneg_right q1 (by positivity)
        _ = (2 : ℚ) ^ (53 + k1) := by rw [zpow_add₀ h2]
        _ ≤ (2 : ℚ) ^ (52 + k2) := by
            apply zpow_le_zpow_right₀ (by norm_num)
            omega
        _ = (2 : ℚ) ^ (52 : Int) * 2 ^ k2 := by rw [zpow_add₀ h2]
        _ ≤ (n2 : ℚ) * 2 ^ k2 := mul_le_mul_of_nonneg_right q2 (by positivity)

theorem nat_le_of_lt_add_one (n m : Nat) (h : (n : ℚ) < (m : ℚ) + 1) : n ≤ m := by
  have : (n : ℚ) < ((m + 1 : Nat) : ℚ) := by push_cast; exact h
  have h2 : n < m + 1 := by exact_mod_cast this
  omega

theorem roundPos_mono (a1 b1 a2 b2 : Nat) (ha1 : 0 < a1) (hb1 : 0 < b1) (ha2 : 0 < a2)
    (hb2 : 0 < b2) (h : (a1 : ℚ) / (b1 : ℚ) < (a2 : ℚ) / (b2 : ℚ)) :
    jsLe (roundPos a1 b1) (roundPos a2 b2) = true := by
  obtain ⟨l1, u1⟩ := floorLog2_spec a1 b1 ha1 hb1
  obtain ⟨l2, u2⟩ := floorLog2_spec a2 b2 ha2 hb2
  have h2 : (2 : ℚ) ≠ 0 := by norm_num
  have hf : floorLog2 a1 b1 ≤ floorLog2 a2 b2 := by
    have : (2 : ℚ) ^ floorLog2 a1 b1 < (2 : ℚ) ^ (floorLog2 a2 b2 + 1) :=
      lt_of_le_of_lt l1 (lt_trans h u2)
    have := (zpow_lt_zpow_iff_right₀ (by norm_num : (1 : ℚ) < 2)).1 this
    omega
  have n1 := roundScaled_near a1 b1 (max (floorLog2 a1 b1) (-1022) - 52) hb1
  have n2 := roundScaled_near a2 b2 (max (floorLog2 a2 b2) (-1022) - 52) hb2
  rw [abs_le] at n1 n2
  rw [roundPos_eq, roundPos_eq]
  apply packed_le
  rcases lt_or_eq_of_le (max_le_max_right (-1022) hf) with hlt | heq
  · right
    refine ⟨by omega, ?_, ?_⟩
    · -- the significand of the smaller number is at most 2 ^ 53
      have hy : (a1 : ℚ) / (b1 : ℚ) / (2 : ℚ) ^ (max (floorLog2 a1 b1) (-1022) - 52)
          < (2 : ℚ) ^ (53 : Int) := by
        rw [div_lt_iff₀ (by positivity), ← zpow_add₀ h2]
        apply lt_of_lt_of_le u1
        apply zpow_le_zpow_right₀ (by norm_num)
        have := le_max_left (floorLog2 a1 b1) (-1022)
        omega
      have : ((roundScaled a1 b1 (max (floorLog2 a1 b1) (-1022) - 52) : Nat) : ℚ)
          < ((2 ^ 53 : Nat) : ℚ) + 1 := by
        push_cast
        have e : (2 : ℚ) ^ (53 : Int) = (2 : ℚ) ^ (53 : Nat) := by norm_num
        rw [e] at hy
        linarith [n1.2]
      exact nat_le_of_lt_add_one _ _ this
    · -- the larger number is normal, so its significand is at least 2 ^ 52
      have hmax : max (floorLog2 a2 b2) (-1022) = floorLog2 a2 b2 := by
        apply max_eq_left
        by_contra hc
        have e2 : max (floorLog2 a2 b2) (-1022) = -1022 := max_eq_right (by omega)
        have := le_max_right (floorLog2 a1 b1) (-1022)
        omega
      have hy : (2 : ℚ) ^ (52 : Int)
          ≤ (a2 : ℚ) / (b2 : ℚ) / (2 : ℚ) ^ (max (floorLog2 a2 b2) (-1022) - 52) := by
        rw [le_div_iff₀ (by positivity), ← zpow_add₀ h2, hmax]
        have : (52 : Int) + (floorLog2 a2 b2 - 52) = floorLog2 a2 b2 := by ring
        rw [this]
        exact l2
      have e : (2 : ℚ) ^ (52 : Int) = (2 : ℚ) ^ (52 : Nat) := by norm_num
      rw [e] at hy
      have : ((2 ^ 52 - 1 : Nat) : ℚ)
          < ((roundScaled a2 b2 (max (floorLog2 a2 b2) (-1022) - 52) : Nat) : ℚ) := by
        have e3 : ((2 ^ 52 - 1 : Nat) : ℚ) = (2 : ℚ) ^ (52 : Nat) - 1 := by norm_num
        rw [e3]
        linarith [n2.1]
      have h3 : 2 ^ 52 - 1 < roundScaled a2 b2 (max (floorLog2 a2 b2) (-1022) - 52) := by
        exact_mod_cast this
      omega
  · left
    refine ⟨by omega, ?_⟩
    rw [heq] at n1
    have hp : (0 : ℚ) < (2 : ℚ) ^ (max (floorLog2 a2 b2) (-1022) - 52) := by positivity
    have hy : (a1 : ℚ) / (b1 : ℚ) / (2 : ℚ) ^ (max (floorLog2 a2 b2) (-1022) - 52)
        < (a2 : ℚ) / (b2 : ℚ) / (2 : ℚ) ^ (max (floorLog2 a2 b2) (-1022) - 52) :=
      div_lt_div_of_pos_right h hp
    rw [heq]
    apply nat_le_of_lt_add_one
    linarith [n1.2, n2.1]


theorem roundPos_nonneg (a b : Nat) : jsLe (Number.fin 0) (roundPos a b) = true := by
  rw [roundPos_eq]
  split
  · rfl
  · simp only [jsLe, decide_eq_true_eq]
    exact scale2_nonneg _ _

theorem jsLe_neg (a b : Number) (h : jsLe a b = true) : jsLe (jsNeg b) (jsNeg a) = true := by
  cases a with
  | nan => simp [jsLe] at h
  | inf x =>
    cases b with
    | nan => simp [jsLe] at h
    | inf y => cases x <;> cases y <;> simp_all [jsLe, jsNeg]
    | fin v => cases x <;> simp_all [jsLe, jsNeg]
  | fin u =>
    cases b with
    | nan => simp [jsLe] at h
    | inf y => cases y <;> simp_all [jsLe, jsNeg]
    | fin v =>
      simp only [jsLe, decide_eq_true_eq] at h
      simp only [jsNeg, jsLe, decide_eq_true_eq]
      linarith

theorem jsLe_trans (a b c : Number) (h1 : jsLe a b = true) (h2 : jsLe b c = true) :
    jsLe a c = true := by
  cases a with
  | nan => simp [jsLe] at h1
  | inf x =>
    cases b with
    | nan => simp [jsLe] at h1
    | inf y =>
      cases c with
      | nan => simp [jsLe] at h2
      | inf z => cases x <;> cases y <;> cases z <;> simp_all [jsLe]
      | fin w => cases x <;> cases y <;> simp_all [jsLe]
    | fin v =>
      cases c with
      | nan => simp [jsLe] at h2
      | inf z => cases x <;> cases z <;> simp_all [jsLe]
      | fin w => cases x <;> simp_all [jsLe]
  | fin u =>
    cases b with
    | nan => simp [jsLe] at h1
    | inf y =>
      cases c with
      | nan => simp [jsLe] at h2
      | inf z => cases y <;> cases z <;> simp_all [jsLe]
      | fin w => cases y <;> simp_all [jsLe]
    | fin v =>
      cases c with
      | nan => simp [jsLe] at h2
      | inf z => cases z <;> simp_all [jsLe]
      | fin w =>
        simp only [jsLe, decide_eq_true_eq] at h1 h2 ⊢
        exact le_trans h1 h2

theorem num_toNat_div_den (q : ℚ) (h : 0 < q) :
    0 < q.num.toNat ∧ ((q.num.toNat : Nat) : ℚ) / (q.den : ℚ) = q := by
  have hn : 0 < q.num := Rat.num_pos.2 h
  have e : ((q.num.toNat : Nat) : Int) = q.num := Int.toNat_of_nonneg (le_of_lt hn)
  refine ⟨by omega, ?_⟩
  have e2 : ((q.num.toNat : Nat) : ℚ) = (q.num : ℚ) := by exact_mod_cast e
  rw [e2]
  exact Rat.num_div_den q

theorem roundDouble_pos (q : ℚ) (h : 0 < q) : roundDouble q = roundPos q.num.toNat q.den := by
  unfold roundDouble
  simp [ne_of_gt h, h]

theorem roundDouble_neg (q : ℚ) (h : q < 0) :
    roundDouble q = jsNeg (roundPos (-q).num.toNat (-q).den) := by
  unfold roundDouble
  simp [ne_of_lt h, not_lt.2 (le_of_lt h)]

theorem roundDouble_mono_pos (q1 q2 : ℚ) (h1 : 0 < q1) (h : q1 < q2) :
    jsLe (roundDouble q1) (roundDouble q2) = true := by
  have h2 : 0 < q2 := lt_trans h1 h
  obtain ⟨a1, e1⟩ := num_toNat_div_den q1 h1
  obtain ⟨a2, e2⟩ := num_toNat_div_den q2 h2
  rw [roundDouble_pos q1 h1, roundDouble_pos q2 h2]
  apply roundPos_mono _ _ _ _ a1 q1.den_pos a2 q2.den_pos
  rw [e1, e2]
  exact h

/-- Rounding to a double is monotone. -/
theorem roundDouble_mono (q1 q2 : ℚ) (h : q1 ≤ q2) :
    jsLe (roundDouble q1) (roundDouble q2) = true := by
  rcases eq_or_lt_of_le h with heq | hlt
  · subst heq
    cases hc : roundDouble q1 with
    | nan => exact absurd hc (roundDouble_ne_nan q1)
    | inf b => cases b <;> rfl
    | fin v => simp [jsLe]
  · rcases lt_trichotomy q1 0 with n1 | z1 | p1
    · have hneg1 : jsLe (roundDouble q1) (Number.fin 0) = true := by
        rw [roundDouble_neg q1 n1]
        exact jsLe_neg _ _ (roundPos_nonneg _ _)
      rcases lt_trichotomy q2 0 with n2 | z2 | p2
      · rw [roundDouble_neg q1 n1, roundDouble_neg q2 n2]
        apply jsLe_neg
        rw [← roundDouble_pos (-q2) (by linarith), ← roundDouble_pos (-q1) (by linarith)]
        exact roundDouble_mono_pos _ _ (by linarith) (by linarith)
      · rw [z2]
        exact hneg1
      · apply jsLe_trans _ _ _ hneg1
        rw [roundDouble_pos q2 p2]
        exact roundPos_nonneg _ _
    · have p2 : 0 < q2 := by linarith
      rw [z1, roundDouble_pos q2 p2]
      exact roundPos_nonneg _ _
    · exact roundDouble_mono_pos q1 q2 p1 hlt

/-- A double is not greater than the rounding of a rational it is not greater than. -/
theorem double_le_round (p q : ℚ) (hp : roundDouble p = Number.fin p) (h : p ≤ q) :
    jsLe (Number.fin p) (roundDouble q) = true := by
  rw [← hp]
  exact roundDouble_mono p q h

/-- A double is not less than the rounding of a rational it is not less than. -/
theorem round_le_double (p q : ℚ) (hp : roundDouble p = Number.fin p) (h : q ≤ p) :
    jsLe (roundDouble q) (Number.fin p) = true := by
  rw [← hp]
  exact roundDouble_mono q p h

theorem isDouble_min (a b : ℚ) (ha : isDouble a) (hb : isDouble b) : isDouble (min a b) := by
  rcases le_total a b with h | h
  · rw [min_eq_left h]; exact ha
  · rw [min_eq_right h]; exact hb

/-- Adding a computed absolute value to a double does not give less than the double. -/
theorem le_plus_abs (m d : ℚ) (hm : isDouble m) :
    jsLe (Number.fin m) (jsPlus (Number.fin m) (jsAbs (roundDouble d))) = true := by
  cases h : roundDouble d with
  | nan => exact absurd h (roundDouble_ne_nan d)
  | inf b => rfl
  | fin v =>
    simp only [jsAbs, jsPlus]
    apply double_le_round _ _ hm
    have := abs_nonneg v
    linarith

/-! ## Committing and discarding the provisional shape -/

theorem finishDrawing_discard (B : Builtins) (s : App) (dp : Obj)
    (hdp : s.drawingPath = some dp) (h : shouldAdd B dp = false) :
    finishDrawing B s = { s with drawingPath := none } := by
  simp [finishDrawing, hdp, h]

theorem finishDrawing_commit (B : Builtins) (s : App) (dp : Obj)
    (hdp : s.drawingPath = some dp) (h : shouldAdd B dp = true) :
    finishDrawing B s =
      { s with
        currentTool := "select"
        heap := s.heap ++ [dp]
        objects := s.objects ++ [s.heap.length]
        layers := s.layers ++ [newLayer B dp (s.objects.length + 1)]
        drawingPath := none } := by
  simp [finishDrawing, hdp, h, selectTool]

theorem getD_append_old (heap : List Obj) (o : Obj) (r : Nat) (h : r < heap.length) :
    (heap ++ [o]).getD r [] = heap.getD r [] := by
  simp [List.getD_eq_getElem?_getD, List.getElem?_append_left h]

theorem getD_append_new (heap : List Obj) (o : Obj) :
    (heap ++ [o]).getD heap.length [] = o := by
  simp [List.getD_eq_getElem?_getD]

/-- Counterexample to C1 as written: the provisional line from (0.1, 1.6) to
(0.7472815514823778, 6.557925634084336) has end points at a distance below 5 (the exact
square of the distance is smaller than 25), yet the length the code computes is
5.000000000000001, which is greater than 5, and `finishDrawing` commits the line: the
object list and the layer list each grow by one entry. -/
theorem short_line_committed :
    drawingLongish.drawingPath = some longishLine ∧
    getProp longishLine "type" = Value.str "line" ∧
    (∃ q, exactLengthSq longishLine = some q ∧ q < 25) ∧
    lineLength platform longishLine = Number.fin (5 + 1 / 2 ^ 50) ∧
    platform.numberToString (5 + 1 / 2 ^ 50) = "5.000000000000001" ∧
    (finishDrawing platform drawingLongish).objects.length =
      drawingLongish.objects.length + 1 ∧
    (finishDrawing platform drawingLongish).layers.length =
      drawingLongish.layers.length + 1 :=
  ⟨by decide!, by decide!,
    ⟨(double (7472815514823778 / 10 ^ 16) - double (1 / 10)) ^ 2 +
        (double (6557925634084336 / 10 ^ 15) - double (16 / 10)) ^ 2, by decide!, by decide!⟩,
    by decide!, by decide!, by decide!, by decide!⟩

/-- C1 (corrected): when the provisional shape is below the size threshold, where the
length of a line is the value the code computes, `Math.sqrt(dx * dx + dy * dy)` in double
arithmetic, `finishDrawing` leaves the object list (addresses and the objects they refer
to) and the layer list exactly as they were, and sets `drawingPath` to null. -/
theorem finishDrawing_below_threshold (B : Builtins) (s : App) (dp : Obj)
    (hdp : s.drawingPath = some dp) (hsmall : belowThreshold B dp) :
    (finishDrawing B s).objects = s.objects ∧ (finishDrawing B s).heap = s.heap ∧
    objectList (finishDrawing B s) = objectList s ∧
    (finishDrawing B s).layers = s.layers ∧ (finishDrawing B s).drawingPath = none := by
  have h : shouldAdd B dp = false := by
    rw [← Bool.not_eq_true, shouldAdd_iff]
    exact not_above_of_below B dp hsmall
  rw [finishDrawing_discard B s dp hdp h]
  simp [objectList, deref]

theorem smallRectangle_below : belowThreshold platform smallRectangle :=
  Or.inl ⟨by decide, Or.inl (by unfold numGt; decide!)⟩

theorem shortLine_below : belowThreshold platform shortLine :=
  Or.inr (Or.inr ⟨by decide, by decide!⟩)

/-- Witness for C1: a rectangle 3 wide and a line of computed length 5, both discarded. -/
theorem finishDrawing_below_threshold_witness :
    (drawingSmall.drawingPath = some smallRectangle ∧ belowThreshold platform smallRectangle ∧
      (finishDrawing platform drawingSmall).objects = drawingSmall.objects ∧
      (finishDrawing platform drawingSmall).heap = drawingSmall.heap ∧
      objectList (finishDrawing platform drawingSmall) = objectList drawingSmall ∧
      (finishDrawing platform drawingSmall).layers = drawingSmall.layers ∧
      (finishDrawing platform drawingSmall).drawingPath = none) ∧
    (drawingLine.drawingPath = some shortLine ∧ belowThreshold platform shortLine ∧
      (finishDrawing platform drawingLine).objects = drawingLine.objects ∧
      (finishDrawing platform drawingLine).heap = drawingLine.heap ∧
      objectList (finishDrawing platform drawingLine) = objectList drawingLine ∧
      (finishDrawing platform drawingLine).layers = drawingLine.layers ∧
      (finishDrawing platform drawingLine).drawingPath = none) :=
  ⟨⟨by decide!, smallRectangle_below,
      finishDrawing_below_threshold platform drawingSmall smallRectangle (by decide!)
        smallRectangle_below⟩,
    ⟨by decide!, shortLine_below,
      finishDrawing_below_threshold platform drawingLine shortLine (by decide!)
        shortLine_below⟩⟩

/-- Counterexample to C2 as written: the provisional line from (291.3, 410.2) to
(295.906558775726, 408.2558764839183) has end points at a distance above 5 (the exact
square of the distance is greater than 25), yet the length the code computes is exactly
5, which is not greater than 5, and `finishDrawing` discards the line: the object list and
the layer list stay as they were. -/
theorem long_line_discarded :
    drawingShortish.drawingPath = some shortishLine ∧
    getProp shortishLine "type" = Value.str "line" ∧
    (∃ q, exactLengthSq shortishLine = some q ∧ 25 < q) ∧
    lineLength platform shortishLine = Number.fin 5 ∧
    (finishDrawing platform drawingShortish).objects = drawingShortish.objects ∧
    (finishDrawing platform drawingShortish).layers = drawingShortish.layers :=
  ⟨by decide!, by decide!,
    ⟨(double (295906558775726 / 10 ^ 12) - double (2913 / 10)) ^ 2 +
        (double (4082558764839183 / 10 ^ 13) - double (4102 / 10)) ^ 2, by decide!, by decide!⟩,
    by decide!, by decide!, by decide!⟩

/-- C2 (corrected): when the provisional shape is above the size threshold, where the
length of a line is the value the code computes, `Math.sqrt(dx * dx + dy * dy)` in double
arithmetic, `finishDrawing` appends one entry to the object list, a copy of the
provisional shape, and one entry to the layer list; both new entries carry the id of the
provisional shape; the earlier entries of both lists are unchanged and in the same
order. -/
theorem finishDrawing_above_threshold (B : Builtins) (s : App) (dp : Obj)
    (hdp : s.drawingPath = some dp) (hbig : aboveThreshold B dp)
    (hwf : ∀ r ∈ s.objects, r < s.heap.length) :
    ∃ layer : Layer,
      (finishDrawing B s).objects = s.objects ++ [s.heap.length] ∧
      objectList (finishDrawing B s) = objectList s ++ [dp] ∧
      (finishDrawing B s).layers = s.layers ++ [layer] ∧
      layer.id = getProp dp "id" ∧ layer.properties = dp ∧
      (∀ r, r < s.heap.length → deref (finishDrawing B s) r = deref s r) := by
  have h : shouldAdd B dp = true := (shouldAdd_iff B dp).2 hbig
  refine ⟨newLayer B dp (s.objects.length + 1), ?_⟩
  rw [finishDrawing_commit B s dp hdp h]
  refine ⟨rfl, ?_, rfl, rfl, rfl, ?_⟩
  · simp only [objectList, deref, List.map_append, List.map_cons, List.map_nil]
    rw [getD_append_new]
    congr 1
    apply List.map_congr_left
    intro r hr
    exact getD_append_old _ _ _ (hwf r hr)
  · intro r hr
    exact getD_append_old _ _ _ hr

theorem bigRectangle_above : aboveThreshold platform bigRectangle :=
  (shouldAdd_iff _ _).1 (by decide!)

/-- Witness for C2: a rectangle 50 by 50 drawn on the empty canvas is committed. -/
theorem finishDrawing_above_threshold_witness :
    drawingBig.drawingPath = some bigRectangle ∧ aboveThreshold platform bigRectangle ∧
    (∀ r ∈ drawingBig.objects, r < drawingBig.heap.length) ∧
    ∃ layer : Layer,
      (finishDrawing platform drawingBig).objects =
        drawingBig.objects ++ [drawingBig.heap.length] ∧
      objectList (finishDrawing platform drawingBig) = objectList drawingBig ++ [bigRectangle] ∧
      (finishDrawing platform drawingBig).layers = drawingBig.layers ++ [layer] ∧
      layer.id = getProp bigRectangle "id" ∧ layer.properties = bigRectangle ∧
      (∀ r, r < drawingBig.heap.length →
        deref (finishDrawing platform drawingBig) r = deref drawingBig r) :=
  ⟨by decide!, bigRectangle_above, by decide!,
    finishDrawing_above_threshold platform drawingBig bigRectangle (by decide!)
      bigRectangle_above (by decide!)⟩

/-! ## Effect of the operations on the object and layer lists -/

theorem getD_set_same (heap : List Obj) (o : Obj) (r : Nat) (h : r < heap.length) :
    (heap.set r o).getD r [] = o := by
  simp [List.getD_eq_getElem?_getD, h]

theorem getD_set_ne (heap : List Obj) (o : Obj) (r a : Nat) (h : r ≠ a) :
    (heap.set r o).getD a [] = heap.getD a [] := by
  simp [List.getD_eq_getElem?_getD, List.getElem?_set_ne h]

theorem objId_ne_layer1 (n : Nat) : Value.str ("obj-" ++ toString n) ≠ Value.str "layer-1" := by
  intro h
  have h2 := congrArg String.data (Value.str.inj h)
  simp at h2

theorem isObjId_ne_nan (v : Value) (h : isObjId v) : v ≠ Value.nan := by
  obtain ⟨n, rfl⟩ := h
  simp

theorem map_id_updateFirst (p : Layer → Bool) (f : Layer → Layer)
    (hf : ∀ l, (f l).id = l.id) (ls : List Layer) :
    (updateFirst p f ls).map Layer.id = ls.map Layer.id := by
  induction ls with
  | nil => rfl
  | cons l ls ih =>
    by_cases h : p l
    · simp [updateFirst, h, hf]
    · simp [updateFirst, h, ih]

/-- What `startDrawing` changes: at most `drawingPath`, to a shape with a generated id. -/
theorem startDrawing_frame (now : Nat) (point : Point) (s : App) :
    (startDrawing now point s).heap = s.heap ∧
    (startDrawing now point s).objects = s.objects ∧
    (startDrawing now point s).layers = s.layers ∧
    (startDrawing now point s).selectedObject = s.selectedObject ∧
    (startDrawing now point s).currentTool = s.currentTool ∧
    (startDrawing now point s).isDrawing = s.isDrawing ∧
    (∀ dp, (startDrawing now point s).drawingPath = some dp →
      s.drawingPath = some dp ∨ getProp dp "id" = Value.str ("obj-" ++ toString now)) := by
  unfold startDrawing
  split_ifs
  · refine ⟨rfl, rfl, rfl, rfl, rfl, rfl, ?_⟩
    intro dp hdp
    simp only [Option.some.injEq] at hdp
    subst hdp
    right
    simp [getProp]
  · refine ⟨rfl, rfl, rfl, rfl, rfl, rfl, ?_⟩
    intro dp hdp
    simp only [Option.some.injEq] at hdp
    subst hdp
    right
    simp [getProp]
  · refine ⟨rfl, rfl, rfl, rfl, rfl, rfl, ?_⟩
    intro dp hdp
    simp only [Option.some.injEq] at hdp
    subst hdp
    right
    simp [getProp]
  · exact ⟨rfl, rfl, rfl, rfl, rfl, rfl, fun dp hdp => Or.inl hdp⟩

/-- What `updateDrawing` changes: at most geometry fields of `drawingPath`, not its id. -/
theorem updateDrawing_frame (B : Builtins) (point : Point) (s : App) :
    (updateDrawing B point s).heap = s.heap ∧
    (updateDrawing B point s).objects = s.objects ∧
    (updateDrawing B point s).layers = s.layers ∧
    (updateDrawing B point s).selectedObject = s.selectedObject ∧
    (updateDrawing B point s).currentTool = s.currentTool ∧
    (updateDrawing B point s).isDrawing = s.isDrawing ∧
    (∀ dp2, (updateDrawing B point s).drawingPath = some dp2 →
      ∃ dp, s.drawingPath = some dp ∧ getProp dp2 "id" = getProp dp "id") := by
  unfold updateDrawing
  cases hdp : s.drawingPath with
  | none => simp [hdp]
  | some dp =>
    simp only
    split_ifs
    · refine ⟨rfl, rfl, rfl, rfl, rfl, rfl, ?_⟩
      intro dp2 h
      simp only [Option.some.injEq] at h
      subst h
      refine ⟨dp, rfl, ?_⟩
      rw [getProp_setProp_ne _ _ _ _ (by decide), getProp_setProp_ne _ _ _ _ (by decide),
        getProp_setProp_ne _ _ _ _ (by decide), getProp_setProp_ne _ _ _ _ (by decide)]
    · refine ⟨rfl, rfl, rfl, rfl, rfl, rfl, ?_⟩
      intro dp2 h
      simp only [Option.some.injEq] at h
      subst h
      exact ⟨dp, rfl, getProp_setProp_ne _ _ _ _ (by decide)⟩
    · refine ⟨rfl, rfl, rfl, rfl, rfl, rfl, ?_⟩
      intro dp2 h
      simp only [Option.some.injEq] at h
      subst h
      refine ⟨dp, rfl, ?_⟩
      rw [getProp_setProp_ne _ _ _ _ (by decide), getProp_setProp_ne _ _ _ _ (by decide)]
    · refine ⟨rfl, rfl, rfl, rfl, rfl, rfl, ?_⟩
      intro dp2 h
      rw [hdp] at h
      simp only [Option.some.injEq] at h
      subst h
      exact ⟨dp, rfl, rfl⟩

/-! ## Preservation of the invariants -/

theorem finalValue_ne_nan (B : Builtins) (value : String) : finalValue B value ≠ Value.nan := by
  unfold finalValue
  cases B.parseFloat value <;> simp [ofNumber]

theorem sound_of_frame (s t : App) (h : Sound s) (hh : t.heap = s.heap)
    (ho : t.objects = s.objects) (hs : t.selectedObject = s.selectedObject)
    (hd : ∀ dp, t.drawingPath = some dp → getProp dp "id" ≠ Value.nan) : Sound t := by
  refine ⟨?_, ?_, ?_, hd⟩
  · rw [ho, hh]; exact h.wf
  · rw [ho, hs]; exact h.sel
  · intro r hr
    rw [ho] at hr
    have := h.ids r hr
    simpa [idOf, deref, hh] using this

theorem sound_init : Sound init := by
  refine ⟨?_, ?_, ?_, ?_⟩ <;> simp [init]

theorem finishDrawing_sound (B : Builtins) (s : App) (h : Sound s) :
    Sound (finishDrawing B s) := by
  cases hdp : s.drawingPath with
  | none =>
    have : finishDrawing B s = s := by simp [finishDrawing, hdp]
    rw [this]; exact h
  | some dp =>
    cases hadd : shouldAdd B dp with
    | false =>
      rw [finishDrawing_discard B s dp hdp hadd]
      exact sound_of_frame s _ h rfl rfl rfl (by simp)
    | true =>
      rw [finishDrawing_commit B s dp hdp hadd]
      refine ⟨?_, ?_, ?_, by simp⟩
      · intro r hr
        simp only [List.mem_append, List.mem_singleton] at hr
        simp only [List.length_append, List.length_singleton]
        rcases hr with hr | hr
        · exact Nat.lt_succ_of_lt (h.wf r hr)
        · omega
      · intro r hr
        exact List.mem_append_left _ (h.sel r hr)
      · intro r hr
        simp only [List.mem_append, List.mem_singleton] at hr
        rcases hr with hr | hr
        · have := h.ids r hr
          simp only [idOf, deref] at this ⊢
          rw [getD_append_old _ _ _ (h.wf r hr)]
          exact this
        · subst hr
          simp only [idOf, deref]
          rw [getD_append_new]
          exact h.dpId dp hdp

theorem updateObjectProperty_sound (B : Builtins) (property value : String) (s : App)
    (h : Sound s) : Sound (updateObjectProperty B property value s) := by
  unfold updateObjectProperty
  cases hsel : s.selectedObject with
  | none => simpa using h
  | some r =>
    have hr : r < s.heap.length := h.wf r (h.sel r hsel)
    refine ⟨?_, ?_, ?_, ?_⟩
    · simpa using h.wf
    · simpa [hsel] using h.sel r hsel
    · intro a ha
      simp only [idOf, deref]
      by_cases har : r = a
      · subst har
        rw [getD_set_same _ _ _ hr]
        by_cases hp : property = "id"
        · subst hp
          rw [getProp_setProp_same]
          exact finalValue_ne_nan B value
        · rw [getProp_setProp_ne _ _ _ _ hp]
          exact h.ids r ha
      · rw [getD_set_ne _ _ _ _ har]
        exact h.ids a ha
    · simpa using h.dpId

theorem deleteSelectedObject_sound (s : App) (h : Sound s) : Sound (deleteSelectedObject s) := by
  unfold deleteSelectedObject
  cases hsel : s.selectedObject with
  | none => simpa using h
  | some r =>
    refine ⟨?_, ?_, ?_, ?_⟩
    · intro a ha
      exact h.wf a (List.mem_of_mem_filter ha)
    · simp
    · intro a ha
      exact h.ids a (List.mem_of_mem_filter ha)
    · simpa using h.dpId

/-- Every input preserves the well-formedness of the references. -/
theorem step_sound (B : Builtins) (s : App) (e : Event) (h : Sound s) : Sound (step B s e) := by
  cases e with
  | tool toolId => exact sound_of_frame s _ h rfl rfl rfl h.dpId
  | mouseDown now point =>
    simp only [step, onCanvasMouseDown]
    split_ifs
    · exact h
    · obtain ⟨hh, ho, -, hs, -, -, hd⟩ := startDrawing_frame now point { s with isDrawing := true }
      refine sound_of_frame s _ h hh ho hs ?_
      intro dp hdp
      rcases hd dp hdp with h1 | h1
      · exact h.dpId dp h1
      · rw [h1]; simp
  | mouseMove point =>
    simp only [step, onCanvasMouseMove]
    split_ifs
    · obtain ⟨hh, ho, -, hs, -, -, hd⟩ := updateDrawing_frame B point s
      refine sound_of_frame s _ h hh ho hs ?_
      intro dp hdp
      obtain ⟨dp0, h0, h1⟩ := hd dp hdp
      rw [h1]; exact h.dpId dp0 h0
    · exact h
  | mouseUp =>
    simp only [step, onCanvasMouseUp]
    split_ifs
    · exact sound_of_frame (finishDrawing B s) _ (finishDrawing_sound B s h) rfl rfl rfl
        (finishDrawing_sound B s h).dpId
    · exact h
  | click point =>
    simp only [step, onCanvasClick]
    split_ifs
    · refine ⟨h.wf, ?_, h.ids, h.dpId⟩
      intro r hr
      exact List.mem_of_find?_eq_some hr
    · exact h
  | layerClick i =>
    simp only [step]
    cases s.layers.get? i with
    | none => exact h
    | some layer =>
      refine ⟨h.wf, ?_, h.ids, h.dpId⟩
      intro r hr
      exact List.mem_of_find?_eq_some hr
  | propertyChange property value => exact updateObjectProperty_sound B property value s h
  | deleteKey =>
    simp only [step, onDeleteKey]
    split_ifs
    · exact deleteSelectedObject_sound s h
    · exact h

theorem run_sound (B : Builtins) (es : List Event) (s : App) (h : Sound s) :
    Sound (run B s es) := by
  induction es generalizing s with
  | nil => exact h
  | cons e es ih => exact ih (step B s e) (step_sound B s e h)

theorem linked_of_frame (s t : App) (h : Linked s) (hh : t.heap = s.heap)
    (ho : t.objects = s.objects) (hl : t.layers = s.layers)
    (hd : ∀ dp, t.drawingPath = some dp → isObjId (getProp dp "id")) : Linked t := by
  have e : idOf t = idOf s := by
    funext r
    simp [idOf, deref, hh]
  refine ⟨?_, hd, ?_⟩
  · intro r hr
    rw [ho] at hr
    rw [e]
    exact h.ids r hr
  · rw [hl, ho, e]
    exact h.layerIds

theorem linked_init : Linked init := by
  refine ⟨?_, ?_, ?_⟩ <;> simp [init, backgroundLayer]

theorem map_filter_comm {α β : Type} (f : α → β) (p : β → Bool) (l : List α) :
    (l.filter (fun x => p (f x))).map f = (l.map f).filter p := by
  induction l with
  | nil => rfl
  | cons a l ih =>
    by_cases h : p (f a) = true
    · simp [List.filter_cons, h, ih]
    · simp [List.filter_cons, h, ih]

theorem finishDrawing_linked (B : Builtins) (s : App) (hs : Sound s) (h : Linked s) :
    Linked (finishDrawing B s) := by
  cases hdp : s.drawingPath with
  | none =>
    have : finishDrawing B s = s := by simp [finishDrawing, hdp]
    rw [this]; exact h
  | some dp =>
    cases hadd : shouldAdd B dp with
    | false =>
      rw [finishDrawing_discard B s dp hdp hadd]
      exact linked_of_frame s _ h rfl rfl rfl (by simp)
    | true =>
      rw [finishDrawing_commit B s dp hdp hadd]
      have hold : ∀ r ∈ s.objects,
          getProp ((s.heap ++ [dp]).getD r []) "id" = idOf s r := by
        intro r hr
        rw [getD_append_old _ _ _ (hs.wf r hr)]
        rfl
      refine ⟨?_, by simp, ?_⟩
      · intro r hr
        simp only [List.mem_append, List.mem_singleton] at hr
        simp only [idOf, deref]
        rcases hr with hr | hr
        · rw [hold r hr]
          exact h.ids r hr
        · subst hr
          rw [getD_append_new]
          exact h.dpId dp hdp
      · simp only [List.map_append, List.map_cons, List.map_nil, h.layerIds, newLayer,
          List.cons_append]
        congr 2
        · apply List.map_congr_left
          intro r hr
          simp only [idOf, deref]
          rw [getD_append_old _ _ _ (hs.wf r hr)]
        · simp only [idOf, deref]
          rw [getD_append_new]

theorem updateObjectProperty_linked (B : Builtins) (property value : String) (s : App)
    (hp : property ≠ "id") (hs : Sound s) (h : Linked s) :
    Linked (updateObjectProperty B property value s) := by
  unfold updateObjectProperty
  cases hsel : s.selectedObject with
  | none => simpa using h
  | some r =>
    have hr : r < s.heap.length := hs.wf r (hs.sel r hsel)
    have e : ∀ a, getProp ((s.heap.set r (setProp (s.heap.getD r []) property
        (finalValue B value))).getD a []) "id" = getProp (s.heap.getD a []) "id" := by
      intro a
      by_cases har : r = a
      · subst har
        rw [getD_set_same _ _ _ hr, getProp_setProp_ne _ _ _ _ hp]
      · rw [getD_set_ne _ _ _ _ har]
    refine ⟨?_, ?_, ?_⟩
    · intro a ha
      simp only [idOf, deref]
      rw [e a]
      exact h.ids a ha
    · simpa using h.dpId
    · simp only
      rw [map_id_updateFirst _ (fun l : Layer =>
        { l with properties := setProp l.properties property (finalValue B value) })
        (fun l => rfl), h.layerIds]
      congr 1
      apply List.map_congr_left
      intro a _
      simp only [idOf, deref]
      rw [e a]

theorem deleteSelectedObject_linked (s : App) (hs : Sound s) (h : Linked s) :
    Linked (deleteSelectedObject s) := by
  unfold deleteSelectedObject
  cases hsel : s.selectedObject with
  | none => simpa using h
  | some r =>
    obtain ⟨n, hn⟩ := h.ids r (hs.sel r hsel)
    have hsid : getProp (deref s r) "id" = Value.str ("obj-" ++ toString n) := hn
    refine ⟨?_, ?_, ?_⟩
    · intro a ha
      exact h.ids a (List.mem_of_mem_filter ha)
    · simpa using h.dpId
    · simp only
      rw [map_filter_comm Layer.id (fun v => !strictEq v (getProp (deref s r) "id")), h.layerIds]
      have h1 : strictEq (Value.str "layer-1") (getProp (deref s r) "id") = false := by
        rw [hsid, ← Bool.not_eq_true, strictEq_str]
        exact fun e => objId_ne_layer1 n e.symm
      rw [List.filter_cons, h1]
      simp only [Bool.not_false, if_true]
      congr 1
      exact (map_filter_comm (idOf s) (fun v => !strictEq v (getProp (deref s r) "id"))
        s.objects).symm

theorem formField_ne_id (property : String) (h : property ∈ formFields) : property ≠ "id" := by
  intro e
  subst e
  simp [formFields] at h

/-- Every input of the page preserves the link between objects and layers. -/
theorem step_linked (B : Builtins) (s : App) (e : Event) (he : e.fromPage)
    (hs : Sound s) (h : Linked s) : Linked (step B s e) := by
  cases e with
  | tool toolId => exact linked_of_frame s _ h rfl rfl rfl h.dpId
  | mouseDown now point =>
    simp only [step, onCanvasMouseDown]
    split_ifs
    · exact h
    · obtain ⟨hh, ho, hl, -, -, -, hd⟩ := startDrawing_frame now point { s with isDrawing := true }
      refine linked_of_frame s _ h hh ho hl ?_
      intro dp hdp
      rcases hd dp hdp with h1 | h1
      · exact h.dpId dp h1
      · exact ⟨now, h1⟩
  | mouseMove point =>
    simp only [step, onCanvasMouseMove]
    split_ifs
    · obtain ⟨hh, ho, hl, -, -, -, hd⟩ := updateDrawing_frame B point s
      refine linked_of_frame s _ h hh ho hl ?_
      intro dp hdp
      obtain ⟨dp0, h0, h1⟩ := hd dp hdp
      rw [h1]; exact h.dpId dp0 h0
    · exact h
  | mouseUp =>
    simp only [step, onCanvasMouseUp]
    split_ifs
    · exact linked_of_frame (finishDrawing B s) _ (finishDrawing_linked B s hs h) rfl rfl rfl
        (finishDrawing_linked B s hs h).dpId
    · exact h
  | click point =>
    simp only [step, onCanvasClick]
    split_ifs
    · exact linked_of_frame s _ h rfl rfl rfl h.dpId
    · exact h
  | layerClick i =>
    simp only [step]
    cases s.layers.get? i with
    | none => exact h
    | some layer => exact linked_of_frame s _ h rfl rfl rfl h.dpId
  | propertyChange property value =>
    exact updateObjectProperty_linked B property value s (formField_ne_id property he) hs h
  | deleteKey =>
    simp only [step, onDeleteKey]
    split_ifs
    · exact deleteSelectedObject_linked s hs h
    · exact h

theorem run_linked (B : Builtins) (es : List Event) (s : App) (hp : ∀ e ∈ es, e.fromPage)
    (hs : Sound s) (h : Linked s) : Linked (run B s es) := by
  induction es generalizing s with
  | nil => exact h
  | cons e es ih =>
    exact ih (step B s e) (fun x hx => hp x (List.mem_cons_of_mem _ hx))
      (step_sound B s e hs) (step_linked B s e (hp e (List.mem_cons_self _ _)) hs h)

theorem reachable_sound (B : Builtins) (s : App) (h : Reachable B s) : Sound s := by
  obtain ⟨es, -, rfl⟩ := h
  exact run_sound B es init sound_init

theorem reachable_linked (B : Builtins) (s : App) (h : Reachable B s) : Linked s := by
  obtain ⟨es, hp, rfl⟩ := h
  exact run_linked B es init hp sound_init linked_init

/-! ## Lengths of the two lists -/

/-- Counterexample to C3: on the empty canvas a rectangle 50 by 50 is committed; afterwards
the object list has one entry and the layer list two. -/
theorem layers_longer_after_commit :
    drawingBig.drawingPath = some bigRectangle ∧ shouldAdd platform bigRectangle = true ∧
    (finishDrawing platform drawingBig).objects.length = 1 ∧
    (finishDrawing platform drawingBig).layers.length = 2 ∧
    ¬ ((finishDrawing platform drawingBig).objects.length =
        (finishDrawing platform drawingBig).layers.length) := by
  decide!

/-- C3, amended: in every reachable state the layer list is one entry longer than the
object list (the seeded `Background` layer has no object). -/
theorem layers_length (B : Builtins) (s : App) (h : Reachable B s) :
    s.layers.length = s.objects.length + 1 := by
  have h1 := congrArg List.length (reachable_linked B s h).layerIds
  simpa using h1

theorem afterCommit_reachable : Reachable platform afterCommit :=
  ⟨drawOne, by simp [drawOne, Event.fromPage], rfl⟩

/-- Witness for C3, amended: after one commit there are one object and two layers. -/
theorem layers_length_witness :
    Reachable platform afterCommit ∧ afterCommit.objects.length = 1 ∧
    afterCommit.layers.length = afterCommit.objects.length + 1 :=
  ⟨afterCommit_reachable, by decide!, layers_length platform afterCommit afterCommit_reachable⟩

/-! ## Deletion -/

theorem twinsSelected_reachable : Reachable platform twinsSelected :=
  ⟨sameStamp, by simp [sameStamp, Event.fromPage], rfl⟩

/-- C4 at the failing input: two rectangles whose drawing started in the same millisecond
share the id `obj-7`; with the first one selected, `deleteSelectedObject` removes both
objects and both layers. -/
theorem delete_removes_both_twins :
    Reachable platform twinsSelected ∧
    twinsSelected.selectedObject = some 0 ∧ twinsSelected.objects = [0, 1] ∧
    twinsSelected.layers.length = 3 ∧
    idOf twinsSelected 0 = Value.str "obj-7" ∧ idOf twinsSelected 1 = Value.str "obj-7" ∧
    (deleteSelectedObject twinsSelected).objects = [] ∧
    (deleteSelectedObject twinsSelected).layers = [backgroundLayer] ∧
    (deleteSelectedObject twinsSelected).selectedObject = none :=
  ⟨twinsSelected_reachable, by decide!, by decide!, by decide!, by decide!, by decide!,
    by decide!, by decide!, by decide!⟩

theorem filter_ne_eq_erase (f : Nat → Value) (l : List Nat) (a : Nat) (ha : a ∈ l)
    (hn : (l.map f).Nodup) (hnan : ∀ x ∈ l, f x ≠ Value.nan) :
    l.filter (fun x => !strictEq (f x) (f a)) = l.erase a := by
  induction l with
  | nil => simp at ha
  | cons x l ih =>
    simp only [List.map_cons, List.nodup_cons, List.mem_map, not_exists, not_and] at hn
    by_cases hx : x = a
    · subst hx
      have h1 : strictEq (f x) (f x) = true := strictEq_self _ (hnan x (List.mem_cons_self _ _))
      simp only [List.filter_cons, h1, Bool.not_true, Bool.false_eq_true, if_false,
        List.erase_cons_head]
      rw [List.filter_eq_self]
      intro y hy
      have h2 : strictEq (f y) (f x) = false := by
        rw [← Bool.not_eq_true]
        intro e
        exact hn.1 y hy (strictEq_eq _ _ e)
      simp [h2]
    · have ha2 : a ∈ l := by
        rcases List.mem_cons.1 ha with h | h
        · exact absurd h.symm hx
        · exact h
      have h2 : strictEq (f x) (f a) = false := by
        rw [← Bool.not_eq_true]
        intro e
        exact hn.1 a ha2 (strictEq_eq _ _ e).symm
      have hxa : (x == a) = false := by simpa using hx
      simp only [List.filter_cons, h2, Bool.not_false, if_true, List.erase_cons, hxa,
        Bool.false_eq_true, if_false]
      rw [ih ha2 hn.2 (fun y hy => hnan y (List.mem_cons_of_mem _ hy))]

/-- In a reachable state whose objects have pairwise distinct ids, `deleteSelectedObject`
removes exactly the selected entry from the object list and exactly one layer, and clears
the selection. -/
theorem deleteSelectedObject_distinct_ids (B : Builtins) (s : App) (r : Nat)
    (h : Reachable B s) (hsel : s.selectedObject = some r)
    (hids : (s.objects.map (idOf s)).Nodup) :
    (deleteSelectedObject s).objects = s.objects.erase r ∧
    (deleteSelectedObject s).objects.length + 1 = s.objects.length ∧
    (deleteSelectedObject s).layers = s.layers.filter (fun l => !strictEq l.id (idOf s r)) ∧
    (deleteSelectedObject s).layers.length + 1 = s.layers.length ∧
    (deleteSelectedObject s).heap = s.heap ∧
    (deleteSelectedObject s).selectedObject = none := by
  have hs := reachable_sound B s h
  have hl := reachable_linked B s h
  have hl2 := deleteSelectedObject_linked s hs hl
  have hmem : r ∈ s.objects := hs.sel r hsel
  have hobj : (deleteSelectedObject s).objects = s.objects.erase r := by
    simp only [deleteSelectedObject, hsel]
    exact filter_ne_eq_erase (idOf s) s.objects r hmem hids hs.ids
  have hlen : (deleteSelectedObject s).objects.length + 1 = s.objects.length := by
    rw [hobj, List.length_erase_of_mem hmem]
    have : 0 < s.objects.length := List.length_pos_of_mem hmem
    omega
  refine ⟨hobj, hlen, ?_, ?_, ?_, ?_⟩
  · simp [deleteSelectedObject, hsel, idOf]
  · have h1 := congrArg List.length hl.layerIds
    have h2 := congrArg List.length hl2.layerIds
    simp only [List.length_map, List.length_cons] at h1 h2
    omega
  · simp [deleteSelectedObject, hsel]
  · simp [deleteSelectedObject, hsel]

/-! ## The selection -/

/-- C5: in every state the controller reaches from its initial state by any sequence of
inputs, the selected object, when there is one, is an entry of the object list; and
`deleteSelectedObject` removes that entry and clears the selection in one step. -/
theorem selection_invariant (B : Builtins) (es : List Event) :
    (∀ r, (run B init es).selectedObject = some r →
      r ∈ (run B init es).objects ∧ r < (run B init es).heap.length) ∧
    (∀ r, (run B init es).selectedObject = some r →
      r ∉ (deleteSelectedObject (run B init es)).objects ∧
      (deleteSelectedObject (run B init es)).selectedObject = none) := by
  have hs := run_sound B es init sound_init
  refine ⟨fun r hr => ⟨hs.sel r hr, hs.wf r (hs.sel r hr)⟩, ?_⟩
  intro r hr
  have h1 : strictEq (idOf (run B init es) r) (idOf (run B init es) r) = true :=
    strictEq_self _ (hs.ids r (hs.sel r hr))
  constructor
  · simp only [deleteSelectedObject, hr, List.mem_filter, not_and]
    intro _
    simp only [idOf] at h1
    simp [h1]
  · simp [deleteSelectedObject, hr]

/-- Witness for C5: after drawing a rectangle and clicking it, object 0 is selected and
is in the object list; deleting it empties the list and the selection. -/
theorem selection_invariant_witness :
    (run platform init (drawOne ++ [Event.click ⟨20, 20⟩])).selectedObject = some 0 ∧
    (0 ∈ (run platform init (drawOne ++ [Event.click ⟨20, 20⟩])).objects ∧
      0 < (run platform init (drawOne ++ [Event.click ⟨20, 20⟩])).heap.length) ∧
    (0 ∉ (deleteSelectedObject (run platform init (drawOne ++ [Event.click ⟨20, 20⟩]))).objects ∧
      (deleteSelectedObject
        (run platform init (drawOne ++ [Event.click ⟨20, 20⟩]))).selectedObject = none) :=
  ⟨by decide!,
    (selection_invariant platform (drawOne ++ [Event.click ⟨20, 20⟩])).1 0 (by decide!),
    (selection_invariant platform (drawOne ++ [Event.click ⟨20, 20⟩])).2 0 (by decide!)⟩

/-! ## Hit-testing -/

/-- A computed square root is `NaN`, `Infinity` or a finite number that is not negative. -/
theorem jsSqrt_nonneg (x : Number) :
    jsSqrt x = Number.nan ∨ jsSqrt x = Number.inf false ∨
      ∃ q : ℚ, 0 ≤ q ∧ jsSqrt x = Number.fin q := by
  cases x with
  | nan => exact Or.inl rfl
  | inf b => cases b <;> simp [jsSqrt]
  | fin q =>
    unfold jsSqrt
    by_cases h1 : q < 0
    · simp [h1]
    · by_cases h2 : q = 0
      · simp [h2]
      · simp only [h1, h2, if_false]
        exact Or.inr (Or.inr ⟨_, scale2_nonneg _ _, rfl⟩)

/-- No computed square root is less than or equal to a negative number. -/
theorem jsSqrt_not_le_neg (x : Number) (r : ℚ) (hr : r < 0) :
    jsLe (jsSqrt x) (Number.fin r) = false := by
  rcases jsSqrt_nonneg x with h | h | ⟨q, hq, h⟩
  · rw [h]; rfl
  · rw [h]; rfl
  · rw [h]
    simp only [jsLe, decide_eq_false_iff_not, not_le]
    exact lt_of_lt_of_le hr hq

/-- The rectangle branch of `isPointInObject`. -/
theorem rectangle_hit_eq (B : Builtins) (o : Obj) (p : Point)
    (ht : getProp o "type" = Value.str "rectangle") :
    isPointInObject B p o =
      (jsLe (toNumber B (getProp o "x")) (Number.fin p.x) &&
      jsLe (Number.fin p.x) (toNumber B (jsAdd B (getProp o "x") (getProp o "width"))) &&
      jsLe (toNumber B (getProp o "y")) (Number.fin p.y) &&
      jsLe (Number.fin p.y) (toNumber B (jsAdd B (getProp o "y") (getProp o "height")))) := by
  have h1 : isType o "rectangle" = true := (isType_iff _ _).2 ht
  simp only [isPointInObject, h1, if_true, jsGe]

/-- The rectangle branch of `isPointInObject` when the four geometry fields are numbers. -/
theorem rectangle_hit_iff (B : Builtins) (o : Obj) (x y w h : ℚ) (p : Point)
    (ht : getProp o "type" = Value.str "rectangle")
    (hx : getProp o "x" = Value.num x) (hy : getProp o "y" = Value.num y)
    (hw : getProp o "width" = Value.num w) (hh : getProp o "height" = Value.num h) :
    isPointInObject B p o = true ↔
      x ≤ p.x ∧ jsLe (Number.fin p.x) (roundDouble (x + w)) = true ∧
      y ≤ p.y ∧ jsLe (Number.fin p.y) (roundDouble (y + h)) = true := by
  have e1 : toNumber B (jsAdd B (Value.num x) (Value.num w)) = roundDouble (x + w) := by
    simp only [jsAdd, toNumber, jsPlus]
    cases roundDouble (x + w) <;> rfl
  have e2 : toNumber B (jsAdd B (Value.num y) (Value.num h)) = roundDouble (y + h) := by
    simp only [jsAdd, toNumber, jsPlus]
    cases roundDouble (y + h) <;> rfl
  rw [rectangle_hit_eq B o p ht, hx, hy, hw, hh, e1, e2]
  simp only [toNumber, jsLe, Bool.and_eq_true, decide_eq_true_eq]
  tauto

/-- A point with double coordinates inside the exact bounds of a rectangle with numeric
geometry is hit: rounding the sums cannot move the far edges below the point. -/
theorem rectangle_hit_of_inside (B : Builtins) (o : Obj) (x y w h : ℚ) (p : Point)
    (ht : getProp o "type" = Value.str "rectangle")
    (hx : getProp o "x" = Value.num x) (hy : getProp o "y" = Value.num y)
    (hw : getProp o "width" = Value.num w) (hh : getProp o "height" = Value.num h)
    (dx : isDouble p.x) (dy : isDouble p.y)
    (hin : x ≤ p.x ∧ p.x ≤ x + w ∧ y ≤ p.y ∧ p.y ≤ y + h) :
    isPointInObject B p o = true := by
  rw [rectangle_hit_iff B o x y w h p ht hx hy hw hh]
  exact ⟨hin.1, double_le_round _ _ dx hin.2.1, hin.2.2.1, double_le_round _ _ dy hin.2.2.2⟩

/-- With one object `r`, `getObjectAtPoint` and a click with the select tool find `r`
exactly when `isPointInObject` holds for it. -/
theorem click_single (B : Builtins) (p : Point) (s : App) (r : Nat)
    (htool : s.currentTool = "select") (hobjs : s.objects = [r]) :
    (isPointInObject B p (deref s r) = true →
      getObjectAtPoint B p s = some r ∧ (onCanvasClick B p s).selectedObject = some r) ∧
    (isPointInObject B p (deref s r) = false →
      getObjectAtPoint B p s = none ∧ (onCanvasClick B p s).selectedObject = none) := by
  constructor
  · intro hit
    have hg : getObjectAtPoint B p s = some r := by
      simp [getObjectAtPoint, hobjs, List.find?, hit]
    exact ⟨hg, by simp [onCanvasClick, htool, selectObject, hg]⟩
  · intro hit
    have hg : getObjectAtPoint B p s = none := by
      simp [getObjectAtPoint, hobjs, List.find?, hit]
    exact ⟨hg, by simp [onCanvasClick, htool, selectObject, hg]⟩

/-- Counterexample to C6 as written: the committed rectangle, after the X and Width
fields of the property form are set to 0.1 and 0.2, has `x` = 0.1 and `width` = 0.2 (as
doubles); the point with `point.x` = 0.30000000000000004 lies to the right of
`x + width`, the sum of the two doubles, yet the code rounds that sum to
0.30000000000000004, so `isPointInObject` is true and a click there selects the
rectangle. -/
theorem rectangle_hit_outside_bounds :
    narrowRectangle.currentTool = "select" ∧ narrowRectangle.objects = [0] ∧
    getProp (deref narrowRectangle 0) "type" = Value.str "rectangle" ∧
    getProp (deref narrowRectangle 0) "x" = Value.num (double (1 / 10)) ∧
    getProp (deref narrowRectangle 0) "width" = Value.num (double (2 / 10)) ∧
    getProp (deref narrowRectangle 0) "y" = Value.num 10 ∧
    getProp (deref narrowRectangle 0) "height" = Value.num 50 ∧
    double (1 / 10) + double (2 / 10) < double (30000000000000004 / 10 ^ 17) ∧
    isPointInObject platform ⟨double (30000000000000004 / 10 ^ 17), 20⟩
      (deref narrowRectangle 0) = true ∧
    getObjectAtPoint platform ⟨double (30000000000000004 / 10 ^ 17), 20⟩ narrowRectangle
      = some 0 ∧
    (onCanvasClick platform ⟨double (30000000000000004 / 10 ^ 17), 20⟩
      (selectObject none narrowRectangle)).selectedObject = some 0 :=
  ⟨by decide!, by decide!, by decide!, by decide!, by decide!, by decide!, by decide!,
    by decide!, by decide!, by decide!, by decide!⟩

/-- C6 (corrected): for every rectangle object and every point, `isPointInObject` is true
exactly when `x <= point.x`, `point.x <= x + width`, `y <= point.y` and
`point.y <= y + height` hold as the code evaluates them: the sums are the operator `+`
(rounded to a double on numbers, a concatenation when a field is a string) and the
comparisons are those of doubles.  When the four fields are numbers this is
`x ≤ point.x ≤ fl(x + width)` and `y ≤ point.y ≤ fl(y + height)` with `fl` the rounding
to a double; every point (with double coordinates) inside the exact bounds is hit, and
the test is the exact condition when the two sums are doubles themselves.  When the
rectangle is the only object and the tool is `select`, a click at a point strictly inside
the bounds selects the rectangle; in general a click selects it if `isPointInObject` is
true there, and finds nothing (`getObjectAtPoint` is null) if it is false. -/
theorem isPointInObject_rectangle (B : Builtins) (o : Obj) (p : Point)
    (ht : getProp o "type" = Value.str "rectangle") :
    (isPointInObject B p o = true ↔
      jsLe (toNumber B (getProp o "x")) (Number.fin p.x) = true ∧
      jsLe (Number.fin p.x) (toNumber B (jsAdd B (getProp o "x") (getProp o "width"))) = true ∧
      jsLe (toNumber B (getProp o "y")) (Number.fin p.y) = true ∧
      jsLe (Number.fin p.y)
        (toNumber B (jsAdd B (getProp o "y") (getProp o "height"))) = true) ∧
    (∀ x y w h : ℚ, getProp o "x" = Value.num x → getProp o "y" = Value.num y →
      getProp o "width" = Value.num w → getProp o "height" = Value.num h →
      (isPointInObject B p o = true ↔
        x ≤ p.x ∧ jsLe (Number.fin p.x) (roundDouble (x + w)) = true ∧
        y ≤ p.y ∧ jsLe (Number.fin p.y) (roundDouble (y + h)) = true) ∧
      (isDouble p.x → isDouble p.y →
        x ≤ p.x ∧ p.x ≤ x + w ∧ y ≤ p.y ∧ p.y ≤ y + h → isPointInObject B p o = true) ∧
      (isDouble (x + w) → isDouble (y + h) →
        (isPointInObject B p o = true ↔ x ≤ p.x ∧ p.x ≤ x + w ∧ y ≤ p.y ∧ p.y ≤ y + h)) ∧
      (∀ (s : App) (r : Nat), s.currentTool = "select" → s.objects = [r] → deref s r = o →
        isDouble p.x → isDouble p.y → x < p.x ∧ p.x < x + w ∧ y < p.y ∧ p.y < y + h →
        getObjectAtPoint B p s = some r ∧ (onCanvasClick B p s).selectedObject = some r)) ∧
    (∀ (s : App) (r : Nat), s.currentTool = "select" → s.objects = [r] → deref s r = o →
      (isPointInObject B p o = true →
        getObjectAtPoint B p s = some r ∧ (onCanvasClick B p s).selectedObject = some r) ∧
      (isPointInObject B p o = false →
        getObjectAtPoint B p s = none ∧ (onCanvasClick B p s).selectedObject = none)) := by
  refine ⟨?_, ?_, ?_⟩
  · rw [rectangle_hit_eq B o p ht]
    simp only [Bool.and_eq_true]
    tauto
  · intro x y w h hx hy hw hh
    have hiff := rectangle_hit_iff B o x y w h p ht hx hy hw hh
    refine ⟨hiff, ?_, ?_, ?_⟩
    · intro dx dy hin
      exact rectangle_hit_of_inside B o x y w h p ht hx hy hw hh dx dy hin
    · intro e1 e2
      unfold isDouble at e1 e2
      rw [hiff, e1, e2]
      simp only [jsLe, decide_eq_true_eq]
    · intro s r htool hobjs hderef dx dy hin
      have hit : isPointInObject B p (deref s r) = true := by
        rw [hderef]
        exact rectangle_hit_of_inside B o x y w h p ht hx hy hw hh dx dy
          ⟨le_of_lt hin.1, le_of_lt hin.2.1, le_of_lt hin.2.2.1, le_of_lt hin.2.2.2⟩
      exact (click_single B p s r htool hobjs).1 hit
  · intro s r htool hobjs hderef
    rw [← hderef]
    exact click_single B p s r htool hobjs

/-- Witness for C6: the rectangle at (10, 10), 50 by 50, as the only object: a click at
(20, 20) selects it, and at (100, 100) `getObjectAtPoint` is null. -/
theorem isPointInObject_rectangle_witness :
    (afterCommit.currentTool = "select" ∧ afterCommit.objects = [0] ∧
      deref afterCommit 0 = bigRectangle) ∧
    (isPointInObject platform ⟨20, 20⟩ bigRectangle = true ∧
      getObjectAtPoint platform ⟨20, 20⟩ afterCommit = some 0 ∧
      (onCanvasClick platform ⟨20, 20⟩ afterCommit).selectedObject = some 0) ∧
    (isPointInObject platform ⟨100, 100⟩ bigRectangle = false ∧
      getObjectAtPoint platform ⟨100, 100⟩ afterCommit = none ∧
      (onCanvasClick platform ⟨100, 100⟩ afterCommit).selectedObject = none) := by
  have a := isPointInObject_rectangle platform bigRectangle ⟨20, 20⟩ (by decide)
  have b := isPointInObject_rectangle platform bigRectangle ⟨100, 100⟩ (by decide)
  have a2 := a.2.1 10 10 50 50 (by decide) (by decide) (by decide) (by decide)
  have b2 := (b.2.1 10 10 50 50 (by decide) (by decide) (by decide) (by decide)).2.2.1
    (by decide!) (by decide!)
  have st : afterCommit.currentTool = "select" ∧ afterCommit.objects = [0] ∧
      deref afterCommit 0 = bigRectangle := by decide!
  have hin : isPointInObject platform ⟨20, 20⟩ bigRectangle = true :=
    a2.2.1 (by decide!) (by decide!) (by norm_num)
  have hout : isPointInObject platform ⟨100, 100⟩ bigRectangle = false := by
    rw [← Bool.not_eq_true, b2]
    norm_num
  exact ⟨st, ⟨hin, a2.2.2.2 afterCommit 0 st.1 st.2.1 st.2.2 (by decide!) (by decide!)
      (by norm_num)⟩,
    ⟨hout, (b.2.2 afterCommit 0 st.1 st.2.1 st.2.2).2 hout⟩⟩

/-- The circle branch of `isPointInObject`. -/
theorem circle_hit_eq (B : Builtins) (o : Obj) (p : Point)
    (ht : getProp o "type" = Value.str "circle") :
    isPointInObject B p o = jsLe (centreDistance B p o) (toNumber B (getProp o "r")) := by
  have h1 : isType o "rectangle" = false := by
    rw [← Bool.not_eq_true, isType_iff, ht]; decide
  have h2 : isType o "circle" = true := (isType_iff _ _).2 ht
  simp only [isPointInObject, h1, h2, if_true, Bool.false_eq_true, if_false, centreDistance]

/-- Counterexample to C7 as written: the circle drawn from the centre (50, 50) to the
point (51, 55) stores the radius `Math.sqrt(26)`, a double whose square is smaller than
26; the point (51, 55) is at squared distance 26 from the centre, more than the square of
the radius, yet `isPointInObject` is true for it. -/
theorem circle_hit_outside_radius :
    circleRoot26.objects = [0] ∧
    getProp (deref circleRoot26 0) "type" = Value.str "circle" ∧
    getProp (deref circleRoot26 0) "cx" = Value.num 50 ∧
    getProp (deref circleRoot26 0) "cy" = Value.num 50 ∧
    getProp (deref circleRoot26 0) "r" = Value.num (2870492797671419 / 562949953421312) ∧
    (0 : ℚ) ≤ 2870492797671419 / 562949953421312 ∧
    ¬ ((51 - 50 : ℚ) ^ 2 + (55 - 50) ^ 2 ≤ (2870492797671419 / 562949953421312) ^ 2) ∧
    isPointInObject platform ⟨51, 55⟩ (deref circleRoot26 0) = true :=
  ⟨by decide!, by decide!, by decide!, by decide!, by decide!, by decide!, by decide!,
    by decide!⟩

/-- C7 (corrected): for every circle object and every point, `isPointInObject` is true
exactly when the distance of the point from the centre as the code computes it,
`Math.sqrt(dx * dx + dy * dy)` with every operation rounded to a double, is at most `r`
in the comparison of doubles; the centre itself is hit when `r` is a number that is not
negative; for a circle with a negative number `r` the test is false for every point. -/
theorem isPointInObject_circle (B : Builtins) (o : Obj) (p : Point)
    (ht : getProp o "type" = Value.str "circle") :
    (isPointInObject B p o = true ↔
      jsLe (centreDistance B p o) (toNumber B (getProp o "r")) = true) ∧
    (∀ cx cy r : ℚ, getProp o "cx" = Value.num cx → getProp o "cy" = Value.num cy →
      getProp o "r" = Value.num r →
      (isPointInObject B p o = true ↔
        jsLe (jsSqrt (jsPlus
          (jsMul (roundDouble (p.x - cx)) (roundDouble (p.x - cx)))
          (jsMul (roundDouble (p.y - cy)) (roundDouble (p.y - cy))))) (Number.fin r) = true) ∧
      (0 ≤ r → isPointInObject B ⟨cx, cy⟩ o = true)) ∧
    (∀ r : ℚ, getProp o "r" = Value.num r → r < 0 → isPointInObject B p o = false) := by
  refine ⟨?_, ?_, ?_⟩
  · rw [circle_hit_eq B o p ht]
  · intro cx cy r hcx hcy hr
    constructor
    · rw [circle_hit_eq B o p ht]
      simp only [centreDistance, hcx, hcy, hr, toNumber, jsSub, jsNeg, jsPlus, sub_eq_add_neg]
    · intro h0
      rw [circle_hit_eq B o _ ht]
      have z : roundDouble 0 = Number.fin 0 := by simp [roundDouble]
      simp only [centreDistance, hcx, hcy, hr, toNumber, jsSub, jsNeg, jsPlus, add_neg_cancel,
        z, jsMul, mul_zero, add_zero, jsSqrt, lt_self_iff_false, if_false, if_true, jsLe,
        decide_eq_true_eq]
      exact h0
  · intro r hr hneg
    rw [circle_hit_eq B o p ht, hr]
    exact jsSqrt_not_le_neg _ r hneg

/-- Witness for C7: the circle with centre (50, 50) and radius 10 contains (56, 58), at
distance 10, and its centre, and not (57, 58); the same circle with radius -1 contains no
point. -/
theorem isPointInObject_circle_witness :
    isPointInObject platform ⟨56, 58⟩ sampleCircle = true ∧
    isPointInObject platform ⟨57, 58⟩ sampleCircle = false ∧
    isPointInObject platform ⟨50, 50⟩ sampleCircle = true ∧
    isPointInObject platform ⟨50, 50⟩ (setProp sampleCircle "r" (Value.num (-1))) = false := by
  have a := isPointInObject_circle platform sampleCircle ⟨56, 58⟩ (by decide)
  have b := isPointInObject_circle platform sampleCircle ⟨57, 58⟩ (by decide)
  have c := isPointInObject_circle platform (setProp sampleCircle "r" (Value.num (-1)))
    ⟨50, 50⟩ (by decide)
  refine ⟨a.1.2 (by decide!), ?_,
    (a.2.1 50 50 10 (by decide) (by decide) (by decide)).2 (by norm_num),
    c.2.2 (-1) (by decide) (by norm_num)⟩
  rw [← Bool.not_eq_true, b.1]
  decide!

/-- C8: `isPointInObject` is false for every line and every point, so `getObjectAtPoint`
is null at every point when the object list holds only lines. -/
theorem lines_not_hit (B : Builtins) (p : Point) :
    (∀ o : Obj, getProp o "type" = Value.str "line" → isPointInObject B p o = false) ∧
    (∀ s : App, (∀ r ∈ s.objects, getProp (deref s r) "type" = Value.str "line") →
      getObjectAtPoint B p s = none) := by
  have h : ∀ o : Obj, getProp o "type" = Value.str "line" → isPointInObject B p o = false := by
    intro o ht
    have h1 : isType o "rectangle" = false := by
      rw [← Bool.not_eq_true, isType_iff, ht]; decide
    have h2 : isType o "circle" = false := by
      rw [← Bool.not_eq_true, isType_iff, ht]; decide
    simp [isPointInObject, h1, h2]
  refine ⟨h, ?_⟩
  intro s hs
  simp only [getObjectAtPoint, List.find?_eq_none]
  intro r hr
  simp [h _ (hs r hr)]

/-- Witness for C8: a committed line from (0, 0) to (30, 40) is not found at its own
midpoint (15, 20). -/
theorem lines_not_hit_witness :
    afterLine.objects = [0] ∧ getProp (deref afterLine 0) "type" = Value.str "line" ∧
    isPointInObject platform ⟨15, 20⟩ (deref afterLine 0) = false ∧
    getObjectAtPoint platform ⟨15, 20⟩ afterLine = none :=
  ⟨by decide!, by decide!,
    (lines_not_hit platform ⟨15, 20⟩).1 (deref afterLine 0) (by decide!),
    (lines_not_hit platform ⟨15, 20⟩).2 afterLine (by decide!)⟩

/-! ## Property editing -/

theorem find?_updateFirst (p : Layer → Bool) (f : Layer → Layer) (hf : ∀ l, p (f l) = p l)
    (ls : List Layer) (l : Layer) (h : ls.find? p = some l) :
    (updateFirst p f ls).find? p = some (f l) := by
  induction ls with
  | nil => simp at h
  | cons a ls ih =>
    by_cases ha : p a = true
    · simp only [List.find?, ha, Option.some.injEq] at h
      subst h
      simp [updateFirst, ha, List.find?, hf]
    · simp only [List.find?, ha] at h
      simp only [updateFirst, ha, if_false, List.find?, Bool.false_eq_true]
      exact ih h

/-- What `updateObjectProperty` does with a selection at a heap address, for a property
other than `id`: the object gets the value, its id and the object list stay, and the
first layer with the id of the object gets the same value in its `properties`. -/
theorem updateObjectProperty_effect (B : Builtins) (s : App) (r : Nat)
    (property value : String) (hsel : s.selectedObject = some r) (hwf : r < s.heap.length)
    (hp : property ≠ "id") :
    deref (updateObjectProperty B property value s) r =
      setProp (deref s r) property (finalValue B value) ∧
    idOf (updateObjectProperty B property value s) r = idOf s r ∧
    (updateObjectProperty B property value s).objects = s.objects ∧
    (updateObjectProperty B property value s).selectedObject = some r ∧
    (∀ layer, s.layers.find? (fun l => strictEq l.id (idOf s r)) = some layer →
      (updateObjectProperty B property value s).layers.find?
          (fun l => strictEq l.id (idOf s r)) =
        some { layer with
          properties := setProp layer.properties property (finalValue B value) }) := by
  have hd : deref (updateObjectProperty B property value s) r =
      setProp (deref s r) property (finalValue B value) := by
    simp only [updateObjectProperty, hsel, deref]
    exact getD_set_same _ _ _ hwf
  have hid : getProp (setProp (deref s r) property (finalValue B value)) "id" = idOf s r := by
    rw [getProp_setProp_ne _ _ _ _ hp]
    rfl
  refine ⟨hd, ?_, ?_, ?_, ?_⟩
  · simp only [idOf, hd]
    exact hid
  · simp [updateObjectProperty, hsel]
  · simp [updateObjectProperty, hsel]
  · intro layer hl
    simp only [updateObjectProperty, hsel, hid]
    exact find?_updateFirst (fun l : Layer => strictEq l.id (idOf s r)) (fun l : Layer =>
      { l with properties := setProp l.properties property (finalValue B value) })
      (fun l => rfl) s.layers layer hl

/-- The value `updateObjectProperty` stores in the selected object, for every property
name and every input string: the number `parseFloat` returns, unless that is `NaN`, and
then the input string itself. -/
theorem updateObjectProperty_value (B : Builtins) (s : App) (r : Nat)
    (property value : String) (hsel : s.selectedObject = some r) (hwf : r < s.heap.length) :
    getProp (deref (updateObjectProperty B property value s) r) property = finalValue B value ∧
    (B.parseFloat value = Number.nan → finalValue B value = Value.str value) ∧
    (B.parseFloat value ≠ Number.nan → finalValue B value = ofNumber (B.parseFloat value)) := by
  refine ⟨?_, ?_, ?_⟩
  · simp only [updateObjectProperty, hsel, deref]
    rw [getD_set_same _ _ _ hwf, getProp_setProp_same]
  · intro h
    simp [finalValue, h]
  · intro h
    unfold finalValue
    cases hq : B.parseFloat value with
    | nan => exact absurd hq h
    | inf b => rfl
    | fin q => rfl

/-- The values `parseFloat` returns on the platform for some inputs of the property form:
a colour is `NaN`, a decimal is rounded to a double, `Infinity` is a number. -/
theorem parseFloat_samples :
    platform.parseFloat "#123456" = Number.nan ∧
    platform.parseFloat "120.5" = Number.fin (241 / 2) ∧
    platform.parseFloat "9007199254740993" = Number.fin 9007199254740992 ∧
    platform.parseFloat "Infinity" = Number.inf false ∧
    platform.parseFloat "12px" = Number.fin 12 := by
  decide!

theorem twinsSecondSelected_reachable : Reachable platform twinsSecondSelected :=
  ⟨twinEdit.take 10, by simp [twinEdit, Event.fromPage], rfl⟩

/-- C9 at the failing input: two rectangles whose drawing started in the same millisecond
share the id `obj-7`; the second one, at (100, 100), is selected, and the layer list has
layers with its id.  After `updateObjectProperty('fill', '#123456')` the selected object
has the fill `#123456`, but its layer, the third of the layer list, with the corner
(100, 100) in its `properties`, keeps `properties.fill` equal to `#4ECDC4`: the write
went to the layer of the first rectangle. -/
theorem fill_edit_misses_own_layer :
    Reachable platform twinsSecondSelected ∧
    twinsSecondSelected.selectedObject = some 1 ∧ twinsSecondSelected.objects = [0, 1] ∧
    platform.parseFloat "#123456" = Number.nan ∧
    (objectList twinsSecondSelected).map (fun o => (getProp o "id", getProp o "x")) =
      [(Value.str "obj-7", Value.num 10), (Value.str "obj-7", Value.num 100)] ∧
    twinsSecondSelected.layers.map (fun l => (l.id, getProp l.properties "x")) =
      [(Value.str "layer-1", Value.num 0), (Value.str "obj-7", Value.num 10),
       (Value.str "obj-7", Value.num 100)] ∧
    getProp (deref (updateObjectProperty platform "fill" "#123456" twinsSecondSelected) 1)
      "fill" = Value.str "#123456" ∧
    (updateObjectProperty platform "fill" "#123456" twinsSecondSelected).layers.map
        (fun l => (getProp l.properties "x", getProp l.properties "fill")) =
      [(Value.num 0, Value.str "#F8F9FA"), (Value.num 10, Value.str "#123456"),
       (Value.num 100, Value.str "#4ECDC4")] :=
  ⟨twinsSecondSelected_reachable, by decide!, by decide!, by decide!, by decide!, by decide!,
    by decide!, by decide!⟩

/-- C10 at the failing input: two rectangles whose drawing started in the same
millisecond share the id `obj-7`; the second one, at (100, 100), is selected.  After
`updateObjectProperty('width', '120.5')` the selected object stores the number 120.5, the
value of `parseFloat`, but the property copy of its layer, the third of the layer list,
keeps the width 50: the value was written to the layer of the first rectangle, whose
object still has the width 50. -/
theorem width_edit_misses_own_layer :
    Reachable platform twinsSecondSelected ∧
    twinsSecondSelected.selectedObject = some 1 ∧
    platform.parseFloat "120.5" = Number.fin (241 / 2) ∧
    (objectList (updateObjectProperty platform "width" "120.5" twinsSecondSelected)).map
        (fun o => (getProp o "id", getProp o "x", getProp o "width")) =
      [(Value.str "obj-7", Value.num 10, Value.num 50),
       (Value.str "obj-7", Value.num 100, Value.num (241 / 2))] ∧
    (updateObjectProperty platform "width" "120.5" twinsSecondSelected).layers.tail.map
        (fun l => (l.id, getProp l.properties "x", getProp l.properties "width")) =
      [(Value.str "obj-7", Value.num 10, Value.num (241 / 2)),
       (Value.str "obj-7", Value.num 100, Value.num 50)] :=
  ⟨twinsSecondSelected_reachable, by decide!, by decide!, by decide!, by decide!⟩

/-- The positive part of C4 on a concrete state: one rectangle, selected, is deleted. -/
theorem deleteSelectedObject_distinct_ids_witness :
    (deleteSelectedObject oneSelected).objects = oneSelected.objects.erase 0 ∧
    (deleteSelectedObject oneSelected).objects.length + 1 = oneSelected.objects.length ∧
    (deleteSelectedObject oneSelected).layers =
      oneSelected.layers.filter (fun l => !strictEq l.id (idOf oneSelected 0)) ∧
    (deleteSelectedObject oneSelected).layers.length + 1 = oneSelected.layers.length ∧
    (deleteSelectedObject oneSelected).heap = oneSelected.heap ∧
    (deleteSelectedObject oneSelected).selectedObject = none :=
  deleteSelectedObject_distinct_ids platform oneSelected 0
    ⟨drawOne ++ [Event.click ⟨20, 20⟩], by simp [drawOne, Event.fromPage], rfl⟩
    (by decide!) (by decide!)

/-! ## Cursor animation -/

theorem animateCursor_cursor_bounds (rx ry : ℚ) (user : User) :
    0 ≤ (animateCursor rx ry user).cursor.x ∧ (animateCursor rx ry user).cursor.x ≤ 375 ∧
    0 ≤ (animateCursor rx ry user).cursor.y ∧ (animateCursor rx ry user).cursor.y ≤ 812 := by
  simp only [animateCursor]
  refine ⟨le_max_left _ _, max_le (by norm_num) (min_le_left _ _), le_max_left _ _,
    max_le (by norm_num) (min_le_left _ _)⟩

theorem animateTicks_cursor_bounds (draws : List (ℚ × ℚ)) (user : User)
    (h : 0 ≤ user.cursor.x ∧ user.cursor.x ≤ 375 ∧ 0 ≤ user.cursor.y ∧ user.cursor.y ≤ 812) :
    0 ≤ (animateTicks draws user).cursor.x ∧ (animateTicks draws user).cursor.x ≤ 375 ∧
    0 ≤ (animateTicks draws user).cursor.y ∧ (animateTicks draws user).cursor.y ≤ 812 := by
  induction draws generalizing user with
  | nil => exact h
  | cons d draws ih =>
    exact ih (animateCursor d.1 d.2 user) (animateCursor_cursor_bounds d.1 d.2 user)

/-- C11: one run of the cursor animation leaves the cursor of the user in
[0, 375] × [0, 812], for every user, every cursor position before the run and every pair
of random values (in particular those in [0, 1)); hence no sequence of runs takes the
cursor of a seeded user outside these bounds. -/
theorem animateCursor_bounds :
    (∀ (user : User) (rx ry : ℚ),
      0 ≤ (animateCursor rx ry user).cursor.x ∧ (animateCursor rx ry user).cursor.x ≤ 375 ∧
      0 ≤ (animateCursor rx ry user).cursor.y ∧ (animateCursor rx ry user).cursor.y ≤ 812) ∧
    (∀ user ∈ seedUsers, ∀ draws : List (ℚ × ℚ),
      0 ≤ (animateTicks draws user).cursor.x ∧ (animateTicks draws user).cursor.x ≤ 375 ∧
      0 ≤ (animateTicks draws user).cursor.y ∧ (animateTicks draws user).cursor.y ≤ 812) := by
  refine ⟨fun user rx ry => animateCursor_cursor_bounds rx ry user, ?_⟩
  intro user hu draws
  apply animateTicks_cursor_bounds
  simp only [seedUsers, List.mem_cons, List.mem_singleton, List.not_mem_nil, or_false] at hu
  rcases hu with rfl | rfl <;> norm_num [userAlex, userSarah]

/-- Witness for C11: a cursor at (380, -3) with the random values 0 and 0 moves to
(370, 0); and the first seeded user stays in bounds over three runs. -/
theorem animateCursor_bounds_witness :
    (animateCursor 0 0 strayUser).cursor = ⟨370, 0⟩ ∧
    (0 ≤ (animateCursor 0 0 strayUser).cursor.x ∧ (animateCursor 0 0 strayUser).cursor.x ≤ 375 ∧
      0 ≤ (animateCursor 0 0 strayUser).cursor.y ∧
      (animateCursor 0 0 strayUser).cursor.y ≤ 812) ∧
    (0 ≤ (animateTicks [(0, 0), (1 / 2, 9 / 10), (99 / 100, 0)] userAlex).cursor.x ∧
      (animateTicks [(0, 0), (1 / 2, 9 / 10), (99 / 100, 0)] userAlex).cursor.x ≤ 375 ∧
      0 ≤ (animateTicks [(0, 0), (1 / 2, 9 / 10), (99 / 100, 0)] userAlex).cursor.y ∧
      (animateTicks [(0, 0), (1 / 2, 9 / 10), (99 / 100, 0)] userAlex).cursor.y ≤ 812) :=
  ⟨by decide!, animateCursor_bounds.1 strayUser 0 0,
    animateCursor_bounds.2 userAlex (by decide) _⟩

/-! ## Layers and objects -/

/-- C12: in every reachable state the ids of the layer list are `layer-1`, the id of the
seeded layer, followed by the ids of the object list in the same order; so every object
has a layer with its id, and every layer after the seeded one has an object with its
id. -/
theorem layer_ids (B : Builtins) (s : App) (h : Reachable B s) :
    s.layers.map Layer.id = Value.str "layer-1" :: s.objects.map (idOf s) ∧
    (∀ r ∈ s.objects, ∃ l ∈ s.layers, l.id = idOf s r) ∧
    (∀ l ∈ s.layers.tail, ∃ r ∈ s.objects, idOf s r = l.id) := by
  have hl := (reachable_linked B s h).layerIds
  refine ⟨hl, ?_, ?_⟩
  · intro r hr
    have : idOf s r ∈ s.layers.map Layer.id := by
      rw [hl]
      exact List.mem_cons_of_mem _ (List.mem_map_of_mem _ hr)
    obtain ⟨l, hl1, hl2⟩ := List.mem_map.1 this
    exact ⟨l, hl1, hl2⟩
  · intro l hlt
    have h1 : l.id ∈ s.layers.tail.map Layer.id := List.mem_map_of_mem _ hlt
    rw [List.map_tail, hl, List.tail_cons] at h1
    obtain ⟨r, hr1, hr2⟩ := List.mem_map.1 h1
    exact ⟨r, hr1, hr2⟩

/-- Witness for C12: after two commits the layer ids are `layer-1`, `obj-7`, `obj-7`. -/
theorem layer_ids_witness :
    twinsSelected.objects.map (idOf twinsSelected) = [Value.str "obj-7", Value.str "obj-7"] ∧
    (twinsSelected.layers.map Layer.id =
      Value.str "layer-1" :: twinsSelected.objects.map (idOf twinsSelected) ∧
    (∀ r ∈ twinsSelected.objects, ∃ l ∈ twinsSelected.layers, l.id = idOf twinsSelected r) ∧
    (∀ l ∈ twinsSelected.layers.tail, ∃ r ∈ twinsSelected.objects,
      idOf twinsSelected r = l.id)) :=
  ⟨by decide!, layer_ids platform twinsSelected twinsSelected_reachable⟩

/-! ## The tool after `finishDrawing` -/

theorem append_singleton_ne (l : List Nat) (a : Nat) : l ++ [a] ≠ l := by
  intro h
  have h2 := congrArg List.length h
  simp at h2

/-- C14: with a provisional shape, `finishDrawing` either commits it (the object list and
the layer list each get one new last entry) and the current tool is then `select`, or
discards it (both lists stay as they were) and the current tool is then unchanged; so the
tool is `select` whenever the object list changed, and unchanged whenever it did not.
The shape is committed exactly when the minimum-size test of the code succeeds.  In both
cases `drawingPath` is null afterwards. -/
theorem finishDrawing_tool (B : Builtins) (s : App) (dp : Obj)
    (hdp : s.drawingPath = some dp) :
    (((finishDrawing B s).objects = s.objects ++ [s.heap.length] ∧
        (finishDrawing B s).layers = s.layers ++ [newLayer B dp (s.objects.length + 1)] ∧
        (finishDrawing B s).currentTool = "select") ∨
      ((finishDrawing B s).objects = s.objects ∧ (finishDrawing B s).layers = s.layers ∧
        (finishDrawing B s).currentTool = s.currentTool)) ∧
    ((finishDrawing B s).objects ≠ s.objects → (finishDrawing B s).currentTool = "select") ∧
    ((finishDrawing B s).objects = s.objects →
      (finishDrawing B s).currentTool = s.currentTool) ∧
    (shouldAdd B dp = true ↔ (finishDrawing B s).objects ≠ s.objects) ∧
    (finishDrawing B s).drawingPath = none := by
  cases h : shouldAdd B dp with
  | true =>
    rw [finishDrawing_commit B s dp hdp h]
    refine ⟨Or.inl ⟨rfl, rfl, rfl⟩, fun _ => rfl, ?_, ?_, rfl⟩
    · intro h2
      exact absurd h2 (append_singleton_ne _ _)
    · simp only [true_iff]
      exact append_singleton_ne _ _
  | false =>
    rw [finishDrawing_discard B s dp hdp h]
    refine ⟨Or.inr ⟨rfl, rfl, rfl⟩, ?_, fun _ => rfl, ?_, rfl⟩
    · intro h2
      exact absurd rfl h2
    · simp

/-- Witness for C14: the 50 by 50 rectangle is committed and the tool becomes `select`;
the line of computed length 5.000000000000001 is committed and the tool becomes `select`;
the rectangle 3 wide is discarded and the tool stays `rectangle`. -/
theorem finishDrawing_tool_witness :
    (drawingBig.currentTool = "rectangle" ∧
      (finishDrawing platform drawingBig).objects ≠ drawingBig.objects ∧
      (finishDrawing platform drawingBig).currentTool = "select" ∧
      (finishDrawing platform drawingBig).drawingPath = none) ∧
    (drawingLongish.currentTool = "line" ∧
      (finishDrawing platform drawingLongish).objects ≠ drawingLongish.objects ∧
      (finishDrawing platform drawingLongish).currentTool = "select" ∧
      (finishDrawing platform drawingLongish).drawingPath = none) ∧
    (drawingSmall.currentTool = "rectangle" ∧
      (finishDrawing platform drawingSmall).objects = drawingSmall.objects ∧
      (finishDrawing platform drawingSmall).currentTool = drawingSmall.currentTool ∧
      (finishDrawing platform drawingSmall).drawingPath = none) :=
  ⟨⟨by decide!, by decide!,
      (finishDrawing_tool platform drawingBig bigRectangle (by decide!)).2.1 (by decide!),
      (finishDrawing_tool platform drawingBig bigRectangle (by decide!)).2.2.2.2⟩,
    ⟨by decide!, by decide!,
      (finishDrawing_tool platform drawingLongish longishLine (by decide!)).2.1 (by decide!),
      (finishDrawing_tool platform drawingLongish longishLine (by decide!)).2.2.2.2⟩,
    ⟨by decide!, by decide!,
      (finishDrawing_tool platform drawingSmall smallRectangle (by decide!)).2.2.1 (by decide!),
      (finishDrawing_tool platform drawingSmall smallRectangle (by decide!)).2.2.2.2⟩⟩

/-! ## Keyboard shortcuts -/

/-- C15: when a modal is open, or the target of the key event is an `INPUT` or `TEXTAREA`
element, the keyboard-shortcut handler changes nothing: the current tool, the object
list, the layer list and the selection are as before, for every key. -/
theorem onKeyDown_ignored (toLowerCase : String → String) (modalOpen : Bool) (e : KeyEvent)
    (s : App)
    (h : modalOpen = true ∨ e.targetTag = "INPUT" ∨ e.targetTag = "TEXTAREA") :
    onKeyDown toLowerCase modalOpen e s = s ∧
    (onKeyDown toLowerCase modalOpen e s).currentTool = s.currentTool ∧
    (onKeyDown toLowerCase modalOpen e s).objects = s.objects ∧
    (onKeyDown toLowerCase modalOpen e s).heap = s.heap ∧
    (onKeyDown toLowerCase modalOpen e s).layers = s.layers ∧
    (onKeyDown toLowerCase modalOpen e s).selectedObject = s.selectedObject := by
  have h1 : onKeyDown toLowerCase modalOpen e s = s := by
    unfold onKeyDown
    by_cases ht : e.targetTag = "INPUT" ∨ e.targetTag = "TEXTAREA"
    · rw [if_pos ht]
    · rw [if_neg ht]
      have hm : modalOpen = true := by
        rcases h with h | h | h
        · exact h
        · exact absurd (Or.inl h) ht
        · exact absurd (Or.inr h) ht
      rw [if_pos hm]
  rw [h1]
  exact ⟨rfl, rfl, rfl, rfl, rfl, rfl⟩

/-- Witness for C15: with the rectangle selected, `Delete` and `R` do nothing while a
modal is open or an input field has the focus; otherwise `Delete` removes the
rectangle. -/
theorem onKeyDown_ignored_witness :
    onKeyDown String.toLower true ⟨"Delete", "BODY", false, false, false⟩ oneSelected
      = oneSelected ∧
    onKeyDown String.toLower false ⟨"R", "INPUT", false, false, false⟩ oneSelected
      = oneSelected ∧
    (onKeyDown String.toLower false ⟨"Delete", "BODY", false, false, false⟩
      oneSelected).objects = [] :=
  ⟨(onKeyDown_ignored String.toLower true ⟨"Delete", "BODY", false, false, false⟩ oneSelected
      (Or.inl rfl)).1,
    (onKeyDown_ignored String.toLower false ⟨"R", "INPUT", false, false, false⟩ oneSelected
      (Or.inr (Or.inl rfl))).1,
    by decide!⟩

/-! ## Starting and updating the provisional shape -/

theorem getProp_setProp (o : Obj) (k k2 : String) (v : Value) :
    getProp (setProp o k v) k2 = if k = k2 then v else getProp o k2 := by
  by_cases h : k = k2
  · subst h
    simp [getProp_setProp_same]
  · simp [h, getProp_setProp_ne _ _ _ _ h]

/-- C16: with the rectangle, circle or line tool active, `startDrawing(p)` sets
`drawingPath` to a shape of that kind anchored at `p` with zero extent (rectangle:
`x = startX = p.x`, `y = startY = p.y`, `width = height = 0`; circle: `cx = p.x`,
`cy = p.y`, `r = 0`; line: both end points at `p`), and changes neither the object list
nor the layer list. -/
theorem startDrawing_anchor (now : Nat) (p : Point) (s : App) :
    (s.currentTool = "rectangle" →
      ∃ dp, (startDrawing now p s).drawingPath = some dp ∧
        getProp dp "type" = Value.str "rectangle" ∧
        getProp dp "x" = Value.num p.x ∧ getProp dp "startX" = Value.num p.x ∧
        getProp dp "y" = Value.num p.y ∧ getProp dp "startY" = Value.num p.y ∧
        getProp dp "width" = Value.num 0 ∧ getProp dp "height" = Value.num 0) ∧
    (s.currentTool = "circle" →
      ∃ dp, (startDrawing now p s).drawingPath = some dp ∧
        getProp dp "type" = Value.str "circle" ∧
        getProp dp "cx" = Value.num p.x ∧ getProp dp "cy" = Value.num p.y ∧
        getProp dp "r" = Value.num 0) ∧
    (s.currentTool = "line" →
      ∃ dp, (startDrawing now p s).drawingPath = some dp ∧
        getProp dp "type" = Value.str "line" ∧
        getProp dp "x1" = Value.num p.x ∧ getProp dp "y1" = Value.num p.y ∧
        getProp dp "x2" = Value.num p.x ∧ getProp dp "y2" = Value.num p.y) ∧
    (startDrawing now p s).objects = s.objects ∧ (startDrawing now p s).heap = s.heap ∧
    (startDrawing now p s).layers = s.layers := by
  obtain ⟨hh, ho, hl, -⟩ := startDrawing_frame now p s
  refine ⟨?_, ?_, ?_, ho, hh, hl⟩
  · intro ht
    simp [startDrawing, ht, getProp]
  · intro ht
    simp [startDrawing, ht, getProp]
  · intro ht
    simp [startDrawing, ht, getProp]

/-- Witness for C16: the rectangle, circle and line tools at the point (10, 20), reached
through `onCanvasMouseDown`. -/
theorem startDrawing_anchor_witness :
    (∃ dp, (onCanvasMouseDown 1 ⟨10, 20⟩ (selectTool "rectangle" init)).drawingPath = some dp ∧
        getProp dp "type" = Value.str "rectangle" ∧
        getProp dp "x" = Value.num 10 ∧ getProp dp "startX" = Value.num 10 ∧
        getProp dp "y" = Value.num 20 ∧ getProp dp "startY" = Value.num 20 ∧
        getProp dp "width" = Value.num 0 ∧ getProp dp "height" = Value.num 0) ∧
    (∃ dp, (onCanvasMouseDown 1 ⟨10, 20⟩ (selectTool "circle" init)).drawingPath = some dp ∧
        getProp dp "type" = Value.str "circle" ∧
        getProp dp "cx" = Value.num 10 ∧ getProp dp "cy" = Value.num 20 ∧
        getProp dp "r" = Value.num 0) ∧
    (∃ dp, (onCanvasMouseDown 1 ⟨10, 20⟩ (selectTool "line" init)).drawingPath = some dp ∧
        getProp dp "type" = Value.str "line" ∧
        getProp dp "x1" = Value.num 10 ∧ getProp dp "y1" = Value.num 20 ∧
        getProp dp "x2" = Value.num 10 ∧ getProp dp "y2" = Value.num 20) :=
  ⟨(startDrawing_anchor 1 ⟨10, 20⟩ { selectTool "rectangle" init with isDrawing := true }).1 rfl,
    (startDrawing_anchor 1 ⟨10, 20⟩ { selectTool "circle" init with isDrawing := true }).2.1 rfl,
    (startDrawing_anchor 1 ⟨10, 20⟩ { selectTool "line" init with isDrawing := true }).2.2.1 rfl⟩

theorem toNumber_ofNumber (B : Builtins) (n : Number) : toNumber B (ofNumber n) = n := by
  cases n <;> rfl

/-- The sum `x + v` of a number and a computed number, read as a number. -/
theorem jsAdd_num (B : Builtins) (x : ℚ) (n : Number) :
    toNumber B (jsAdd B (Value.num x) (ofNumber n)) = jsPlus (Number.fin x) n := by
  cases n with
  | nan => rfl
  | inf b => rfl
  | fin q =>
    simp only [ofNumber, jsAdd, toNumber]
    exact toNumber_ofNumber B _

/-- The absolute value of a rounded difference is a number that is not negative. -/
theorem jsAbs_roundDouble_nonneg (q : ℚ) :
    jsLe (Number.fin 0) (jsAbs (roundDouble q)) = true := by
  cases h : roundDouble q with
  | nan => exact absurd h (roundDouble_ne_nan q)
  | inf b => rfl
  | fin v => simp [jsAbs, jsLe]

/-- The rectangle branch of `isPointInObject` when the corner is a pair of numbers and the
extent a pair of computed numbers. -/
theorem rectangle_hit_computed (B : Builtins) (o : Obj) (x y : ℚ) (w h : Number) (p : Point)
    (ht : getProp o "type" = Value.str "rectangle")
    (hx : getProp o "x" = Value.num x) (hy : getProp o "y" = Value.num y)
    (hw : getProp o "width" = ofNumber w) (hh : getProp o "height" = ofNumber h) :
    isPointInObject B p o = true ↔
      x ≤ p.x ∧ jsLe (Number.fin p.x) (jsPlus (Number.fin x) w) = true ∧
      y ≤ p.y ∧ jsLe (Number.fin p.y) (jsPlus (Number.fin y) h) = true := by
  rw [rectangle_hit_eq B o p ht, hx, hy, hw, hh, jsAdd_num, jsAdd_num]
  simp only [toNumber, jsLe, Bool.and_eq_true, decide_eq_true_eq]
  tauto

/-- The fields of the provisional rectangle after `updateDrawing`. -/
theorem updateDrawing_rectangle_fields (B : Builtins) (s : App) (dp : Obj) (sx sy : ℚ)
    (p : Point) (hdp : s.drawingPath = some dp)
    (ht : getProp dp "type" = Value.str "rectangle")
    (hsx : getProp dp "startX" = Value.num sx) (hsy : getProp dp "startY" = Value.num sy) :
    ∃ dp2, (updateDrawing B p s).drawingPath = some dp2 ∧
      getProp dp2 "type" = Value.str "rectangle" ∧
      getProp dp2 "width" = ofNumber (jsAbs (roundDouble (p.x - sx))) ∧
      getProp dp2 "height" = ofNumber (jsAbs (roundDouble (p.y - sy))) ∧
      getProp dp2 "x" = Value.num (min p.x sx) ∧ getProp dp2 "y" = Value.num (min p.y sy) := by
  have h1 : isType dp "rectangle" = true := (isType_iff _ _).2 ht
  have hmin : ∀ a b : ℚ, ofNumber (jsMin (Number.fin a) (Number.fin b)) = Value.num (min a b) := by
    intro a b
    by_cases hab : a ≤ b
    · simp [jsMin, jsLe, hab, ofNumber]
    · simp [jsMin, jsLe, hab, ofNumber, min_eq_right (le_of_lt (not_le.mp hab))]
  refine ⟨_, by simp only [updateDrawing, hdp, h1, if_true]; rfl, ?_, ?_, ?_, ?_, ?_⟩
  · simp [getProp_setProp, ht]
  · simp [getProp_setProp, hsx, toNumber, jsSub, jsNeg, jsPlus, sub_eq_add_neg]
  · simp [getProp_setProp, hsy, toNumber, jsSub, jsNeg, jsPlus, sub_eq_add_neg]
  · simp only [getProp_setProp, hsx, toNumber]
    simp [hmin]
  · simp only [getProp_setProp, hsy, toNumber]
    simp [hmin]

/-- Counterexample to C18 as written: the rectangle anchored at (1.1, 1), with the
pointer moved to (7.2, 7), gets the width 6.1, the rounded difference, which is not
`7.2 - 1.1` for the doubles 7.2 and 1.1; the sum `x + width` is rounded to
7.199999999999999, which is less than 7.2, so `isPointInObject` is false for the pointer
position. -/
theorem pointer_corner_not_hit :
    (∃ dp, drawingFromCorner.drawingPath = some dp ∧
      getProp dp "type" = Value.str "rectangle" ∧
      getProp dp "startX" = Value.num (double (11 / 10)) ∧
      getProp dp "startY" = Value.num 1) ∧
    ∃ dp2, (updateDrawing platform ⟨double (72 / 10), 7⟩ drawingFromCorner).drawingPath
        = some dp2 ∧
      getProp dp2 "x" = Value.num (double (11 / 10)) ∧
      getProp dp2 "width" = Value.num (double (61 / 10)) ∧
      double (61 / 10) ≠ |double (72 / 10) - double (11 / 10)| ∧
      jsAdd platform (getProp dp2 "x") (getProp dp2 "width") =
        Value.num (double (7199999999999999 / 10 ^ 15)) ∧
      double (7199999999999999 / 10 ^ 15) < double (72 / 10) ∧
      isPointInObject platform ⟨double (11 / 10), 1⟩ dp2 = true ∧
      isPointInObject platform ⟨double (72 / 10), 7⟩ dp2 = false :=
  ⟨⟨_, rfl, by decide!, by decide!, by decide!⟩,
    ⟨_, rfl, by decide!, by decide!, by decide!, by decide!, by decide!, by decide!,
      by decide!⟩⟩

/-- C18 (corrected): for a provisional rectangle anchored at `(startX, startY)`, after
`updateDrawing(p)` the rectangle has `width = |p.x - startX|` and
`height = |p.y - startY|` with the differences rounded to a double, neither negative,
and `x = min(p.x, startX)`, `y = min(p.y, startY)`.  A point `q` is hit exactly when
`x ≤ q.x ≤ fl(x + width)` and `y ≤ q.y ≤ fl(y + height)`, the sums rounded to a double; so
the corner `(x, y)` is always hit (for double coordinates), and the anchor and `p` are
both hit exactly when `max(p.x, startX) ≤ fl(x + width)` and
`max(p.y, startY) ≤ fl(y + height)`, which holds when the differences and the sums need no
rounding, in whichever direction the pointer moved. -/
theorem updateDrawing_rectangle (B : Builtins) (s : App) (dp : Obj) (sx sy : ℚ) (p : Point)
    (hdp : s.drawingPath = some dp) (ht : getProp dp "type" = Value.str "rectangle")
    (hsx : getProp dp "startX" = Value.num sx) (hsy : getProp dp "startY" = Value.num sy) :
    ∃ dp2, (updateDrawing B p s).drawingPath = some dp2 ∧
      getProp dp2 "type" = Value.str "rectangle" ∧
      getProp dp2 "width" = ofNumber (jsAbs (roundDouble (p.x - sx))) ∧
      jsLe (Number.fin 0) (jsAbs (roundDouble (p.x - sx))) = true ∧
      getProp dp2 "height" = ofNumber (jsAbs (roundDouble (p.y - sy))) ∧
      jsLe (Number.fin 0) (jsAbs (roundDouble (p.y - sy))) = true ∧
      getProp dp2 "x" = Value.num (min p.x sx) ∧ getProp dp2 "y" = Value.num (min p.y sy) ∧
      (∀ q : Point, isPointInObject B q dp2 = true ↔
        min p.x sx ≤ q.x ∧
        jsLe (Number.fin q.x)
          (jsPlus (Number.fin (min p.x sx)) (jsAbs (roundDouble (p.x - sx)))) = true ∧
        min p.y sy ≤ q.y ∧
        jsLe (Number.fin q.y)
          (jsPlus (Number.fin (min p.y sy)) (jsAbs (roundDouble (p.y - sy)))) = true) ∧
      ((isPointInObject B ⟨sx, sy⟩ dp2 = true ∧ isPointInObject B p dp2 = true) ↔
        jsLe (Number.fin (max p.x sx))
          (jsPlus (Number.fin (min p.x sx)) (jsAbs (roundDouble (p.x - sx)))) = true ∧
        jsLe (Number.fin (max p.y sy))
          (jsPlus (Number.fin (min p.y sy)) (jsAbs (roundDouble (p.y - sy)))) = true) ∧
      (isDouble p.x → isDouble p.y → isDouble sx → isDouble sy →
        isPointInObject B ⟨min p.x sx, min p.y sy⟩ dp2 = true) ∧
      (isDouble (p.x - sx) → isDouble (p.y - sy) →
        isDouble (max p.x sx) → isDouble (max p.y sy) →
        getProp dp2 "width" = Value.num |p.x - sx| ∧
        getProp dp2 "height" = Value.num |p.y - sy| ∧
        isPointInObject B ⟨sx, sy⟩ dp2 = true ∧ isPointInObject B p dp2 = true) := by
  obtain ⟨dp2, h0, h1, h2, h3, h4, h5⟩ :=
    updateDrawing_rectangle_fields B s dp sx sy p hdp ht hsx hsy
  have hq : ∀ q : Point, isPointInObject B q dp2 = true ↔
      min p.x sx ≤ q.x ∧
      jsLe (Number.fin q.x)
        (jsPlus (Number.fin (min p.x sx)) (jsAbs (roundDouble (p.x - sx)))) = true ∧
      min p.y sy ≤ q.y ∧
      jsLe (Number.fin q.y)
        (jsPlus (Number.fin (min p.y sy)) (jsAbs (roundDouble (p.y - sy)))) = true :=
    fun q => rectangle_hit_computed B dp2 _ _ _ _ q h1 h4 h5 h2 h3
  have hle : ∀ (a b : ℚ) (n : Number),
      (jsLe (Number.fin a) n = true ∧ jsLe (Number.fin b) n = true) ↔
        jsLe (Number.fin (max b a)) n = true := by
    intro a b n
    cases n with
    | nan => simp [jsLe]
    | inf c => simp [jsLe]
    | fin v =>
      simp only [jsLe, decide_eq_true_eq, max_le_iff]
      tauto
  have hx : min p.x sx + |p.x - sx| = max p.x sx := by
    rcases le_total p.x sx with h | h
    · rw [min_eq_left h, max_eq_right h, abs_of_nonpos (by linarith)]; ring
    · rw [min_eq_right h, max_eq_left h, abs_of_nonneg (by linarith)]; ring
  have hy : min p.y sy + |p.y - sy| = max p.y sy := by
    rcases le_total p.y sy with h | h
    · rw [min_eq_left h, max_eq_right h, abs_of_nonpos (by linarith)]; ring
    · rw [min_eq_right h, max_eq_left h, abs_of_nonneg (by linarith)]; ring
  have hboth : (isPointInObject B ⟨sx, sy⟩ dp2 = true ∧ isPointInObject B p dp2 = true) ↔
      jsLe (Number.fin (max p.x sx))
        (jsPlus (Number.fin (min p.x sx)) (jsAbs (roundDouble (p.x - sx)))) = true ∧
      jsLe (Number.fin (max p.y sy))
        (jsPlus (Number.fin (min p.y sy)) (jsAbs (roundDouble (p.y - sy)))) = true := by
    rw [hq ⟨sx, sy⟩, hq p, ← hle sx p.x, ← hle sy p.y]
    have m1 : min p.x sx ≤ sx := min_le_right _ _
    have m2 : min p.x sx ≤ p.x := min_le_left _ _
    have m3 : min p.y sy ≤ sy := min_le_right _ _
    have m4 : min p.y sy ≤ p.y := min_le_left _ _
    tauto
  refine ⟨dp2, h0, h1, h2, jsAbs_roundDouble_nonneg _, h3, jsAbs_roundDouble_nonneg _, h4, h5,
    hq, hboth, ?_, ?_⟩
  · intro d1 d2 d3 d4
    rw [hq]
    exact ⟨le_refl _, le_plus_abs _ _ (isDouble_min _ _ d1 d3), le_refl _,
      le_plus_abs _ _ (isDouble_min _ _ d2 d4)⟩
  · intro e1 e2 e3 e4
    unfold isDouble at e1 e2 e3 e4
    refine ⟨by rw [h2, e1]; rfl, by rw [h3, e2]; rfl, ?_⟩
    rw [hboth, e1, e2]
    simp only [jsAbs, jsPlus, hx, hy, e3, e4, jsLe, le_refl, decide_True, and_self]

/-- Witness for C18: a rectangle anchored at (10, 10) and dragged up and to the left, to
(4, 2), is 6 wide and 8 high with corner (4, 2), and contains both points. -/
theorem updateDrawing_rectangle_witness :
    ∃ dp2, (updateDrawing platform ⟨4, 2⟩ drawingBig).drawingPath = some dp2 ∧
      getProp dp2 "type" = Value.str "rectangle" ∧
      getProp dp2 "width" = Value.num 6 ∧ getProp dp2 "height" = Value.num 8 ∧
      getProp dp2 "x" = Value.num 4 ∧ getProp dp2 "y" = Value.num 2 ∧
      isPointInObject platform ⟨10, 10⟩ dp2 = true ∧
      isPointInObject platform ⟨4, 2⟩ dp2 = true := by
  obtain ⟨dp2, h0, h1, -, -, -, -, h4, h5, -, -, -, hex⟩ :=
    updateDrawing_rectangle platform drawingBig bigRectangle 10 10 ⟨4, 2⟩ (by decide!)
      (by decide) (by decide) (by decide)
  obtain ⟨h2, h3, ha, hp⟩ := hex (by decide!) (by decide!) (by decide!) (by decide!)
  refine ⟨dp2, h0, h1, ?_, ?_, ?_, ?_, ha, hp⟩
  · rw [h2]; norm_num [abs_of_nonpos]
  · rw [h3]; norm_num [abs_of_nonpos]
  · rw [h4]; norm_num
  · rw [h5]; norm_num

/-! ## Hit-testing order -/

/-- C17: `getObjectAtPoint` returns the first object of the object list, in list order,
for which `isPointInObject` holds, and null exactly when it holds for no object of the
list; a click in `select` mode selects that object, so where shapes overlap the one
committed first is selected. -/
theorem getObjectAtPoint_first (B : Builtins) (p : Point) (s : App) :
    (∀ r, getObjectAtPoint B p s = some r ↔
      ∃ before after, s.objects = before ++ r :: after ∧
        isPointInObject B p (deref s r) = true ∧
        ∀ a ∈ before, isPointInObject B p (deref s a) = false) ∧
    (getObjectAtPoint B p s = none ↔
      ∀ r ∈ s.objects, isPointInObject B p (deref s r) = false) ∧
    (s.currentTool = "select" →
      (onCanvasClick B p s).selectedObject = getObjectAtPoint B p s) := by
  refine ⟨?_, ?_, ?_⟩
  · intro r
    simp only [getObjectAtPoint, List.find?_eq_some]
    constructor
    · rintro ⟨h, pre, post, e, hpre⟩
      exact ⟨pre, post, e, h, fun a ha => by simpa using hpre a ha⟩
    · rintro ⟨pre, post, e, h, hpre⟩
      exact ⟨h, pre, post, e, fun a ha => by simp [hpre a ha]⟩
  · simp [getObjectAtPoint]
  · intro ht
    simp [onCanvasClick, ht, selectObject]

/-- Witness for C17: of two overlapping rectangles, (10,10)-(60,60) drawn first and
(30,30)-(80,80) drawn second, the click at (40, 40) selects the first; the click at
(70, 70) selects the second; the click at (5, 5) selects nothing. -/
theorem getObjectAtPoint_first_witness :
    twoOverlapping.objects = [0, 1] ∧
    isPointInObject platform ⟨40, 40⟩ (deref twoOverlapping 0) = true ∧
    isPointInObject platform ⟨40, 40⟩ (deref twoOverlapping 1) = true ∧
    getObjectAtPoint platform ⟨40, 40⟩ twoOverlapping = some 0 ∧
    (onCanvasClick platform ⟨40, 40⟩ twoOverlapping).selectedObject = some 0 ∧
    getObjectAtPoint platform ⟨70, 70⟩ twoOverlapping = some 1 ∧
    getObjectAtPoint platform ⟨5, 5⟩ twoOverlapping = none :=
  ⟨by decide!, by decide!, by decide!,
    ((getObjectAtPoint_first platform ⟨40, 40⟩ twoOverlapping).1 0).2
      ⟨[], [1], by decide!, by decide!, by decide!⟩,
    ((getObjectAtPoint_first platform ⟨40, 40⟩ twoOverlapping).2.2 (by decide!)).trans
      (by decide!),
    ((getObjectAtPoint_first platform ⟨70, 70⟩ twoOverlapping).1 1).2
      ⟨[0], [], by decide!, by decide!, by decide!⟩,
    (getObjectAtPoint_first platform ⟨5, 5⟩ twoOverlapping).2.1.2 (by decide!)⟩

/-! ## Position fields of a circle -/

/-- C19: for a selected circle, `updateObjectProperty('x', v)` and
`updateObjectProperty('y', v)`, the calls issued by the X and Y fields of the property
form, leave `cx`, `cy` and `r` of the circle unchanged, so `isPointInObject` answers the
same for every point before and after the edit. -/
theorem updateObjectProperty_xy_circle (B : Builtins) (s : App) (r : Nat)
    (property v : String) (hsel : s.selectedObject = some r) (hwf : r < s.heap.length)
    (ht : getProp (deref s r) "type" = Value.str "circle")
    (hp : property = "x" ∨ property = "y") :
    property ∈ formFields ∧
    getProp (deref (updateObjectProperty B property v s) r) "type" = Value.str "circle" ∧
    getProp (deref (updateObjectProperty B property v s) r) "cx" = getProp (deref s r) "cx" ∧
    getProp (deref (updateObjectProperty B property v s) r) "cy" = getProp (deref s r) "cy" ∧
    getProp (deref (updateObjectProperty B property v s) r) "r" = getProp (deref s r) "r" ∧
    ∀ p : Point, isPointInObject B p (deref (updateObjectProperty B property v s) r) =
      isPointInObject B p (deref s r) := by
  have hid : property ≠ "id" := by
    rcases hp with h | h <;> rw [h] <;> decide
  obtain ⟨hd, -⟩ := updateObjectProperty_effect B s r property v hsel hwf hid
  have hk : ∀ k : String, k = "type" ∨ k = "cx" ∨ k = "cy" ∨ k = "r" →
      getProp (deref (updateObjectProperty B property v s) r) k = getProp (deref s r) k := by
    intro k hk
    rw [hd]
    apply getProp_setProp_ne
    rcases hp with h | h <;> rcases hk with h2 | h2 | h2 | h2 <;> rw [h, h2] <;> decide
  have h1 := hk "type" (Or.inl rfl)
  have h2 := hk "cx" (Or.inr (Or.inl rfl))
  have h3 := hk "cy" (Or.inr (Or.inr (Or.inl rfl)))
  have h4 := hk "r" (Or.inr (Or.inr (Or.inr rfl)))
  refine ⟨?_, by rw [h1, ht], h2, h3, h4, ?_⟩
  · rcases hp with h | h <;> rw [h] <;> simp [formFields]
  · intro p
    simp only [isPointInObject, isType, h1, h2, h3, h4, ht]
    simp [strictEq]

/-- Witness for C19: the selected circle with centre (50, 50) and radius 10 gets the X
field set to 200; its centre and radius stay, the point (56, 58) is still inside and the
point (200, 50) still outside. -/
theorem updateObjectProperty_xy_circle_witness :
    getProp (deref (updateObjectProperty platform "x" "200" circleSelected) 0) "x" =
      Value.num 200 ∧
    isPointInObject platform ⟨56, 58⟩ (deref circleSelected 0) = true ∧
    isPointInObject platform ⟨200, 50⟩ (deref circleSelected 0) = false ∧
    ("x" ∈ formFields ∧
    getProp (deref (updateObjectProperty platform "x" "200" circleSelected) 0) "type" =
      Value.str "circle" ∧
    getProp (deref (updateObjectProperty platform "x" "200" circleSelected) 0) "cx" =
      getProp (deref circleSelected 0) "cx" ∧
    getProp (deref (updateObjectProperty platform "x" "200" circleSelected) 0) "cy" =
      getProp (deref circleSelected 0) "cy" ∧
    getProp (deref (updateObjectProperty platform "x" "200" circleSelected) 0) "r" =
      getProp (deref circleSelected 0) "r" ∧
    ∀ p : Point,
      isPointInObject platform p (deref (updateObjectProperty platform "x" "200" circleSelected) 0)
        = isPointInObject platform p (deref circleSelected 0)) :=
  ⟨by decide!, by decide!, by decide!,
    updateObjectProperty_xy_circle platform circleSelected 0 "x" "200" (by decide!) (by decide!)
      (by decide!) (Or.inl rfl)⟩

/-! ## Pointer input with the pen and text tools -/

theorem moves_without_path (B : Builtins) (moves : List Point) (s : App)
    (hdp : s.drawingPath = none) :
    moves.foldl (fun t q => onCanvasMouseMove B q t) s = s := by
  induction moves with
  | nil => rfl
  | cons q moves ih =>
    have h : onCanvasMouseMove B q s = s := by
      simp only [onCanvasMouseMove, updateDrawing, hdp]
      split_ifs <;> rfl
    simp only [List.foldl_cons, h]
    exact ih

/-- C20: with no provisional shape and the pen or text tool active, pointer-down creates no
provisional shape, and any pointer-moves followed by a pointer-up leave the object list,
the layer list, the selection and the current tool unchanged and end with `isDrawing`
false. -/
theorem pen_text_pointer (B : Builtins) (s : App) (now : Nat) (p : Point)
    (moves : List Point) (hdp : s.drawingPath = none)
    (ht : s.currentTool = "pen" ∨ s.currentTool = "text") :
    (onCanvasMouseDown now p s).drawingPath = none ∧
    onCanvasMouseUp B
        (moves.foldl (fun t q => onCanvasMouseMove B q t) (onCanvasMouseDown now p s)) =
      { s with isDrawing := false } ∧
    (onCanvasMouseUp B
        (moves.foldl (fun t q => onCanvasMouseMove B q t)
          (onCanvasMouseDown now p s))).objects = s.objects ∧
    (onCanvasMouseUp B
        (moves.foldl (fun t q => onCanvasMouseMove B q t)
          (onCanvasMouseDown now p s))).heap = s.heap ∧
    (onCanvasMouseUp B
        (moves.foldl (fun t q => onCanvasMouseMove B q t)
          (onCanvasMouseDown now p s))).layers = s.layers ∧
    (onCanvasMouseUp B
        (moves.foldl (fun t q => onCanvasMouseMove B q t)
          (onCanvasMouseDown now p s))).selectedObject = s.selectedObject ∧
    (onCanvasMouseUp B
        (moves.foldl (fun t q => onCanvasMouseMove B q t)
          (onCanvasMouseDown now p s))).currentTool = s.currentTool ∧
    (onCanvasMouseUp B
        (moves.foldl (fun t q => onCanvasMouseMove B q t)
          (onCanvasMouseDown now p s))).isDrawing = false := by
  have h1 : onCanvasMouseDown now p s = { s with isDrawing := true } := by
    rcases ht with h | h <;> simp [onCanvasMouseDown, startDrawing, h]
  have h2 : moves.foldl (fun t q => onCanvasMouseMove B q t) { s with isDrawing := true } =
      { s with isDrawing := true } := moves_without_path B moves _ hdp
  have h3 : onCanvasMouseUp B { s with isDrawing := true } = { s with isDrawing := false } := by
    simp [onCanvasMouseUp, finishDrawing, hdp]
  rw [h1, h2, h3]
  exact ⟨hdp, rfl, rfl, rfl, rfl, rfl, rfl, rfl⟩

/-- Witness for C20: with the pen tool, a press at (10, 10), two moves and a release change
nothing but `isDrawing`, which ends false. -/
theorem pen_text_pointer_witness :
    penIdle.currentTool = "pen" ∧
    (onCanvasMouseDown 1 ⟨10, 10⟩ penIdle).isDrawing = true ∧
    ((onCanvasMouseDown 1 ⟨10, 10⟩ penIdle).drawingPath = none ∧
    onCanvasMouseUp platform
        (([⟨50, 50⟩, ⟨90, 20⟩] : List Point).foldl (fun t q => onCanvasMouseMove platform q t)
          (onCanvasMouseDown 1 ⟨10, 10⟩ penIdle)) =
      { penIdle with isDrawing := false }) :=
  ⟨by decide!, by decide!,
    (pen_text_pointer platform penIdle 1 ⟨10, 10⟩ [⟨50, 50⟩, ⟨90, 20⟩] (by decide!)
      (Or.inl (by decide!))).1,
    (pen_text_pointer platform penIdle 1 ⟨10, 10⟩ [⟨50, 50⟩, ⟨90, 20⟩] (by decide!)
      (Or.inl (by decide!))).2.1⟩

/-! ## Property copies of the layers -/

theorem twinsEdited_reachable : Reachable platform twinsEdited :=
  ⟨twinEdit, by simp [twinEdit, Event.fromPage, formFields], rfl⟩

/-- C13 at the failing input: two rectangles whose drawing started in the same millisecond
share the id `obj-7`; the second is selected and its fill set to `#123456` in the property
form.  The object gets the new fill, but the layer that `find` returns for `obj-7` is
the layer of the first rectangle: that layer now stores `#123456` while its object has
`#4ECDC4`, and the layer of the edited rectangle still stores `#4ECDC4`. -/
theorem twin_layer_copy_diverges :
    Reachable platform twinsEdited ∧
    twinsEdited.selectedObject = some 1 ∧
    (objectList twinsEdited).map (fun o => (getProp o "id", getProp o "fill")) =
      [(Value.str "obj-7", Value.str "#4ECDC4"), (Value.str "obj-7", Value.str "#123456")] ∧
    twinsEdited.layers.map (fun l => (l.id, getProp l.properties "fill")) =
      [(Value.str "layer-1", Value.str "#F8F9FA"), (Value.str "obj-7", Value.str "#123456"),
       (Value.str "obj-7", Value.str "#4ECDC4")] ∧
    twinsEdited.layers.tail.map Layer.properties ≠ objectList twinsEdited :=
  ⟨twinsEdited_reachable, by decide!, by decide!, by decide!, by decide!⟩

theorem synced_of_frame (s t : App) (h : Synced s) (hh : t.heap = s.heap)
    (ho : t.objects = s.objects) (hl : t.layers = s.layers) : Synced t := by
  unfold Synced objectList at *
  rw [hl, ho, h]
  apply List.map_congr_left
  intro r _
  simp [deref, hh]

theorem synced_init : Synced init := by
  simp [Synced, objectList, init]

theorem layers_cons (s : App) (h : Linked s) :
    ∃ bg rest, s.layers = bg :: rest ∧ bg.id = Value.str "layer-1" ∧
      rest.map Layer.id = s.objects.map (idOf s) := by
  have hl := h.layerIds
  cases hls : s.layers with
  | nil => rw [hls] at hl; simp at hl
  | cons bg rest =>
    rw [hls] at hl
    simp only [List.map_cons, List.cons.injEq] at hl
    exact ⟨bg, rest, rfl, hl.1, hl.2⟩

theorem filter_aligned (f : Nat → Value) (g : Nat → Obj) (q : Value → Bool) :
    ∀ (rest : List Layer) (objs : List Nat), rest.map Layer.id = objs.map f →
      rest.map Layer.properties = objs.map g →
      (rest.filter (fun l => q l.id)).map Layer.properties =
        (objs.filter (fun a => q (f a))).map g := by
  intro rest
  induction rest with
  | nil =>
    intro objs h1 _
    cases objs with
    | nil => rfl
    | cons a objs => simp at h1
  | cons l rest ih =>
    intro objs h1 h2
    cases objs with
    | nil => simp at h1
    | cons a objs =>
      simp only [List.map_cons, List.cons.injEq] at h1 h2
      have e := ih objs h1.2 h2.2
      by_cases hq : q l.id = true
      · have hq2 : q (f a) = true := by rw [← h1.1]; exact hq
        simp [List.filter_cons, hq, hq2, e, h2.1]
      · have hq2 : ¬ q (f a) = true := by rw [← h1.1]; exact hq
        simp [List.filter_cons, hq, hq2, e]

theorem updateFirst_aligned (s : App) (r : Nat) (property : String) (fv : Value)
    (hwf : r < s.heap.length) :
    ∀ (rest : List Layer) (objs : List Nat), rest.map Layer.id = objs.map (idOf s) →
      rest.map Layer.properties = objs.map (deref s) → (objs.map (idOf s)).Nodup →
      r ∈ objs → idOf s r ≠ Value.nan →
      (updateFirst (fun l => strictEq l.id (idOf s r))
          (fun l => { l with properties := setProp l.properties property fv }) rest).map
          Layer.properties =
        objs.map (fun a => (s.heap.set r (setProp (deref s r) property fv)).getD a []) := by
  intro rest
  induction rest with
  | nil =>
    intro objs h1 _ _ hr _
    cases objs with
    | nil => simp at hr
    | cons a objs => simp at h1
  | cons l rest ih =>
    intro objs h1 h2 hn hr hnan
    cases objs with
    | nil => simp at hr
    | cons a objs =>
      simp only [List.map_cons, List.cons.injEq] at h1 h2
      simp only [List.map_cons, List.nodup_cons, List.mem_map, not_exists, not_and] at hn
      by_cases har : a = r
      · subst har
        have hp : strictEq l.id (idOf s a) = true := by
          rw [h1.1]; exact strictEq_self _ hnan
        simp only [updateFirst, hp, if_true, List.map_cons, getD_set_same _ _ _ hwf, h2.1,
          List.cons.injEq, true_and]
        rw [h2.2]
        apply List.map_congr_left
        intro b hb
        have hba : a ≠ b := by
          intro e
          subst e
          exact hn.1 a hb rfl
        rw [getD_set_ne _ _ _ _ hba]
        rfl
      · have hr2 : r ∈ objs := by
          rcases List.mem_cons.1 hr with h | h
          · exact absurd h.symm har
          · exact h
        have hp : strictEq l.id (idOf s r) = false := by
          rw [← Bool.not_eq_true, h1.1]
          intro e
          exact hn.1 r hr2 (strictEq_eq _ _ e).symm
        simp only [updateFirst, hp, Bool.false_eq_true, if_false, List.map_cons,
          getD_set_ne _ _ _ _ (Ne.symm har), List.cons.injEq]
        exact ⟨h2.1, ih objs h1.2 h2.2 hn.2 hr2 hnan⟩

theorem finishDrawing_synced (B : Builtins) (s : App) (hs : Sound s) (hl : Linked s)
    (h : Synced s) : Synced (finishDrawing B s) := by
  cases hdp : s.drawingPath with
  | none =>
    have : finishDrawing B s = s := by simp [finishDrawing, hdp]
    rw [this]; exact h
  | some dp =>
    cases hadd : shouldAdd B dp with
    | false =>
      rw [finishDrawing_discard B s dp hdp hadd]
      exact synced_of_frame s _ h rfl rfl rfl
    | true =>
      rw [finishDrawing_commit B s dp hdp hadd]
      obtain ⟨bg, rest, hls, -, -⟩ := layers_cons s hl
      unfold Synced objectList at *
      rw [hls] at h
      simp only [List.tail_cons] at h
      simp only [hls, List.cons_append, List.tail_cons, List.map_append, List.map_cons,
        List.map_nil, h, newLayer, deref]
      rw [getD_append_new]
      congr 1
      apply List.map_congr_left
      intro r hr
      simp only [deref]
      rw [getD_append_old _ _ _ (hs.wf r hr)]

theorem updateObjectProperty_synced (B : Builtins) (property value : String) (s : App)
    (hp : property ≠ "id") (hs : Sound s) (hl : Linked s) (hd : distinctIds s)
    (h : Synced s) : Synced (updateObjectProperty B property value s) := by
  cases hsel : s.selectedObject with
  | none =>
    have : updateObjectProperty B property value s = s := by simp [updateObjectProperty, hsel]
    rw [this]; exact h
  | some r =>
    have hr : r ∈ s.objects := hs.sel r hsel
    have hwf : r < s.heap.length := hs.wf r hr
    obtain ⟨bg, rest, hls, hbg, hids⟩ := layers_cons s hl
    obtain ⟨n, hn⟩ := hl.ids r hr
    have hid : getProp (setProp (deref s r) property (finalValue B value)) "id" = idOf s r := by
      rw [getProp_setProp_ne _ _ _ _ hp]
      rfl
    have hbg2 : strictEq bg.id (idOf s r) = false := by
      rw [hbg, hn, ← Bool.not_eq_true, strictEq_str]
      exact fun e => objId_ne_layer1 n e.symm
    have e1 : (updateObjectProperty B property value s).layers =
        bg :: updateFirst (fun l => strictEq l.id (idOf s r))
          (fun l => { l with properties := setProp l.properties property (finalValue B value) })
          rest := by
      simp only [updateObjectProperty, hsel, hid, hls, updateFirst, hbg2, Bool.false_eq_true,
        if_false]
    have e2 : (updateObjectProperty B property value s).objects = s.objects := by
      simp [updateObjectProperty, hsel]
    have e3 : (updateObjectProperty B property value s).heap =
        s.heap.set r (setProp (deref s r) property (finalValue B value)) := by
      simp [updateObjectProperty, hsel]
    unfold Synced objectList at h ⊢
    rw [hls] at h
    simp only [List.tail_cons] at h
    rw [e1, e2, List.tail_cons,
      updateFirst_aligned s r property (finalValue B value) hwf rest s.objects hids h hd hr
        (hs.ids r hr)]
    apply List.map_congr_left
    intro a _
    simp only [deref, e3]

theorem deleteSelectedObject_synced (s : App) (hs : Sound s) (hl : Linked s) (h : Synced s) :
    Synced (deleteSelectedObject s) := by
  cases hsel : s.selectedObject with
  | none =>
    have : deleteSelectedObject s = s := by simp [deleteSelectedObject, hsel]
    rw [this]; exact h
  | some r =>
    obtain ⟨bg, rest, hls, hbg, hids⟩ := layers_cons s hl
    obtain ⟨n, hn⟩ := hl.ids r (hs.sel r hsel)
    have hbg2 : strictEq bg.id (idOf s r) = false := by
      rw [hbg, hn, ← Bool.not_eq_true, strictEq_str]
      exact fun e => objId_ne_layer1 n e.symm
    have e1 : (deleteSelectedObject s).layers =
        bg :: rest.filter (fun l => !strictEq l.id (idOf s r)) := by
      have hbg3 : strictEq bg.id (getProp (deref s r) "id") = false := hbg2
      simp only [deleteSelectedObject, hsel, hls, List.filter_cons, hbg3, Bool.not_false,
        if_true, idOf]
    have e2 : (deleteSelectedObject s).objects =
        s.objects.filter (fun a => !strictEq (idOf s a) (idOf s r)) := by
      simp only [deleteSelectedObject, hsel, idOf]
    have e3 : (deleteSelectedObject s).heap = s.heap := by
      simp [deleteSelectedObject, hsel]
    unfold Synced objectList at h ⊢
    rw [hls] at h
    simp only [List.tail_cons] at h
    rw [e1, e2, List.tail_cons,
      filter_aligned (idOf s) (deref s) (fun v => !strictEq v (idOf s r)) rest s.objects hids h]
    apply List.map_congr_left
    intro a _
    simp only [deref, e3]

/-- An input of the page that meets distinct ids keeps the layer copies equal to the
objects. -/
theorem step_synced (B : Builtins) (s : App) (e : Event) (he : e.fromPage) (hs : Sound s)
    (hl : Linked s) (hd : distinctIds s) (h : Synced s) : Synced (step B s e) := by
  cases e with
  | tool toolId => exact synced_of_frame s _ h rfl rfl rfl
  | mouseDown now point =>
    simp only [step, onCanvasMouseDown]
    split_ifs
    · exact h
    · obtain ⟨hh, ho, hl2, -⟩ := startDrawing_frame now point { s with isDrawing := true }
      exact synced_of_frame s _ h hh ho hl2
  | mouseMove point =>
    simp only [step, onCanvasMouseMove]
    split_ifs
    · obtain ⟨hh, ho, hl2, -⟩ := updateDrawing_frame B point s
      exact synced_of_frame s _ h hh ho hl2
    · exact h
  | mouseUp =>
    simp only [step, onCanvasMouseUp]
    split_ifs
    · exact synced_of_frame (finishDrawing B s) _ (finishDrawing_synced B s hs hl h) rfl rfl rfl
    · exact h
  | click point =>
    simp only [step, onCanvasClick]
    split_ifs
    · exact synced_of_frame s _ h rfl rfl rfl
    · exact h
  | layerClick i =>
    simp only [step]
    cases s.layers.get? i with
    | none => exact h
    | some layer => exact synced_of_frame s _ h rfl rfl rfl
  | propertyChange property value =>
    exact updateObjectProperty_synced B property value s (formField_ne_id property he) hs hl hd h
  | deleteKey =>
    simp only [step, onDeleteKey]
    split_ifs
    · exact deleteSelectedObject_synced s hs hl h
    · exact h

theorem run_synced (B : Builtins) (es : List Event) (s : App) (hp : ∀ e ∈ es, e.fromPage)
    (hd : DistinctAlong B s es) (hs : Sound s) (hl : Linked s) (h : Synced s) :
    Synced (run B s es) := by
  induction es generalizing s with
  | nil => exact h
  | cons e es ih =>
    have he := hp e (List.mem_cons_self _ _)
    exact ih (step B s e) (fun x hx => hp x (List.mem_cons_of_mem _ hx)) hd.2
      (step_sound B s e hs) (step_linked B s e he hs hl) (step_synced B s e he hs hl hd.1 h)

theorem aligned_copy (f : Nat → Value) (g : Nat → Obj) :
    ∀ (rest : List Layer) (objs : List Nat), rest.map Layer.id = objs.map f →
      rest.map Layer.properties = objs.map g →
      ∀ r ∈ objs, ∃ l ∈ rest, l.id = f r ∧ l.properties = g r := by
  intro rest
  induction rest with
  | nil =>
    intro objs h1 _ r hr
    cases objs with
    | nil => simp at hr
    | cons a objs => simp at h1
  | cons l rest ih =>
    intro objs h1 h2 r hr
    cases objs with
    | nil => simp at hr
    | cons a objs =>
      simp only [List.map_cons, List.cons.injEq] at h1 h2
      rcases List.mem_cons.1 hr with h | h
      · subst h
        exact ⟨l, List.mem_cons_self _ _, h1.1, h2.1⟩
      · obtain ⟨l2, hl2, h3⟩ := ih objs h1.2 h2.2 r h
        exact ⟨l2, List.mem_cons_of_mem _ hl2, h3⟩

/-- The part of C13 that holds: along a run of page inputs in which the ids of the object
list stay pairwise distinct, the `properties` of the layers after the seeded one are, in
order, equal to the objects; so every object has a layer with its id whose copy agrees
with it on every field. -/
theorem layer_copies_distinct_ids (B : Builtins) (es : List Event)
    (hp : ∀ e ∈ es, e.fromPage) (hd : DistinctAlong B init es) :
    (run B init es).layers.tail.map Layer.properties = objectList (run B init es) ∧
    (∀ r ∈ (run B init es).objects, ∃ l ∈ (run B init es).layers,
      l.id = idOf (run B init es) r ∧ l.properties = deref (run B init es) r) := by
  have hs := run_sound B es init sound_init
  have hl := run_linked B es init hp sound_init linked_init
  have h := run_synced B es init hp hd sound_init linked_init synced_init
  refine ⟨h, ?_⟩
  obtain ⟨bg, rest, hls, -, hids⟩ := layers_cons _ hl
  intro r hr
  unfold Synced objectList at h
  rw [hls] at h
  obtain ⟨l, hl1, hl2⟩ := aligned_copy _ _ rest _ hids h r hr
  exact ⟨l, by rw [hls]; exact List.mem_cons_of_mem _ hl1, hl2⟩

/-- The part of C13 that holds, on a concrete run: one rectangle is drawn, selected and
given the fill `#123456`; the only layer after the seeded one stores a copy equal to it. -/
theorem layer_copies_distinct_ids_witness :
    getProp (deref (run platform init
      (drawOne ++ [Event.click ⟨20, 20⟩, Event.propertyChange "fill" "#123456"])) 0) "fill" =
      Value.str "#123456" ∧
    ((run platform init
        (drawOne ++ [Event.click ⟨20, 20⟩, Event.propertyChange "fill" "#123456"])).layers.tail.map
        Layer.properties =
      objectList (run platform init
        (drawOne ++ [Event.click ⟨20, 20⟩, Event.propertyChange "fill" "#123456"])) ∧
    (∀ r ∈ (run platform init
        (drawOne ++ [Event.click ⟨20, 20⟩, Event.propertyChange "fill" "#123456"])).objects,
      ∃ l ∈ (run platform init
        (drawOne ++ [Event.click ⟨20, 20⟩, Event.propertyChange "fill" "#123456"])).layers,
      l.id = idOf (run platform init
        (drawOne ++ [Event.click ⟨20, 20⟩, Event.propertyChange "fill" "#123456"])) r ∧
      l.properties = deref (run platform init
        (drawOne ++ [Event.click ⟨20, 20⟩, Event.propertyChange "fill" "#123456"])) r)) :=
  ⟨by decide!,
    layer_copies_distinct_ids platform
      (drawOne ++ [Event.click ⟨20, 20⟩, Event.propertyChange "fill" "#123456"])
      (by simp [drawOne, Event.fromPage, formFields])
      ⟨by unfold distinctIds; decide!, by unfold distinctIds; decide!,
        by unfold distinctIds; decide!, by unfold distinctIds; decide!,
        by unfold distinctIds; decide!, by unfold distinctIds; decide!, trivial⟩⟩

end DesignStudio
